import Mathlib

/-!
# Per-pixel Gaussian-mixture background model

A shallow embedding of `Background::processPixel` and of the frame loops
`Background::processFrame` and `Background::processFrameSIMD` (src/src/background.cpp),
of `Background::processPixelSSE2` (src/background_sse2.cpp), and of
`Classifier::updateCounters` (src/classifier.cpp).

Conventions of the embedding:

* `float` and `double` values are elements of a linearly ordered field `F`; every
  arithmetic operation is the exact field operation (no rounding, no NaN, no
  infinities).  The results below are therefore statements about the kernels in
  exact arithmetic.
* The calls into the C math library (`sqrt`, `exp`, `log`, `pow`, the constant
  `M_PI`) and their vectorised counterparts (`_mm_sqrt_ps`, `exp_ps`, `log_ps`)
  are the fields of a `FloatOps F` value that every kernel receives.  All
  definitions stay executable; the exact real reading is obtained by passing
  `Real.sqrt`, `Real.exp`, `Real.log`, `Real.rpow` and `Real.pi`.
* A `uint8_t` colour channel is a natural number, converted to `F` by the cast.
* `GaussianMixture` (a C array of `GAUSSIANS_PER_PIXEL` structs) is a function on
  `Fin 3`; a range-`for` over it is a left fold over the indices in increasing
  order.
* An `__m128i` register is the function from its 16 byte positions to byte values;
  byte memory is a function from offsets to natural numbers, read modulo 256.  The
  conversions between `float` and integers (`_mm_cvtepi32_ps`, `_mm_cvtps_epi32`, the
  scalar `float` to `uint8_t` assignment) need a floor function on `F`.
* `uint32_t` index arithmetic of the frame loops is arithmetic modulo `2 ^ 32`; the
  work of the thread pool is the list of kernel invocations of each worker.
* The classes `MovingObject` and `Direction` are declared in headers outside the
  sources; the operations `updateCounters` applies to them are parameters
  (`CounterOps`).
-/

namespace Tim

/-- The math-library functions the kernels call. -/
structure FloatOps (F : Type) where
  sqrt : F → F
  exp : F → F
  log : F → F
  pow : F → F → F
  pi : F

/-- Fields of `Background::Gaussian` (background.h). -/
@[ext]
structure Gaussian (F : Type) where
  meanB : F
  meanG : F
  meanR : F
  variance : F
  weight : F

/-- The type `typedef Gaussian GaussianMixture[GAUSSIANS_PER_PIXEL]`, an array of three
components. -/
abbrev GaussianMixture (F : Type) : Type := Fin 3 → Gaussian F

/-- The four `float` members of `BackgroundParameters` that the kernels read. -/
structure BackgroundParameters (F : Type) where
  initialVariance : F
  initialWeight : F
  learningRate : F
  foregroundThreshold : F

/-- The members of `Background` read by the kernels. -/
structure Background (F : Type) where
  etaConst : F
  params : BackgroundParameters F

/-- An OpenCV `Vec3b`: the three colour bytes `bgr[0]`, `bgr[1]`, `bgr[2]`. -/
structure Vec3b where
  c0 : Nat
  c1 : Nat
  c2 : Nat

/-- The local variables `mixture`, `matchFound`, `weightSum` of `processPixel`. -/
structure PixelState (F : Type) where
  mixture : GaussianMixture F
  matchFound : Bool
  weightSum : F

section Scalar

variable {F : Type} [LinearOrderedField F]

/-- The member initialiser `etaConst(pow(2 * M_PI, 3.0 / 2.0))` of the constructor. -/
def Background.init (ops : FloatOps F) (params : BackgroundParameters F) : Background F :=
  { etaConst := ops.pow (2 * ops.pi) (3 / 2), params := params }

/-- The local `distance = dR*dR + dG*dG + dB*dB` of the match loop. -/
def sqDistance (bgr : Vec3b) (gauss : Gaussian F) : F :=
  let dB := gauss.meanB - (bgr.c0 : F)
  let dG := gauss.meanG - (bgr.c1 : F)
  let dR := gauss.meanR - (bgr.c2 : F)
  dR * dR + dG * dG + dB * dB

/-- The test `sqrt(distance) < 2.5*sqrt(gauss.variance)` of the match loop. -/
def withinRange (ops : FloatOps F) (bgr : Vec3b) (gauss : Gaussian F) : Bool :=
  decide (ops.sqrt (sqDistance bgr gauss) < 2.5 * ops.sqrt gauss.variance)

/-- The local `rho` of the matched branch (background.cpp lines 164-169). -/
def matchRho (ops : FloatOps F) (self : Background F) (bgr : Vec3b) (gauss : Gaussian F) : F :=
  let distance := sqDistance bgr gauss
  let stdDev := ops.sqrt gauss.variance
  let exponent := (-0.5 * distance) / gauss.variance
  let eta := ops.exp exponent / (self.etaConst * stdDev * stdDev * stdDev)
  self.params.learningRate * eta

/-- The matched branch of the loop body (lines 160-175): new mean and variance,
weight untouched. -/
def matchUpdate (ops : FloatOps F) (self : Background F) (bgr : Vec3b) (gauss : Gaussian F) :
    Gaussian F :=
  let distance := sqDistance bgr gauss
  let rho := matchRho ops self bgr gauss
  let oneMinusRho := 1 - rho
  { meanB := oneMinusRho * gauss.meanB + rho * (bgr.c0 : F)
    meanG := oneMinusRho * gauss.meanG + rho * (bgr.c1 : F)
    meanR := oneMinusRho * gauss.meanR + rho * (bgr.c2 : F)
    variance := oneMinusRho * gauss.variance + rho * distance
    weight := gauss.weight }

/-- The `else` branch of the loop body (line 179). -/
def decayWeight (self : Background F) (gauss : Gaussian F) : Gaussian F :=
  { gauss with weight := (1 - self.params.learningRate) * gauss.weight }

/-- One iteration of `for (Gaussian& gauss : mixture)` (lines 151-183) at index `i`. -/
def matchStep (ops : FloatOps F) (self : Background F) (bgr : Vec3b)
    (st : PixelState F) (i : Fin 3) : PixelState F :=
  let gauss := st.mixture i
  if withinRange ops bgr gauss && !st.matchFound then
    let gauss1 := matchUpdate ops self bgr gauss
    { mixture := Function.update st.mixture i gauss1
      matchFound := true
      weightSum := st.weightSum + gauss1.weight }
  else
    let gauss1 := decayWeight self gauss
    { mixture := Function.update st.mixture i gauss1
      matchFound := st.matchFound
      weightSum := st.weightSum + gauss1.weight }

/-- The match loop of `processPixel` (lines 148-183). -/
def matchLoop (ops : FloatOps F) (self : Background F) (bgr : Vec3b)
    (mixture : GaussianMixture F) : PixelState F :=
  (List.finRange 3).foldl (matchStep ops self bgr)
    { mixture := mixture, matchFound := false, weightSum := 0 }

/-- Index of the component the match loop matches: the first one passing the range
test, if any (used to state what the loop computes). -/
def firstMatch (ops : FloatOps F) (bgr : Vec3b) (mixture : GaussianMixture F) :
    Option (Fin 3) :=
  (List.finRange 3).find? (fun i => withinRange ops bgr (mixture i))

/-- The call `std::min_element(begin, end, a.weight < b.weight)`: index of the first
smallest weight. -/
def minElement (mixture : GaussianMixture F) : Fin 3 :=
  ((List.finRange 3).tail).foldl
    (fun smallest i => if (mixture i).weight < (mixture smallest).weight then i else smallest) 0

/-- The call `std::max_element(begin, end, a.weight < b.weight)`: index of the first
largest weight. -/
def maxElement (mixture : GaussianMixture F) : Fin 3 :=
  ((List.finRange 3).tail).foldl
    (fun largest i => if (mixture largest).weight < (mixture i).weight then i else largest) 0

/-- The sum recomputed by `weightSum = 0; for (...) weightSum += gauss.weight;`. -/
def sumWeights (mixture : GaussianMixture F) : F :=
  (List.finRange 3).foldl (fun s i => s + (mixture i).weight) 0

/-- The block `if(!matchFound) ...` of `processPixel` (lines 185-203). -/
def replaceStep (self : Background F) (bgr : Vec3b) (st : PixelState F) : PixelState F :=
  if !st.matchFound then
    let k := minElement st.mixture
    let gauss : Gaussian F :=
      { meanB := (bgr.c0 : F)
        meanG := (bgr.c1 : F)
        meanR := (bgr.c2 : F)
        weight := self.params.initialWeight
        variance := self.params.initialVariance }
    let mixture1 := Function.update st.mixture k gauss
    { mixture := mixture1, matchFound := st.matchFound, weightSum := sumWeights mixture1 }
  else st

/-- The state of `processPixel` just before the weights are renormalised (line 205). -/
def beforeNormalize (ops : FloatOps F) (self : Background F) (bgr : Vec3b)
    (mixture : GaussianMixture F) : PixelState F :=
  replaceStep self bgr (matchLoop ops self bgr mixture)

/-- The renormalisation `invWeightSum = 1.0 / weightSum; gauss.weight *= invWeightSum`
(lines 207-209). -/
def normalize (st : PixelState F) : GaussianMixture F :=
  let invWeightSum := 1 / st.weightSum
  (List.finRange 3).foldl
    (fun m i => Function.update m i { m i with weight := (m i).weight * invWeightSum })
    st.mixture

/-- The local `epsilon_bg` of `processPixel` (lines 216-220) for the component `gauss`. -/
def epsilonBg (ops : FloatOps F) (bgr : Vec3b) (gauss : Gaussian F) : F :=
  let e0 := 2 * ops.log (2 * ops.pi)
  let e1 := e0 + 3 * ops.log (ops.sqrt gauss.variance)
  let e2 := e1 + 0.5 * ((bgr.c0 : F) - gauss.meanB) * ((bgr.c0 : F) - gauss.meanB) / gauss.variance
  let e3 := e2 + 0.5 * ((bgr.c1 : F) - gauss.meanG) * ((bgr.c1 : F) - gauss.meanG) / gauss.variance
  e3 + 0.5 * ((bgr.c2 : F) - gauss.meanR) * ((bgr.c2 : F) - gauss.meanR) / gauss.variance

/-- The function `Background::processPixel`: the updated mixture and the returned
foreground flag. -/
def processPixel (ops : FloatOps F) (self : Background F) (bgr : Vec3b)
    (mixture : GaussianMixture F) : GaussianMixture F × Bool :=
  let mixture1 := normalize (beforeNormalize ops self bgr mixture)
  let gauss := mixture1 (maxElement mixture1)
  (mixture1, decide (epsilonBg ops bgr gauss > self.params.foregroundThreshold))

end Scalar

section Vectorized

variable {F : Type} [LinearOrderedField F]

/-- An `__m128` register holding four `float` lanes. -/
abbrev M128 (F : Type) : Type := Fin 4 → F

/-- An `__m128` register holding a comparison result: every lane is all-ones (`true`) or
all-zeros (`false`). -/
abbrev Mask : Type := Fin 4 → Bool

/-- The `float` array behind a `float*`, addressed by element offset from the pointer. -/
abbrev FloatMem (F : Type) : Type := Nat → F

/-- The intrinsic `_mm_load_ps(p + off)`. -/
def mm_load_ps (mem : FloatMem F) (off : Nat) : M128 F := fun k => mem (off + k.val)

/-- The intrinsic `_mm_store_ps(p + off, v)`. -/
def mm_store_ps (mem : FloatMem F) (off : Nat) (v : M128 F) : FloatMem F :=
  fun a => if h : off ≤ a ∧ a < off + 4 then v ⟨a - off, by omega⟩ else mem a

/-- The intrinsic `_mm_set1_ps(x)`. -/
def mm_set1_ps (x : F) : M128 F := fun _ => x

/-- The intrinsic `_mm_add_ps`. -/
def mm_add_ps (a b : M128 F) : M128 F := fun k => a k + b k

/-- The intrinsic `_mm_sub_ps`. -/
def mm_sub_ps (a b : M128 F) : M128 F := fun k => a k - b k

/-- The intrinsic `_mm_mul_ps`. -/
def mm_mul_ps (a b : M128 F) : M128 F := fun k => a k * b k

/-- The intrinsic `_mm_div_ps`. -/
def mm_div_ps (a b : M128 F) : M128 F := fun k => a k / b k

/-- The intrinsic `_mm_sqrt_ps`. -/
def mm_sqrt_ps (ops : FloatOps F) (a : M128 F) : M128 F := fun k => ops.sqrt (a k)

/-- The function `exp_ps` of sse_mathfun.h. -/
def exp_ps (ops : FloatOps F) (a : M128 F) : M128 F := fun k => ops.exp (a k)

/-- The function `log_ps` of sse_mathfun.h. -/
def log_ps (ops : FloatOps F) (a : M128 F) : M128 F := fun k => ops.log (a k)

/-- The intrinsic `_mm_min_ps`: per lane `a < b ? a : b`. -/
def mm_min_ps (a b : M128 F) : M128 F := fun k => if a k < b k then a k else b k

/-- The intrinsic `_mm_max_ps`: per lane `a > b ? a : b`. -/
def mm_max_ps (a b : M128 F) : M128 F := fun k => if a k > b k then a k else b k

/-- The intrinsic `_mm_cmplt_ps`. -/
def mm_cmplt_ps (a b : M128 F) : Mask := fun k => decide (a k < b k)

/-- The intrinsic `_mm_cmpgt_ps`. -/
def mm_cmpgt_ps (a b : M128 F) : Mask := fun k => decide (a k > b k)

/-- The intrinsic `_mm_cmpeq_ps`. -/
def mm_cmpeq_ps (a b : M128 F) : Mask := fun k => decide (a k = b k)

/-- The intrinsic `_mm_and_ps` on two masks. -/
def mm_and_ps (a b : Mask) : Mask := fun k => a k && b k

/-- The intrinsic `_mm_andnot_ps(a, b)` on two masks: `(~a) & b`. -/
def mm_andnot_ps (a b : Mask) : Mask := fun k => !a k && b k

/-- The intrinsic `_mm_or_ps` on two masks. -/
def mm_or_ps (a b : Mask) : Mask := fun k => a k || b k

/-- The idiom `_mm_xor_ps(m, (__m128)_mm_cmpeq_epi8(junk, junk))`: xor with all-ones. -/
def mm_not_ps (a : Mask) : Mask := fun k => !a k

/-- The idiom `_mm_or_ps(_mm_and_ps(mask, a), _mm_andnot_ps(mask, b))` on float lanes:
the lanes of `a` where the mask is set, the lanes of `b` elsewhere. -/
def mm_blend_ps (mask : Mask) (a b : M128 F) : M128 F := fun k => if mask k then a k else b k

/-- The intrinsic `_mm_movemask_ps` on a mask register: bit `k` is the sign bit of lane
`k`. -/
def mm_movemask_ps (m : Mask) : Nat :=
  (if m 0 then 1 else 0) + (if m 1 then 2 else 0) + (if m 2 then 4 else 0) +
    (if m 3 then 8 else 0)

/-- The locals `gaussian` (the memory behind it), `matched` and `weightSum` of
`processPixelSSE2` during its first loop. -/
structure SseState (F : Type) where
  gaussian : FloatMem F
  matched : Mask
  weightSum : M128 F

/-- One iteration of the first loop of `processPixelSSE2` (background_sse2.cpp lines
86-166). -/
def sseMatchStep (ops : FloatOps F) (self : Background F) (B G R : M128 F)
    (st : SseState F) (i : Fin 3) : SseState F :=
  let offset := 4 * i.val
  let meanB := mm_load_ps st.gaussian (0 + offset)
  let meanG := mm_load_ps st.gaussian (12 + offset)
  let meanR := mm_load_ps st.gaussian (24 + offset)
  let variance := mm_load_ps st.gaussian (36 + offset)
  let weight := mm_load_ps st.gaussian (48 + offset)
  let dB := mm_sub_ps meanB B
  let dG := mm_sub_ps meanG G
  let dR := mm_sub_ps meanR R
  let dB := mm_mul_ps dB dB
  let dG := mm_mul_ps dG dG
  let dR := mm_mul_ps dR dR
  let distance := mm_add_ps (mm_add_ps dB dG) dR
  let distanceSqrt := mm_sqrt_ps ops distance
  let stdDev := mm_sqrt_ps ops variance
  let mask := mm_cmplt_ps distanceSqrt (mm_mul_ps stdDev (mm_set1_ps 2.5))
  let mask := mm_andnot_ps st.matched mask
  let matched := mm_or_ps st.matched mask
  let exponent := mm_mul_ps distance (mm_set1_ps (-0.5))
  let exponent := mm_div_ps exponent variance
  let eta := exp_ps ops exponent
  let denominator := mm_set1_ps self.etaConst
  let denominator := mm_mul_ps denominator stdDev
  let denominator := mm_mul_ps denominator stdDev
  let denominator := mm_mul_ps denominator stdDev
  let eta := mm_div_ps eta denominator
  let rho := mm_mul_ps eta (mm_set1_ps self.params.learningRate)
  let oneMinusRho := mm_sub_ps (mm_set1_ps 1) rho
  let newMeanB := mm_mul_ps oneMinusRho meanB
  let newMeanB := mm_add_ps newMeanB (mm_mul_ps rho B)
  let meanB := mm_blend_ps mask newMeanB meanB
  let newMeanG := mm_mul_ps oneMinusRho meanG
  let newMeanG := mm_add_ps newMeanG (mm_mul_ps rho G)
  let meanG := mm_blend_ps mask newMeanG meanG
  let newMeanR := mm_mul_ps oneMinusRho meanR
  let newMeanR := mm_add_ps newMeanR (mm_mul_ps rho R)
  let meanR := mm_blend_ps mask newMeanR meanR
  let newVariance := mm_mul_ps oneMinusRho variance
  let newVariance := mm_add_ps newVariance (mm_mul_ps rho distance)
  let variance := mm_blend_ps mask newVariance variance
  let mask := mm_not_ps mask
  let newWeight := mm_mul_ps weight (mm_set1_ps (1 - self.params.learningRate))
  let weight := mm_blend_ps mask newWeight weight
  let weightSum := mm_add_ps st.weightSum weight
  let g := mm_store_ps st.gaussian (0 + offset) meanB
  let g := mm_store_ps g (12 + offset) meanG
  let g := mm_store_ps g (24 + offset) meanR
  let g := mm_store_ps g (36 + offset) variance
  let g := mm_store_ps g (48 + offset) weight
  { gaussian := g, matched := matched, weightSum := weightSum }

/-- The first loop of `processPixelSSE2` (lines 84-166), started from
`matched = weightSum = _mm_setzero_ps()`. -/
def sseMatchLoop (ops : FloatOps F) (self : Background F) (B G R : M128 F)
    (gaussian : FloatMem F) : SseState F :=
  (List.finRange 3).foldl (sseMatchStep ops self B G R)
    { gaussian := gaussian, matched := fun _ => false, weightSum := mm_set1_ps 0 }

/-- The locals `gaussian` (memory) and `weights[3]` of `processPixelSSE2` during and after
the replacement loop. -/
structure SseWeights (F : Type) where
  gaussian : FloatMem F
  weights : Fin 3 → M128 F

/-- One iteration of the replacement loop of `processPixelSSE2` (lines 187-214). -/
def sseReplaceStep (self : Background F) (B G R : M128 F) (minWeight : M128 F)
    (notMatched : Mask) (st : SseWeights F) (i : Fin 3) : SseWeights F :=
  let isMin := mm_cmpeq_ps minWeight (st.weights i)
  let isMin := mm_and_ps isMin notMatched
  let value := mm_load_ps st.gaussian (0 + 4 * i.val)
  let value := mm_blend_ps isMin B value
  let g := mm_store_ps st.gaussian (0 + 4 * i.val) value
  let value := mm_load_ps g (12 + 4 * i.val)
  let value := mm_blend_ps isMin G value
  let g := mm_store_ps g (12 + 4 * i.val) value
  let value := mm_load_ps g (24 + 4 * i.val)
  let value := mm_blend_ps isMin R value
  let g := mm_store_ps g (24 + 4 * i.val) value
  let value := mm_load_ps g (36 + 4 * i.val)
  let value := mm_blend_ps isMin (mm_set1_ps self.params.initialVariance) value
  let g := mm_store_ps g (36 + 4 * i.val) value
  { gaussian := g
    weights := Function.update st.weights i
      (mm_blend_ps isMin (mm_set1_ps self.params.initialWeight) (st.weights i)) }

/-- The replacement step of `processPixelSSE2` (lines 168-214). -/
def sseReplace (self : Background F) (B G R : M128 F) (gaussian : FloatMem F)
    (matched : Mask) : SseWeights F :=
  let weights : Fin 3 → M128 F := fun i => mm_load_ps gaussian (48 + 4 * i.val)
  let minWeight := mm_min_ps (weights 0) (mm_min_ps (weights 1) (weights 2))
  let notMatched := mm_not_ps matched
  (List.finRange 3).foldl (sseReplaceStep self B G R minWeight notMatched)
    { gaussian := gaussian, weights := weights }

/-- One iteration of the renormalisation loop of `processPixelSSE2` (lines 218-222). -/
def sseNormalizeStep (weightSum : M128 F) (st : SseWeights F) (i : Fin 3) : SseWeights F :=
  let w := mm_div_ps (st.weights i) weightSum
  { gaussian := mm_store_ps st.gaussian (48 + 4 * i.val) w
    weights := Function.update st.weights i w }

/-- The renormalisation of `processPixelSSE2` (lines 216-222). -/
def sseNormalize (st : SseWeights F) : SseWeights F :=
  let weightSum := mm_add_ps (st.weights 0) (mm_add_ps (st.weights 1) (st.weights 2))
  (List.finRange 3).foldl (sseNormalizeStep weightSum) st

/-- The locals `fgMask`, `bgB`, `bgG`, `bgR`, `bgVariance` of `processPixelSSE2`. -/
structure SseDominant (F : Type) where
  fgMask : Mask
  bgB : M128 F
  bgG : M128 F
  bgR : M128 F
  bgVariance : M128 F

/-- One iteration of the classification loop of `processPixelSSE2` (lines 232-266). -/
def sseClassifyStep (ops : FloatOps F) (self : Background F) (B G R : M128 F)
    (gaussian : FloatMem F) (weights : Fin 3 → M128 F) (maxWeight : M128 F)
    (st : SseDominant F) (i : Fin 3) : SseDominant F :=
  let isMax := mm_cmpeq_ps maxWeight (weights i)
  let meanB := mm_load_ps gaussian (0 + 4 * i.val)
  let meanG := mm_load_ps gaussian (12 + 4 * i.val)
  let meanR := mm_load_ps gaussian (24 + 4 * i.val)
  let variance := mm_load_ps gaussian (36 + 4 * i.val)
  let newEpsilon_bg : M128 F := mm_set1_ps (2 * ops.log (2 * ops.pi))
  let varianceTmp := log_ps ops (mm_sqrt_ps ops variance)
  let varianceTmp := mm_mul_ps varianceTmp (mm_set1_ps 3)
  let newEpsilon_bg := mm_add_ps newEpsilon_bg varianceTmp
  let dB := mm_sub_ps B meanB
  let dB := mm_mul_ps (mm_set1_ps 0.5) (mm_mul_ps dB dB)
  let newEpsilon_bg := mm_add_ps newEpsilon_bg (mm_div_ps dB variance)
  let dG := mm_sub_ps G meanG
  let dG := mm_mul_ps (mm_set1_ps 0.5) (mm_mul_ps dG dG)
  let newEpsilon_bg := mm_add_ps newEpsilon_bg (mm_div_ps dG variance)
  let dR := mm_sub_ps R meanR
  let dR := mm_mul_ps (mm_set1_ps 0.5) (mm_mul_ps dR dR)
  let newEpsilon_bg := mm_add_ps newEpsilon_bg (mm_div_ps dR variance)
  let newFgMask := mm_cmpgt_ps newEpsilon_bg (mm_set1_ps self.params.foregroundThreshold)
  { fgMask := mm_or_ps (mm_and_ps isMax newFgMask) (mm_andnot_ps isMax st.fgMask)
    bgB := mm_blend_ps isMax meanB st.bgB
    bgG := mm_blend_ps isMax meanG st.bgG
    bgR := mm_blend_ps isMax meanR st.bgR
    bgVariance := mm_blend_ps isMax variance st.bgVariance }

/-- The dominant-component selection of `processPixelSSE2` (lines 224-266).  The registers
`bgB`, `bgG`, `bgR`, `bgVariance` are declared without initialiser; `undef` stands for
their initial content. -/
def sseClassify (ops : FloatOps F) (self : Background F) (B G R : M128 F)
    (st : SseWeights F) (undef : M128 F) : SseDominant F :=
  let maxWeight := mm_max_ps (st.weights 0) (mm_max_ps (st.weights 1) (st.weights 2))
  (List.finRange 3).foldl (sseClassifyStep ops self B G R st.gaussian st.weights maxWeight)
    { fgMask := fun _ => false, bgB := undef, bgG := undef, bgR := undef, bgVariance := undef }

/-- The tail of `processPixelSSE2` (lines 311-319): the `uint8_t moveMask` and the
`uint32_t outMask` assembled from it. -/
def sseOutMask (fgMask : Mask) : Nat :=
  let moveMask := mm_movemask_ps fgMask % 2 ^ 8
  let outMask := 0
  let outMask := (outMask ||| ((moveMask &&& 0b00000001) <<< 0)) % 2 ^ 32
  let outMask := (outMask ||| ((moveMask &&& 0b00000010) <<< 8)) % 2 ^ 32
  let outMask := (outMask ||| ((moveMask &&& 0b00000100) <<< 16)) % 2 ^ 32
  let outMask := (outMask ||| ((moveMask &&& 0b00001000) <<< 24)) % 2 ^ 32
  outMask

/-- The store `*((uint32_t*)foregroundMask.data + idx/4) = fgMask` (little-endian): the mask
byte written for lane `k` of the group. -/
def maskByte (outMask : Nat) (k : Fin 4) : Nat := (outMask >>> (8 * k.val)) % 2 ^ 8

/-- The part of `processPixelSSE2` from the first loop to the dominant-component
selection (lines 84-266), given the deinterleaved colour registers `B`, `G`, `R`. -/
def sseUpdate (ops : FloatOps F) (self : Background F) (B G R : M128 F)
    (gaussian : FloatMem F) (undef : M128 F) : SseWeights F × SseDominant F :=
  let st := sseMatchLoop ops self B G R gaussian
  let rp := sseReplace self B G R st.gaussian st.matched
  let nm := sseNormalize rp
  (nm, sseClassify ops self B G R nm undef)

/-- The mixture of lane `k` of a 4-pixel block, per the memory layout of the block
(`meanB`, `meanG`, `meanR`, `variance`, `weight` of component `i` at offsets
`0 + 4*i`, `12 + 4*i`, `24 + 4*i`, `36 + 4*i`, `48 + 4*i`). -/
def laneMixture (gaussian : FloatMem F) (k : Fin 4) : GaussianMixture F :=
  fun i =>
    { meanB := gaussian (0 + 4 * i.val + k.val)
      meanG := gaussian (12 + 4 * i.val + k.val)
      meanR := gaussian (24 + 4 * i.val + k.val)
      variance := gaussian (36 + 4 * i.val + k.val)
      weight := gaussian (48 + 4 * i.val + k.val) }

/-- The scalar view of lane `k` of the first loop's state. -/
def laneState (st : SseState F) (k : Fin 4) : PixelState F :=
  { mixture := laneMixture st.gaussian k, matchFound := st.matched k, weightSum := st.weightSum k }

/-- The colour registers `B`, `G`, `R` holding the converted bytes of four pixels. -/
def colourLanes (px : Fin 4 → Vec3b) : M128 F × M128 F × M128 F :=
  (fun k => ((px k).c0 : F), fun k => ((px k).c1 : F), fun k => ((px k).c2 : F))

/-- Lane reading of `minWeight = _mm_min_ps(weights[0], _mm_min_ps(weights[1], weights[2]))`. -/
def laneMinWeight (m : GaussianMixture F) : F :=
  let a := if (m 1).weight < (m 2).weight then (m 1).weight else (m 2).weight
  if (m 0).weight < a then (m 0).weight else a

/-- Lane reading of `isMin` for component `i`: the weight equals `minWeight` and the lane
did not match. -/
def laneIsMin (st : PixelState F) (i : Fin 3) : Bool :=
  decide (laneMinWeight st.mixture = (st.mixture i).weight) && !st.matchFound

/-- Lane reading of the replacement loop (lines 187-214): every component whose `isMin`
lane is set receives the observed colour, `initialVariance` and `initialWeight`. -/
def laneReplace (self : Background F) (bgr : Vec3b) (st : PixelState F) : GaussianMixture F :=
  fun i =>
    if laneIsMin st i then
      { meanB := (bgr.c0 : F), meanG := (bgr.c1 : F), meanR := (bgr.c2 : F),
        variance := self.params.initialVariance, weight := self.params.initialWeight }
    else st.mixture i

/-- Lane reading of the renormalisation (lines 216-222). -/
def laneNormalize (m : GaussianMixture F) : GaussianMixture F :=
  fun i => { m i with
    weight := (m i).weight / ((m 0).weight + ((m 1).weight + (m 2).weight)) }

/-- Lane reading of `maxWeight = _mm_max_ps(weights[0], _mm_max_ps(weights[1], weights[2]))`. -/
def laneMaxWeight (m : GaussianMixture F) : F :=
  let a := if (m 1).weight > (m 2).weight then (m 1).weight else (m 2).weight
  if (m 0).weight > a then (m 0).weight else a

/-- Lane reading of the classification loop (lines 232-266): the component whose values
are left in `fgMask`, `bgB`, `bgG`, `bgR`, `bgVariance` is the last one, in loop order,
whose weight equals `maxWeight`. -/
def laneDominant (m : GaussianMixture F) : Fin 3 :=
  if laneMaxWeight m = (m 2).weight then 2
  else if laneMaxWeight m = (m 1).weight then 1
  else 0

/-- Lane reading of lines 84-222 of `processPixelSSE2`: the mixture one lane holds after
the renormalisation. -/
def sseLane (ops : FloatOps F) (self : Background F) (bgr : Vec3b)
    (mixture : GaussianMixture F) : GaussianMixture F :=
  laneNormalize (laneReplace self bgr (matchLoop ops self bgr mixture))

/-- A 4-pixel memory block in which every lane holds the mixture `m`, laid out as the
kernel expects it (the inverse of `laneMixture`, used to write concrete inputs). -/
def blockOf (m : GaussianMixture F) : FloatMem F :=
  fun a =>
    let g := m ⟨(a / 4) % 3, Nat.mod_lt _ (by decide)⟩
    if a < 12 then g.meanB
    else if a < 24 then g.meanG
    else if a < 36 then g.meanR
    else if a < 48 then g.variance
    else g.weight

/-- A mixture whose components 0 and 1 carry the same, largest weight. -/
def tiedMixture : GaussianMixture F :=
  ![⟨0, 0, 0, 1, 1 / 2⟩, ⟨100, 100, 100, 1, 1 / 2⟩, ⟨200, 200, 200, 1, 0⟩]

end Vectorized

section Packed

variable {F : Type} [LinearOrderedField F]

/-- An `__m128i` register as its 16 bytes, byte 0 being the lowest-addressed one. -/
abbrev M128i : Type := Fin 16 → Nat

/-- The bytes behind a `uint8_t*`, addressed by offset from the pointer. -/
abbrev ByteMem : Type := Nat → Nat

/-- The intrinsic `_mm_loadu_si128((const __m128i*)p)`. -/
def mm_loadu_si128 (p : ByteMem) : M128i := fun i => p i.val % 256

/-- The intrinsic `_mm_slli_si128(a, n)`: shift left by `n` bytes. -/
def mm_slli_si128 (a : M128i) (n : Nat) : M128i :=
  fun i => if h : n ≤ i.val then a ⟨i.val - n, by omega⟩ else 0

/-- The intrinsic `_mm_srli_si128(a, n)`: shift right by `n` bytes. -/
def mm_srli_si128 (a : M128i) (n : Nat) : M128i :=
  fun i => if h : i.val + n < 16 then a ⟨i.val + n, h⟩ else 0

/-- The intrinsic `_mm_set1_epi8(b)`. -/
def mm_set1_epi8 (b : Nat) : M128i := fun _ => b % 256

/-- The intrinsic `_mm_set1_epi16(v)`. -/
def mm_set1_epi16 (v : Nat) : M128i :=
  fun i => if i.val % 2 = 0 then v % 256 else v / 256 % 256

/-- The intrinsic `_mm_unpacklo_epi8(a, b)`: interleave the low 8 bytes. -/
def mm_unpacklo_epi8 (a b : M128i) : M128i :=
  fun i => if i.val % 2 = 0 then a ⟨i.val / 2, by omega⟩ else b ⟨i.val / 2, by omega⟩

/-- The intrinsic `_mm_unpackhi_epi8(a, b)`: interleave the high 8 bytes. -/
def mm_unpackhi_epi8 (a b : M128i) : M128i :=
  fun i => if i.val % 2 = 0 then a ⟨8 + i.val / 2, by omega⟩ else b ⟨8 + i.val / 2, by omega⟩

/-- The intrinsic `_mm_unpacklo_epi16(a, b)`: interleave the low four 16-bit elements. -/
def mm_unpacklo_epi16 (a b : M128i) : M128i :=
  fun i =>
    if i.val / 2 % 2 = 0 then a ⟨2 * (i.val / 4) + i.val % 2, by omega⟩
    else b ⟨2 * (i.val / 4) + i.val % 2, by omega⟩

/-- The intrinsic `_mm_unpackhi_epi16(a, b)`: interleave the high four 16-bit elements. -/
def mm_unpackhi_epi16 (a b : M128i) : M128i :=
  fun i =>
    if i.val / 2 % 2 = 0 then a ⟨8 + 2 * (i.val / 4) + i.val % 2, by omega⟩
    else b ⟨8 + 2 * (i.val / 4) + i.val % 2, by omega⟩

/-- The intrinsic `_mm_cvtepi32_ps`: each little-endian signed 32-bit element as a float. -/
def mm_cvtepi32_ps (a : M128i) : M128 F :=
  fun k =>
    let u := a ⟨4 * k.val, by omega⟩ + 256 * a ⟨4 * k.val + 1, by omega⟩ +
      65536 * a ⟨4 * k.val + 2, by omega⟩ + 16777216 * a ⟨4 * k.val + 3, by omega⟩
    if u < 2 ^ 31 then (u : F) else (u : F) - 2 ^ 32

/-- The macro `_MM_SHUFFLE(z, y, x, w)`. -/
def MM_SHUFFLE (z y x w : Nat) : Nat := (z <<< 6) ||| (y <<< 4) ||| (x <<< 2) ||| w

/-- The intrinsic `_mm_shuffle_ps(a, b, imm)`: lanes 0 and 1 from `a`, lanes 2 and 3 from
`b`, selected by the four 2-bit fields of `imm`. -/
def mm_shuffle_ps (a b : M128 F) (imm : Nat) : M128 F :=
  fun k =>
    if k = 0 then a ⟨imm % 4, Nat.mod_lt _ (by decide)⟩
    else if k = 1 then a ⟨(imm >>> 2) % 4, Nat.mod_lt _ (by decide)⟩
    else if k = 2 then b ⟨(imm >>> 4) % 4, Nat.mod_lt _ (by decide)⟩
    else b ⟨(imm >>> 6) % 4, Nat.mod_lt _ (by decide)⟩

/-- The intrinsic `_mm_move_ss(a, b)`: lane 0 of `b`, lanes 1 to 3 of `a`. -/
def mm_move_ss (a b : M128 F) : M128 F := fun k => if k = 0 then b 0 else a k

/-- The head of `processPixelSSE2` (background_sse2.cpp lines 27-73): the registers
`B`, `G`, `R` computed from the 16 bytes at `frame`. -/
def sseLoadColours (frame : ByteMem) : M128 F × M128 F × M128 F :=
  let bgr := mm_loadu_si128 frame
  let bgr := mm_slli_si128 bgr 4
  let hi16 := mm_unpacklo_epi8 bgr (mm_set1_epi8 0)
  let lo16 := mm_unpackhi_epi8 bgr (mm_set1_epi8 0)
  let lo32 := mm_unpackhi_epi16 lo16 (mm_set1_epi16 0)
  let mi32 := mm_unpacklo_epi16 lo16 (mm_set1_epi16 0)
  let hi32 := mm_unpackhi_epi16 hi16 (mm_set1_epi16 0)
  let lo : M128 F := mm_cvtepi32_ps lo32
  let mi : M128 F := mm_cvtepi32_ps mi32
  let hi : M128 F := mm_cvtepi32_ps hi32
  let hi := mm_shuffle_ps hi hi (MM_SHUFFLE 1 2 3 0)
  let r1_r2 := mm_shuffle_ps hi mi (MM_SHUFFLE 1 0 0 2)
  let hi_tmp := mm_shuffle_ps hi mi (MM_SHUFFLE 3 2 1 0)
  let hi_tmp := mm_shuffle_ps hi_tmp hi_tmp (MM_SHUFFLE 0 2 1 3)
  let hi_tmp := mm_move_ss hi_tmp (mm_shuffle_ps lo lo (MM_SHUFFLE 0 0 0 1))
  let hi_tmp := mm_shuffle_ps hi_tmp hi_tmp (MM_SHUFFLE 0 2 1 3)
  let mi := mm_shuffle_ps mi mi (MM_SHUFFLE 1 3 0 2)
  let mi := mm_move_ss mi (mm_shuffle_ps hi hi (MM_SHUFFLE 0 0 0 3))
  let mi := mm_shuffle_ps mi mi (MM_SHUFFLE 0 2 1 3)
  let mi := mm_move_ss mi (mm_shuffle_ps lo lo (MM_SHUFFLE 0 0 0 2))
  let mi := mm_shuffle_ps mi mi (MM_SHUFFLE 0 2 1 3)
  let lo := mm_shuffle_ps lo lo (MM_SHUFFLE 3 0 1 2)
  let lo := mm_shuffle_ps r1_r2 lo (MM_SHUFFLE 3 2 3 0)
  (hi_tmp, mi, lo)

end Packed

section PackIntrinsics

variable {F : Type} [LinearOrderedField F]

/-- The macro `_MM_TRANSPOSE4_PS(r0, r1, r2, r3)`: the four rows after the in-place
transposition. -/
def MM_TRANSPOSE4_PS (r0 r1 r2 r3 : M128 F) : M128 F × M128 F × M128 F × M128 F :=
  let col : Fin 4 → M128 F := fun i j =>
    if j = 0 then r0 i else if j = 1 then r1 i else if j = 2 then r2 i else r3 i
  (col 0, col 1, col 2, col 3)

/-- An `__m128i` register seen as four signed 32-bit elements. -/
abbrev Epi32 : Type := Fin 4 → Int

/-- An `__m128i` register seen as eight signed 16-bit elements. -/
abbrev Epi16 : Type := Fin 8 → Int

/-- The intrinsic `_mm_packs_epi32(a, b)`: signed saturation to 16 bits. -/
def mm_packs_epi32 (a b : Epi32) : Epi16 :=
  fun i =>
    let v := if h : i.val < 4 then a ⟨i.val, h⟩ else b ⟨i.val - 4, by omega⟩
    max (-32768) (min 32767 v)

/-- The intrinsic `_mm_packs_epi16(a, b)`: signed saturation to 8 bits; the result is
given as bytes (two's complement). -/
def mm_packs_epi16 (a b : Epi16) : M128i :=
  fun i =>
    let v := if h : i.val < 8 then a ⟨i.val, h⟩ else b ⟨i.val - 8, by omega⟩
    ((max (-128) (min 127 v)) % 256).toNat

/-- The intrinsic `_mm_setr_epi8(b0, ..., b15)`, from the list of its arguments. -/
def mm_setr_epi8 (bs : List Nat) : M128i := fun i => bs.getD i.val 0 % 256

/-- The intrinsic `_mm_setr_epi32(e0, e1, e2, e3)`, as bytes. -/
def mm_setr_epi32 (e0 e1 e2 e3 : Nat) : M128i :=
  fun i => ([e0, e1, e2, e3].getD (i.val / 4) 0 >>> (8 * (i.val % 4))) % 256

/-- The intrinsic `_mm_and_si128`. -/
def mm_and_si128 (a b : M128i) : M128i := fun i => a i &&& b i

/-- The intrinsic `_mm_andnot_si128(a, b)`: `(~a) & b`, bytewise. -/
def mm_andnot_si128 (a b : M128i) : M128i := fun i => (a i ^^^ 255) &&& b i

/-- The intrinsic `_mm_or_si128`. -/
def mm_or_si128 (a b : M128i) : M128i := fun i => a i ||| b i

end PackIntrinsics

section Pack

variable {F : Type} [LinearOrderedField F] [FloorRing F]

/-- Rounding of the default SSE mode (MXCSR round-to-nearest, ties to even). -/
def roundNearestEven (x : F) : Int :=
  let f := Int.floor x
  if x - (f : F) < 1 / 2 then f
  else if 1 / 2 < x - (f : F) then f + 1
  else if f % 2 = 0 then f else f + 1

/-- One lane of `_mm_cvtps_epi32`: the value rounded to a signed 32-bit integer; a value
out of range gives the "integer indefinite" `0x80000000`. -/
def cvtps_epi32_lane (x : F) : Int :=
  let r := roundNearestEven x
  if -2 ^ 31 ≤ r ∧ r < 2 ^ 31 then r else -2 ^ 31

/-- The intrinsic `_mm_cvtps_epi32`. -/
def mm_cvtps_epi32 (a : M128 F) : Epi32 := fun k => cvtps_epi32_lane (a k)

/-- The background write of `processPixelSSE2` (lines 268-306): the 16 bytes stored at
`currentBackground`. -/
def ssePackBackground (bgB bgG bgR : M128 F) (currentBackground : ByteMem) : M128i :=
  let bgT : M128 F := mm_set1_ps 0
  let t := MM_TRANSPOSE4_PS bgB bgG bgR bgT
  let bgBi := mm_cvtps_epi32 t.1
  let bgGi := mm_cvtps_epi32 t.2.1
  let bgRi := mm_cvtps_epi32 t.2.2.1
  let bgTi := mm_cvtps_epi32 t.2.2.2
  let bgB16 := mm_packs_epi32 bgBi bgGi
  let bgR16 := mm_packs_epi32 bgRi bgTi
  let bgBi := mm_packs_epi16 bgB16 bgR16
  let b2g2r2 := mm_and_si128 bgBi
    (mm_setr_epi8 [0, 0, 0, 0, 0xFF, 0xFF, 0xFF, 0, 0, 0, 0, 0, 0, 0, 0, 0])
  let b3g3r3 := mm_and_si128 bgBi
    (mm_setr_epi8 [0, 0, 0, 0, 0, 0, 0, 0, 0xFF, 0xFF, 0xFF, 0, 0, 0, 0, 0])
  let b4g4r4 := mm_and_si128 bgBi
    (mm_setr_epi8 [0, 0, 0, 0, 0, 0, 0, 0, 0, 0, 0, 0, 0xFF, 0xFF, 0xFF, 0])
  let bgBi := mm_andnot_si128 b2g2r2 bgBi
  let bgBi := mm_andnot_si128 b3g3r3 bgBi
  let bgBi := mm_andnot_si128 b4g4r4 bgBi
  let b2g2r2 := mm_srli_si128 b2g2r2 1
  let b3g3r3 := mm_srli_si128 b3g3r3 2
  let b4g4r4 := mm_srli_si128 b4g4r4 3
  let bgBi := mm_or_si128 (mm_or_si128 bgBi b2g2r2) (mm_or_si128 b3g3r3 b4g4r4)
  let bg := mm_loadu_si128 currentBackground
  let bgMask := mm_setr_epi32 0xFFFFFFFF 0xFFFFFFFF 0xFFFFFFFF 0
  mm_or_si128 (mm_and_si128 bgMask bgBi) (mm_andnot_si128 bgMask bg)

/-- The conversion of the scalar path `*currentBackgroundPtr++ = gauss.meanB`
(`float` to `uint8_t`): truncation toward zero. -/
def floatToUint8 (x : F) : Nat :=
  (if 0 ≤ x then Int.floor x else Int.ceil x).toNat % 256

/-- The three background bytes `processFrame` writes for a pixel whose maximum-weight
component is `gauss` (background.cpp lines 81-83). -/
def processFrameBackground (gauss : Gaussian F) : Nat × Nat × Nat :=
  (floatToUint8 gauss.meanB, floatToUint8 gauss.meanG, floatToUint8 gauss.meanR)

/-- The byte the vectorised path stores for a channel value: `_mm_cvtps_epi32`, then the
signed saturations of `_mm_packs_epi32` and `_mm_packs_epi16`. -/
def sseChannelByte (x : F) : Nat :=
  ((max (-128) (min 127 (max (-32768) (min 32767 (cvtps_epi32_lane x))))) % 256).toNat

end Pack

section Partition

/-- The loop `for (uint32_t idx = startIdx; idx < endIdx; idx += 4)` of `processFrameSIMD`:
the values of `idx` at which the kernel is invoked, in order.  `fuel` bounds the number
of iterations unrolled. -/
def groupLoop (endIdx : Nat) : Nat → Nat → List Nat
  | 0, _ => []
  | fuel + 1, idx =>
    if idx < endIdx then idx :: groupLoop endIdx fuel ((idx + 4) % 2 ^ 32) else []

/-- The kernel invocations of worker `i` of the multithreaded `processFrameSIMD`
(background.cpp lines 100-120). -/
def workerGroups (nPixels nThreads i : Nat) : List Nat :=
  let pixelsPerThread := nPixels / nThreads
  let startIdx := (pixelsPerThread * i) % 2 ^ 32
  let endIdx := (startIdx + pixelsPerThread) % 2 ^ 32
  groupLoop endIdx endIdx startIdx

/-- The four pixels one kernel invocation at `idx` processes, one per lane: the pixels
whose colour it evaluates and whose mixture, mask byte and standard deviation it updates.
The bytes the invocation accesses reach further, see `groupBytes`. -/
def groupPixels (idx : Nat) : List Nat := [idx, idx + 1, idx + 2, idx + 3]

/-- The pixel indices worker `i` processes. -/
def workerPixels (nPixels nThreads i : Nat) : List Nat :=
  (workerGroups nPixels nThreads i).flatMap groupPixels

/-- All kernel invocations of one multithreaded `processFrameSIMD` call, worker by worker
(`for (int i = 0; i < nThreads; i++)`). -/
def dispatchGroups (nPixels nThreads : Nat) : List Nat :=
  (List.range nThreads).flatMap (workerGroups nPixels nThreads)

/-- All pixel indices processed by one multithreaded `processFrameSIMD` call, with
multiplicity. -/
def dispatchPixels (nPixels nThreads : Nat) : List Nat :=
  (dispatchGroups nPixels nThreads).flatMap groupPixels

end Partition

section Iter
variable {F : Type} [LinearOrderedField F]

/-- A zero-initialised mixture. -/
def zeroMixture : GaussianMixture F := fun _ => ⟨0, 0, 0, 0, 0⟩

/-- The mixture of one pixel and the value returned by the last call after `n`
consecutive calls of `processPixel` with the same colour, one per frame
(`processFrame` on a constant frame). -/
def feedConstant (ops : FloatOps F) (self : Background F) (bgr : Vec3b)
    (mixture : GaussianMixture F) : Nat → GaussianMixture F × Bool
  | 0 => (mixture, false)
  | n + 1 => processPixel ops self bgr (feedConstant ops self bgr mixture n).1

/-- Invariant of a mixture fed with the constant colour `bgr`: the weights are
non-negative and sum to 1, and every component either has its mean at `bgr` or is an
untouched zero-weight, zero-variance component. -/
def ConstantFed (bgr : Vec3b) (m : GaussianMixture F) : Prop :=
  (∀ i, 0 ≤ (m i).weight) ∧
  (m 0).weight + (m 1).weight + (m 2).weight = 1 ∧
  ∀ i, ((m i).meanB = (bgr.c0 : F) ∧ (m i).meanG = (bgr.c1 : F) ∧ (m i).meanR = (bgr.c2 : F)) ∨
    ((m i).weight = 0 ∧ (m i).variance = 0)

/-- The function `processPixel` with the division `1.0 / weightSum` made partial: for
`weightSum = 0` the quotient has no value in exact arithmetic (the `float` code
produces an infinity and the weights become NaN or infinite), which is `none`. -/
def processPixelChecked (ops : FloatOps F) (self : Background F) (bgr : Vec3b)
    (mixture : GaussianMixture F) : Option (GaussianMixture F × Bool) :=
  if (beforeNormalize ops self bgr mixture).weightSum = 0 then none
  else some (processPixel ops self bgr mixture)

end Iter

section Sequential

end Sequential

section Blocks
variable {F : Type} [LinearOrderedField F]

end Blocks

section Counters

/-- The operations `Classifier::updateCounters` applies to the member `collisions` of a
`MovingObject` and to a `Direction` counter.  Both classes are declared in headers that
are not part of the sources, so the container type `C`, the counter type `D` and these
operations are parameters: `size` is `collisions.size()`, `lookup c k` is the value of
`collisions[k]`, `incr` is `operator++` of `Direction`.  The two lookups are taken to
leave the container unchanged: they happen only when `size() == 2`, and the keys are the
line IDs 0 and 1 that `checkCollisions` writes. -/
structure CounterOps (C D : Type) where
  size : C → Nat
  lookup : C → Nat → Nat
  incr : D → D

/-- The members of `MovingObject` that `Classifier::updateCounters` reads or writes. -/
structure MovingObject (C : Type) where
  collisions : C
  alreadyCounted : Bool

/-- The members of `Classifier` that `Classifier::updateCounters` reads or writes. -/
structure Classifier (C D : Type) where
  classifiedObjects : List (MovingObject C)
  naturalDirection : D
  oppositeDirection : D

variable {C D : Type}

/-- The test `obj.collisions.size() == 2 && !obj.alreadyCounted` (classifier.cpp
line 134). -/
def toBeCounted (ops : CounterOps C D) (obj : MovingObject C) : Bool :=
  decide (ops.size obj.collisions = 2) && !obj.alreadyCounted

/-- The test `line0Time < line1Time` on the two `uint32_t` locals (lines 136-138). -/
def crossedNaturally (ops : CounterOps C D) (obj : MovingObject C) : Bool :=
  let line0Time := ops.lookup obj.collisions 0 % 2 ^ 32
  let line1Time := ops.lookup obj.collisions 1 % 2 ^ 32
  decide (line0Time < line1Time)

/-- One iteration of `for (auto& obj: classifiedObjects)` in `Classifier::updateCounters`
(lines 132-145); the objects already visited are collected in `classifiedObjects` of the
state. -/
def updateCountersStep (ops : CounterOps C D) (self : Classifier C D) (obj : MovingObject C) :
    Classifier C D :=
  if toBeCounted ops obj then
    if crossedNaturally ops obj then
      { classifiedObjects := self.classifiedObjects ++ [{ obj with alreadyCounted := true }]
        naturalDirection := ops.incr self.naturalDirection
        oppositeDirection := self.oppositeDirection }
    else
      { classifiedObjects := self.classifiedObjects ++ [{ obj with alreadyCounted := true }]
        naturalDirection := self.naturalDirection
        oppositeDirection := ops.incr self.oppositeDirection }
  else
    { self with classifiedObjects := self.classifiedObjects ++ [obj] }

/-- The function `Classifier::updateCounters` (classifier.cpp lines 130-146). -/
def Classifier.updateCounters (ops : CounterOps C D) (self : Classifier C D) :
    Classifier C D :=
  self.classifiedObjects.foldl (updateCountersStep ops)
    { self with classifiedObjects := [] }

end Counters

section ScalarLemmas

variable {F : Type} [LinearOrderedField F]

theorem finRange_three : List.finRange 3 = [0, 1, 2] := rfl

theorem matchStep_mixture (ops : FloatOps F) (self : Background F) (bgr : Vec3b)
    (st : PixelState F) (i j : Fin 3) :
    (matchStep ops self bgr st i).mixture j =
      if j = i then
        (if withinRange ops bgr (st.mixture i) && !st.matchFound
          then matchUpdate ops self bgr (st.mixture i) else decayWeight self (st.mixture i))
      else st.mixture j := by
  cases h1 : withinRange ops bgr (st.mixture i) <;> cases h2 : st.matchFound <;>
    simp [matchStep, h1, h2, Function.update_apply]

theorem matchStep_matchFound (ops : FloatOps F) (self : Background F) (bgr : Vec3b)
    (st : PixelState F) (i : Fin 3) :
    (matchStep ops self bgr st i).matchFound =
      (st.matchFound || withinRange ops bgr (st.mixture i)) := by
  cases h1 : withinRange ops bgr (st.mixture i) <;> cases h2 : st.matchFound <;>
    simp [matchStep, h1, h2]

theorem matchStep_weightSum (ops : FloatOps F) (self : Background F) (bgr : Vec3b)
    (st : PixelState F) (i : Fin 3) :
    (matchStep ops self bgr st i).weightSum =
      st.weightSum + ((matchStep ops self bgr st i).mixture i).weight := by
  cases h1 : withinRange ops bgr (st.mixture i) <;> cases h2 : st.matchFound <;>
    simp [matchStep, h1, h2]

theorem matchLoop_mixture (ops : FloatOps F) (self : Background F) (bgr : Vec3b)
    (mixture : GaussianMixture F) (i : Fin 3) :
    (matchLoop ops self bgr mixture).mixture i =
      if firstMatch ops bgr mixture = some i then matchUpdate ops self bgr (mixture i)
      else decayWeight self (mixture i) := by
  by_cases h0 : withinRange ops bgr (mixture 0) = true <;>
    by_cases h1 : withinRange ops bgr (mixture 1) = true <;>
    by_cases h2 : withinRange ops bgr (mixture 2) = true <;>
    fin_cases i <;>
    simp [matchLoop, firstMatch, finRange_three, matchStep_mixture, matchStep_matchFound,
      List.find?_cons, h0, h1, h2]

theorem matchLoop_matchFound (ops : FloatOps F) (self : Background F) (bgr : Vec3b)
    (mixture : GaussianMixture F) :
    (matchLoop ops self bgr mixture).matchFound = (firstMatch ops bgr mixture).isSome := by
  by_cases h0 : withinRange ops bgr (mixture 0) = true <;>
    by_cases h1 : withinRange ops bgr (mixture 1) = true <;>
    by_cases h2 : withinRange ops bgr (mixture 2) = true <;>
    simp [matchLoop, firstMatch, finRange_three, matchStep_mixture, matchStep_matchFound,
      List.find?_cons, h0, h1, h2]

theorem matchLoop_weightSum (ops : FloatOps F) (self : Background F) (bgr : Vec3b)
    (mixture : GaussianMixture F) :
    (matchLoop ops self bgr mixture).weightSum =
      ((matchLoop ops self bgr mixture).mixture 0).weight +
      ((matchLoop ops self bgr mixture).mixture 1).weight +
      ((matchLoop ops self bgr mixture).mixture 2).weight := by
  simp only [matchLoop, finRange_three, List.foldl_cons, List.foldl_nil]
  rw [matchStep_weightSum, matchStep_weightSum, matchStep_weightSum]
  simp [matchStep_mixture]

theorem sumWeights_eq (mixture : GaussianMixture F) :
    sumWeights mixture = (mixture 0).weight + (mixture 1).weight + (mixture 2).weight := by
  simp [sumWeights, finRange_three]

theorem minElement_le (mixture : GaussianMixture F) (j : Fin 3) :
    (mixture (minElement mixture)).weight ≤ (mixture j).weight := by
  simp only [minElement, finRange_three, List.tail_cons, List.foldl_cons, List.foldl_nil]
  fin_cases j <;> split_ifs <;> simp_all <;> linarith

theorem minElement_first (mixture : GaussianMixture F) (j : Fin 3)
    (hj : j < minElement mixture) :
    (mixture (minElement mixture)).weight < (mixture j).weight := by
  revert hj
  simp only [minElement, finRange_three, List.tail_cons, List.foldl_cons, List.foldl_nil]
  fin_cases j <;> split_ifs <;> simp_all <;> linarith

theorem maxElement_ge (mixture : GaussianMixture F) (j : Fin 3) :
    (mixture j).weight ≤ (mixture (maxElement mixture)).weight := by
  simp only [maxElement, finRange_three, List.tail_cons, List.foldl_cons, List.foldl_nil]
  fin_cases j <;> split_ifs <;> simp_all <;> linarith

theorem maxElement_first (mixture : GaussianMixture F) (j : Fin 3)
    (hj : j < maxElement mixture) :
    (mixture j).weight < (mixture (maxElement mixture)).weight := by
  revert hj
  simp only [maxElement, finRange_three, List.tail_cons, List.foldl_cons, List.foldl_nil]
  fin_cases j <;> split_ifs <;> simp_all <;> linarith

theorem normalize_apply (st : PixelState F) (i : Fin 3) :
    normalize st i =
      { st.mixture i with weight := (st.mixture i).weight * (1 / st.weightSum) } := by
  fin_cases i <;> simp [normalize, finRange_three, Function.update_apply]

theorem replaceStep_weightSum (self : Background F) (bgr : Vec3b) (st : PixelState F)
    (h : st.weightSum = sumWeights st.mixture) :
    (replaceStep self bgr st).weightSum = sumWeights (replaceStep self bgr st).mixture := by
  cases hm : st.matchFound <;> simp [replaceStep, hm, h]

theorem beforeNormalize_weightSum (ops : FloatOps F) (self : Background F) (bgr : Vec3b)
    (mixture : GaussianMixture F) :
    (beforeNormalize ops self bgr mixture).weightSum =
      sumWeights (beforeNormalize ops self bgr mixture).mixture := by
  unfold beforeNormalize
  apply replaceStep_weightSum
  rw [matchLoop_weightSum, sumWeights_eq]

theorem beforeNormalize_matched (ops : FloatOps F) (self : Background F) (bgr : Vec3b)
    (mixture : GaussianMixture F) (h : (firstMatch ops bgr mixture).isSome = true) :
    beforeNormalize ops self bgr mixture = matchLoop ops self bgr mixture := by
  simp [beforeNormalize, replaceStep, matchLoop_matchFound, h]

theorem beforeNormalize_unmatched (ops : FloatOps F) (self : Background F) (bgr : Vec3b)
    (mixture : GaussianMixture F) (h : firstMatch ops bgr mixture = none) (j : Fin 3) :
    (beforeNormalize ops self bgr mixture).mixture j =
      if j = minElement (matchLoop ops self bgr mixture).mixture then
        { meanB := (bgr.c0 : F), meanG := (bgr.c1 : F), meanR := (bgr.c2 : F),
          variance := self.params.initialVariance, weight := self.params.initialWeight }
      else decayWeight self (mixture j) := by
  simp [beforeNormalize, replaceStep, matchLoop_matchFound, h, Function.update_apply,
    matchLoop_mixture]

theorem processPixel_mixture (ops : FloatOps F) (self : Background F) (bgr : Vec3b)
    (mixture : GaussianMixture F) (i : Fin 3) :
    (processPixel ops self bgr mixture).1 i =
      { (beforeNormalize ops self bgr mixture).mixture i with
        weight := ((beforeNormalize ops self bgr mixture).mixture i).weight *
          (1 / (beforeNormalize ops self bgr mixture).weightSum) } := by
  simp [processPixel, normalize_apply]

theorem firstMatch_eq_some (ops : FloatOps F) (bgr : Vec3b) (mixture : GaussianMixture F)
    (m : Fin 3) (hm : withinRange ops bgr (mixture m) = true)
    (hfirst : ∀ j, j < m → withinRange ops bgr (mixture j) = false) :
    firstMatch ops bgr mixture = some m := by
  have h0 := hfirst 0
  have h1 := hfirst 1
  fin_cases m <;> simp_all [firstMatch, finRange_three, List.find?_cons]

theorem firstMatch_eq_none (ops : FloatOps F) (bgr : Vec3b) (mixture : GaussianMixture F)
    (h : ∀ j, withinRange ops bgr (mixture j) = false) :
    firstMatch ops bgr mixture = none := by
  simp [firstMatch, finRange_three, List.find?_cons, h]

theorem firstMatch_some_spec (ops : FloatOps F) (bgr : Vec3b) (mixture : GaussianMixture F)
    (m : Fin 3) (h : firstMatch ops bgr mixture = some m) :
    withinRange ops bgr (mixture m) = true ∧
      ∀ j, j < m → withinRange ops bgr (mixture j) = false := by
  revert h
  by_cases h0 : withinRange ops bgr (mixture 0) = true <;>
    by_cases h1 : withinRange ops bgr (mixture 1) = true <;>
    by_cases h2 : withinRange ops bgr (mixture 2) = true <;>
    simp only [firstMatch, finRange_three, List.find?_cons, List.find?_nil, h0, h1, h2] <;>
    intro h <;> simp at h <;> subst h <;> refine ⟨by simp_all, ?_⟩ <;> intro j hj <;>
    fin_cases j <;> simp_all

theorem withinRange_iff (ops : FloatOps F) (bgr : Vec3b) (gauss : Gaussian F) :
    withinRange ops bgr gauss = true ↔
      ops.sqrt (sqDistance bgr gauss) < 2.5 * ops.sqrt gauss.variance := by
  simp [withinRange]

theorem withinRange_false_iff (ops : FloatOps F) (bgr : Vec3b) (gauss : Gaussian F) :
    withinRange ops bgr gauss = false ↔
      ¬ ops.sqrt (sqDistance bgr gauss) < 2.5 * ops.sqrt gauss.variance := by
  simp [withinRange]

end ScalarLemmas

section ExactReal

theorem sqDistance_nonneg {F : Type} [LinearOrderedField F] (bgr : Vec3b) (gauss : Gaussian F) :
    0 ≤ sqDistance bgr gauss := by
  simp only [sqDistance]
  nlinarith [mul_self_nonneg (gauss.meanB - (bgr.c0 : F)),
    mul_self_nonneg (gauss.meanG - (bgr.c1 : F)), mul_self_nonneg (gauss.meanR - (bgr.c2 : F))]

theorem real_etaConst_ge_one : (1 : ℝ) ≤ Real.rpow (2 * Real.pi) (3 / 2) := by
  apply Real.one_le_rpow
  · nlinarith [Real.pi_gt_three]
  · norm_num

theorem real_etaConst_lt : Real.rpow (2 * Real.pi) (3 / 2) < 64 := by
  calc Real.rpow (2 * Real.pi) (3 / 2) ≤ Real.rpow (2 * Real.pi) 2 := by
        apply Real.rpow_le_rpow_of_exponent_le
        · nlinarith [Real.pi_gt_three]
        · norm_num
    _ = (2 * Real.pi) ^ (2 : ℕ) := by simp [Real.rpow_eq_pow]
    _ < 64 := by nlinarith [Real.pi_gt_three, Real.pi_lt_four]

/-- With the exact real functions and a variance of at least 1, the learning step `rho`
of the matched branch lies strictly between 0 and 1. -/
theorem real_matchRho_bounds (params : BackgroundParameters ℝ) (bgr : Vec3b)
    (gauss : Gaussian ℝ) (hlr0 : 0 < params.learningRate) (hlr1 : params.learningRate < 1)
    (hv : 1 ≤ gauss.variance) :
    0 < matchRho (⟨Real.sqrt, Real.exp, Real.log, Real.rpow, Real.pi⟩ : FloatOps ℝ)
        (Background.init ⟨Real.sqrt, Real.exp, Real.log, Real.rpow, Real.pi⟩ params) bgr gauss ∧
    matchRho (⟨Real.sqrt, Real.exp, Real.log, Real.rpow, Real.pi⟩ : FloatOps ℝ)
        (Background.init ⟨Real.sqrt, Real.exp, Real.log, Real.rpow, Real.pi⟩ params) bgr gauss
      < 1 := by
  simp only [matchRho, Background.init]
  have hsd : 1 ≤ Real.sqrt gauss.variance := Real.one_le_sqrt.2 hv
  have hc := real_etaConst_ge_one
  have hden : 1 ≤ Real.rpow (2 * Real.pi) (3 / 2) * Real.sqrt gauss.variance *
      Real.sqrt gauss.variance * Real.sqrt gauss.variance := by
    have h1 : 1 ≤ Real.rpow (2 * Real.pi) (3 / 2) * Real.sqrt gauss.variance :=
      one_le_mul_of_one_le_of_one_le hc hsd
    have h2 := one_le_mul_of_one_le_of_one_le h1 hsd
    exact one_le_mul_of_one_le_of_one_le h2 hsd
  have hexp0 : 0 < Real.exp (-0.5 * sqDistance bgr gauss / gauss.variance) := Real.exp_pos _
  have hexp1 : Real.exp (-0.5 * sqDistance bgr gauss / gauss.variance) ≤ 1 := by
    apply Real.exp_le_one_iff.2
    apply div_nonpos_of_nonpos_of_nonneg
    · have := sqDistance_nonneg bgr gauss
      linarith
    · linarith
  have hden0 : 0 < Real.rpow (2 * Real.pi) (3 / 2) * Real.sqrt gauss.variance *
      Real.sqrt gauss.variance * Real.sqrt gauss.variance := by linarith
  have heta0 : 0 < Real.exp (-0.5 * sqDistance bgr gauss / gauss.variance) /
      (Real.rpow (2 * Real.pi) (3 / 2) * Real.sqrt gauss.variance *
        Real.sqrt gauss.variance * Real.sqrt gauss.variance) := div_pos hexp0 hden0
  have heta1 : Real.exp (-0.5 * sqDistance bgr gauss / gauss.variance) /
      (Real.rpow (2 * Real.pi) (3 / 2) * Real.sqrt gauss.variance *
        Real.sqrt gauss.variance * Real.sqrt gauss.variance) ≤ 1 := by
    rw [div_le_one hden0]
    linarith
  constructor
  · exact mul_pos hlr0 heta0
  · nlinarith

theorem zero_mixture_unmatched (bgr : Vec3b) (j : Fin 3) :
    withinRange (⟨Real.sqrt, Real.exp, Real.log, Real.rpow, Real.pi⟩ : FloatOps ℝ) bgr
      ((fun _ => ⟨0, 0, 0, 0, 0⟩ : GaussianMixture ℝ) j) = false := by
  simp [withinRange, Real.sqrt_nonneg]

theorem tiedMixture_firstMatch :
    firstMatch (⟨Real.sqrt, Real.exp, Real.log, Real.rpow, Real.pi⟩ : FloatOps ℝ)
      ⟨200, 200, 200⟩ tiedMixture = some 2 := by
  have hs0 : (5 / 2 : ℝ) ≤ Real.sqrt 120000 := by
    apply Real.le_sqrt_of_sq_le; norm_num
  have hs1 : (5 / 2 : ℝ) ≤ Real.sqrt 30000 := by
    apply Real.le_sqrt_of_sq_le; norm_num
  apply firstMatch_eq_some
  · simp [withinRange, sqDistance, tiedMixture]
    norm_num
  · intro j hj
    fin_cases j
    · simp [withinRange, sqDistance, tiedMixture]
      norm_num
      linarith
    · simp [withinRange, sqDistance, tiedMixture]
      norm_num
      linarith
    · exact absurd hj (by decide)

end ExactReal

section Memory

variable {F : Type}

theorem mm_store_ps_lane (mem : FloatMem F) (off : Nat) (v : M128 F) (k : Fin 4) :
    mm_store_ps mem off v (off + k.val) = v k := by
  have hk := k.isLt
  have h : off ≤ off + k.val ∧ off + k.val < off + 4 := by omega
  simp only [mm_store_ps, h, and_self, dite_true]
  congr 1
  ext
  simp

theorem mm_store_ps_other (mem : FloatMem F) (off : Nat) (v : M128 F) (a : Nat)
    (h : a < off ∨ off + 4 ≤ a) : mm_store_ps mem off v a = mem a := by
  have h2 : ¬ (off ≤ a ∧ a < off + 4) := by omega
  simp only [mm_store_ps, h2, dite_false]

theorem laneMixture_blockOf (m : GaussianMixture F) (k : Fin 4) :
    laneMixture (blockOf m) k = m := by
  funext i
  fin_cases i <;> fin_cases k <;> rfl

end Memory

section VectorizedLemmas

variable {F : Type} [LinearOrderedField F]

/-- The squared distance in the order the vectorised kernel adds it up. -/
theorem sqDistance_sse (bgr : Vec3b) (g : Gaussian F) :
    sqDistance bgr g =
      (g.meanB - (bgr.c0 : F)) * (g.meanB - (bgr.c0 : F)) +
        (g.meanG - (bgr.c1 : F)) * (g.meanG - (bgr.c1 : F)) +
        (g.meanR - (bgr.c2 : F)) * (g.meanR - (bgr.c2 : F)) := by
  simp only [sqDistance]; ring

theorem withinRange_sse (ops : FloatOps F) (bgr : Vec3b) (g : Gaussian F) :
    withinRange ops bgr g =
      decide (ops.sqrt ((g.meanB - (bgr.c0 : F)) * (g.meanB - (bgr.c0 : F)) +
        (g.meanG - (bgr.c1 : F)) * (g.meanG - (bgr.c1 : F)) +
        (g.meanR - (bgr.c2 : F)) * (g.meanR - (bgr.c2 : F))) < ops.sqrt g.variance * 2.5) := by
  simp only [withinRange, sqDistance_sse, mul_comm (2.5 : F)]

theorem matchRho_sse (ops : FloatOps F) (self : Background F) (bgr : Vec3b) (g : Gaussian F) :
    matchRho ops self bgr g =
      ops.exp (((g.meanB - (bgr.c0 : F)) * (g.meanB - (bgr.c0 : F)) +
        (g.meanG - (bgr.c1 : F)) * (g.meanG - (bgr.c1 : F)) +
        (g.meanR - (bgr.c2 : F)) * (g.meanR - (bgr.c2 : F))) * (-0.5) / g.variance) /
        (self.etaConst * ops.sqrt g.variance * ops.sqrt g.variance * ops.sqrt g.variance) *
        self.params.learningRate := by
  simp only [matchRho, sqDistance_sse, mul_comm (-0.5 : F), mul_comm self.params.learningRate]

theorem matchUpdate_sse (ops : FloatOps F) (self : Background F) (bgr : Vec3b) (g : Gaussian F) :
    matchUpdate ops self bgr g =
      { meanB := (1 - matchRho ops self bgr g) * g.meanB + matchRho ops self bgr g * (bgr.c0 : F)
        meanG := (1 - matchRho ops self bgr g) * g.meanG + matchRho ops self bgr g * (bgr.c1 : F)
        meanR := (1 - matchRho ops self bgr g) * g.meanR + matchRho ops self bgr g * (bgr.c2 : F)
        variance := (1 - matchRho ops self bgr g) * g.variance + matchRho ops self bgr g *
          ((g.meanB - (bgr.c0 : F)) * (g.meanB - (bgr.c0 : F)) +
            (g.meanG - (bgr.c1 : F)) * (g.meanG - (bgr.c1 : F)) +
            (g.meanR - (bgr.c2 : F)) * (g.meanR - (bgr.c2 : F)))
        weight := g.weight } := by
  simp only [matchUpdate, sqDistance_sse]

theorem decayWeight_sse (self : Background F) (g : Gaussian F) :
    decayWeight self g = { g with weight := g.weight * (1 - self.params.learningRate) } := by
  simp only [decayWeight, mul_comm (1 - self.params.learningRate)]

theorem laneMixture_sseMatchStep (ops : FloatOps F) (self : Background F) (px : Fin 4 → Vec3b)
    (st : SseState F) (i : Fin 3) (k : Fin 4) (j : Fin 3) :
    laneMixture (sseMatchStep ops self (colourLanes px).1 (colourLanes px).2.1
      (colourLanes px).2.2 st i).gaussian k j =
      (matchStep ops self (px k) (laneState st k) i).mixture j := by
  have hk := k.isLt
  have hi := i.isLt
  rw [matchStep_mixture]
  by_cases hj : j = i
  · subst hj
    simp only [if_true, laneState, matchUpdate_sse, matchRho_sse, withinRange_sse,
      decayWeight_sse]
    ext <;>
      simp (disch := omega) only [sseMatchStep, laneMixture, mm_store_ps_lane,
        mm_store_ps_other] <;>
      simp only [mm_blend_ps, mm_andnot_ps, mm_cmplt_ps, mm_sqrt_ps, mm_add_ps, mm_mul_ps,
        mm_sub_ps, mm_load_ps, mm_set1_ps, mm_div_ps, exp_ps, mm_not_ps, colourLanes] <;>
      cases hm : st.matched k <;>
      simp <;>
      split_ifs <;>
      first | rfl | (exfalso; linarith)
  · have hj2 : j.val ≠ i.val := fun h => hj (Fin.ext h)
    have hjlt := j.isLt
    simp only [hj, if_false, laneState]
    ext <;>
    simp (disch := omega) only [sseMatchStep, laneMixture, mm_store_ps_other]

theorem laneState_sseMatchStep (ops : FloatOps F) (self : Background F) (px : Fin 4 → Vec3b)
    (st : SseState F) (i : Fin 3) (k : Fin 4) :
    laneState (sseMatchStep ops self (colourLanes px).1 (colourLanes px).2.1
      (colourLanes px).2.2 st i) k = matchStep ops self (px k) (laneState st k) i := by
  have hmix := laneMixture_sseMatchStep ops self px st i k
  have hfound : (sseMatchStep ops self (colourLanes px).1 (colourLanes px).2.1
      (colourLanes px).2.2 st i).matched k =
      (matchStep ops self (px k) (laneState st k) i).matchFound := by
    rw [matchStep_matchFound, withinRange_sse]
    simp only [sseMatchStep, laneState, laneMixture, mm_or_ps, mm_andnot_ps, mm_cmplt_ps,
      mm_sqrt_ps, mm_add_ps, mm_mul_ps, mm_sub_ps, mm_load_ps, mm_set1_ps, colourLanes]
    cases st.matched k <;> simp
  have hsum : (sseMatchStep ops self (colourLanes px).1 (colourLanes px).2.1
      (colourLanes px).2.2 st i).weightSum k =
      (matchStep ops self (px k) (laneState st k) i).weightSum := by
    rw [matchStep_weightSum, ← hmix i]
    have hk := k.isLt
    have hi := i.isLt
    simp (disch := omega) only [sseMatchStep, laneState, laneMixture, mm_store_ps_lane,
      mm_add_ps]
  have hfun : laneMixture (sseMatchStep ops self (colourLanes px).1 (colourLanes px).2.1
      (colourLanes px).2.2 st i).gaussian k =
      (matchStep ops self (px k) (laneState st k) i).mixture := funext hmix
  calc laneState (sseMatchStep ops self (colourLanes px).1 (colourLanes px).2.1
        (colourLanes px).2.2 st i) k
      = { mixture := (matchStep ops self (px k) (laneState st k) i).mixture,
          matchFound := (matchStep ops self (px k) (laneState st k) i).matchFound,
          weightSum := (matchStep ops self (px k) (laneState st k) i).weightSum } := by
        simp only [laneState, hfun, hfound, hsum]
    _ = matchStep ops self (px k) (laneState st k) i := rfl

/-- Lane `k` of the first loop of the vectorised kernel is the scalar match loop on that
lane's pixel and mixture. -/
theorem laneState_sseMatchLoop (ops : FloatOps F) (self : Background F) (px : Fin 4 → Vec3b)
    (gaussian : FloatMem F) (k : Fin 4) :
    laneState (sseMatchLoop ops self (colourLanes px).1 (colourLanes px).2.1
      (colourLanes px).2.2 gaussian) k = matchLoop ops self (px k) (laneMixture gaussian k) := by
  simp only [sseMatchLoop, matchLoop, finRange_three, List.foldl_cons, List.foldl_nil,
    laneState_sseMatchStep]
  rfl

theorem sseReplaceStep_weights (self : Background F) (B G R minWeight : M128 F)
    (notMatched : Mask) (st : SseWeights F) (i j : Fin 3) (k : Fin 4) :
    (sseReplaceStep self B G R minWeight notMatched st i).weights j k =
      if j = i then
        (if (decide (minWeight k = st.weights i k) && notMatched k) then
          self.params.initialWeight else st.weights i k)
      else st.weights j k := by
  by_cases hj : j = i
  · subst hj
    simp [sseReplaceStep, mm_blend_ps, mm_and_ps, mm_cmpeq_ps, mm_set1_ps]
  · simp [sseReplaceStep, hj, Function.update_apply]

theorem laneMixture_sseReplaceStep (self : Background F) (B G R minWeight : M128 F)
    (notMatched : Mask) (st : SseWeights F) (i j : Fin 3) (k : Fin 4) :
    laneMixture (sseReplaceStep self B G R minWeight notMatched st i).gaussian k j =
      if j = i then
        (if (decide (minWeight k = st.weights i k) && notMatched k) then
          { meanB := B k, meanG := G k, meanR := R k,
            variance := self.params.initialVariance,
            weight := (laneMixture st.gaussian k i).weight }
        else laneMixture st.gaussian k i)
      else laneMixture st.gaussian k j := by
  have hk := k.isLt
  have hi := i.isLt
  by_cases hj : j = i
  · subst hj
    simp only [if_true]
    ext <;>
      simp (disch := omega) only [sseReplaceStep, laneMixture, mm_store_ps_lane,
        mm_store_ps_other, mm_blend_ps, mm_and_ps, mm_cmpeq_ps, mm_set1_ps, mm_load_ps] <;>
      split_ifs <;> rfl
  · have hj2 : j.val ≠ i.val := fun h => hj (Fin.ext h)
    have hjlt := j.isLt
    simp only [hj, if_false]
    ext <;>
    simp (disch := omega) only [sseReplaceStep, laneMixture, mm_store_ps_other]

theorem mm_min_ps_lane (gaussian : FloatMem F) (k : Fin 4) :
    mm_min_ps (mm_load_ps gaussian 48)
      (mm_min_ps (mm_load_ps gaussian 52) (mm_load_ps gaussian 56)) k =
    laneMinWeight (laneMixture gaussian k) := by
  simp [mm_min_ps, mm_load_ps, laneMinWeight, laneMixture]

theorem sseReplace_weights (self : Background F) (B G R : M128 F) (gaussian : FloatMem F)
    (matched : Mask) (i : Fin 3) (k : Fin 4) :
    (sseReplace self B G R gaussian matched).weights i k =
      if laneIsMin ⟨laneMixture gaussian k, matched k, 0⟩ i then self.params.initialWeight
      else (laneMixture gaussian k i).weight := by
  simp only [sseReplace, finRange_three, List.foldl_cons, List.foldl_nil,
    sseReplaceStep_weights, laneIsMin, ← mm_min_ps_lane]
  fin_cases i <;> simp [mm_load_ps, laneMixture, mm_not_ps]

theorem laneMixture_sseReplace (self : Background F) (B G R : M128 F) (gaussian : FloatMem F)
    (matched : Mask) (i : Fin 3) (k : Fin 4) :
    laneMixture (sseReplace self B G R gaussian matched).gaussian k i =
      if laneIsMin ⟨laneMixture gaussian k, matched k, 0⟩ i then
        { meanB := B k, meanG := G k, meanR := R k,
          variance := self.params.initialVariance,
          weight := (laneMixture gaussian k i).weight }
      else laneMixture gaussian k i := by
  simp only [sseReplace, finRange_three, List.foldl_cons, List.foldl_nil,
    laneMixture_sseReplaceStep, sseReplaceStep_weights, laneIsMin, ← mm_min_ps_lane]
  fin_cases i <;> simp [mm_load_ps, laneMixture, mm_not_ps]

theorem sseNormalizeStep_weights (weightSum : M128 F) (st : SseWeights F) (i j : Fin 3)
    (k : Fin 4) :
    (sseNormalizeStep weightSum st i).weights j k =
      if j = i then st.weights i k / weightSum k else st.weights j k := by
  by_cases hj : j = i
  · subst hj
    simp [sseNormalizeStep, mm_div_ps]
  · simp [sseNormalizeStep, hj, Function.update_apply]

theorem laneMixture_sseNormalizeStep (weightSum : M128 F) (st : SseWeights F) (i j : Fin 3)
    (k : Fin 4) :
    laneMixture (sseNormalizeStep weightSum st i).gaussian k j =
      if j = i then
        { laneMixture st.gaussian k i with weight := st.weights i k / weightSum k }
      else laneMixture st.gaussian k j := by
  have hk := k.isLt
  have hi := i.isLt
  by_cases hj : j = i
  · subst hj
    simp only [if_true]
    ext <;>
      simp (disch := omega) only [sseNormalizeStep, laneMixture, mm_store_ps_lane,
        mm_store_ps_other, mm_div_ps]
  · have hj2 : j.val ≠ i.val := fun h => hj (Fin.ext h)
    have hjlt := j.isLt
    simp only [hj, if_false]
    ext <;>
    simp (disch := omega) only [sseNormalizeStep, laneMixture, mm_store_ps_other]

theorem sseNormalize_weights (st : SseWeights F) (i : Fin 3) (k : Fin 4) :
    (sseNormalize st).weights i k =
      st.weights i k / (st.weights 0 k + (st.weights 1 k + st.weights 2 k)) := by
  simp only [sseNormalize, finRange_three, List.foldl_cons, List.foldl_nil,
    sseNormalizeStep_weights]
  fin_cases i <;> simp [mm_add_ps]

theorem laneMixture_sseNormalize (st : SseWeights F) (i : Fin 3) (k : Fin 4) :
    laneMixture (sseNormalize st).gaussian k i =
      { laneMixture st.gaussian k i with
        weight := st.weights i k / (st.weights 0 k + (st.weights 1 k + st.weights 2 k)) } := by
  simp only [sseNormalize, finRange_three, List.foldl_cons, List.foldl_nil,
    laneMixture_sseNormalizeStep, sseNormalizeStep_weights]
  fin_cases i <;> simp [mm_add_ps]

theorem epsilonBg_sse (ops : FloatOps F) (bgr : Vec3b) (g : Gaussian F) :
    epsilonBg ops bgr g =
      2 * ops.log (2 * ops.pi) + ops.log (ops.sqrt g.variance) * 3 +
        0.5 * (((bgr.c0 : F) - g.meanB) * ((bgr.c0 : F) - g.meanB)) / g.variance +
        0.5 * (((bgr.c1 : F) - g.meanG) * ((bgr.c1 : F) - g.meanG)) / g.variance +
        0.5 * (((bgr.c2 : F) - g.meanR) * ((bgr.c2 : F) - g.meanR)) / g.variance := by
  simp only [epsilonBg]
  ring

theorem sseClassifyStep_lane (ops : FloatOps F) (self : Background F) (px : Fin 4 → Vec3b)
    (gaussian : FloatMem F) (weights : Fin 3 → M128 F) (maxWeight : M128 F)
    (st : SseDominant F) (i : Fin 3) (k : Fin 4) :
    (sseClassifyStep ops self (colourLanes px).1 (colourLanes px).2.1 (colourLanes px).2.2
        gaussian weights maxWeight st i).fgMask k =
      (if maxWeight k = weights i k then
        decide (epsilonBg ops (px k) (laneMixture gaussian k i) > self.params.foregroundThreshold)
      else st.fgMask k) ∧
    (sseClassifyStep ops self (colourLanes px).1 (colourLanes px).2.1 (colourLanes px).2.2
        gaussian weights maxWeight st i).bgB k =
      (if maxWeight k = weights i k then (laneMixture gaussian k i).meanB else st.bgB k) ∧
    (sseClassifyStep ops self (colourLanes px).1 (colourLanes px).2.1 (colourLanes px).2.2
        gaussian weights maxWeight st i).bgG k =
      (if maxWeight k = weights i k then (laneMixture gaussian k i).meanG else st.bgG k) ∧
    (sseClassifyStep ops self (colourLanes px).1 (colourLanes px).2.1 (colourLanes px).2.2
        gaussian weights maxWeight st i).bgR k =
      (if maxWeight k = weights i k then (laneMixture gaussian k i).meanR else st.bgR k) ∧
    (sseClassifyStep ops self (colourLanes px).1 (colourLanes px).2.1 (colourLanes px).2.2
        gaussian weights maxWeight st i).bgVariance k =
      (if maxWeight k = weights i k then (laneMixture gaussian k i).variance
        else st.bgVariance k) := by
  refine ⟨?_, ?_, ?_, ?_, ?_⟩
  · rw [epsilonBg_sse]
    by_cases h : maxWeight k = weights i k <;>
      simp [sseClassifyStep, mm_or_ps, mm_and_ps, mm_andnot_ps, mm_cmpeq_ps, mm_cmpgt_ps,
        mm_add_ps, mm_div_ps, mm_mul_ps, mm_sub_ps, mm_set1_ps, log_ps, mm_sqrt_ps,
        mm_load_ps, colourLanes, laneMixture, h]
  all_goals
    by_cases h : maxWeight k = weights i k <;>
      simp [sseClassifyStep, mm_blend_ps, mm_cmpeq_ps, mm_load_ps, laneMixture, h]

theorem laneMaxWeight_cases (m : GaussianMixture F) :
    laneMaxWeight m ≠ (m 2).weight → laneMaxWeight m ≠ (m 1).weight →
      laneMaxWeight m = (m 0).weight := by
  simp only [laneMaxWeight]
  split_ifs <;> simp

theorem sseClassify_lane (ops : FloatOps F) (self : Background F) (px : Fin 4 → Vec3b)
    (st : SseWeights F) (undef : M128 F) (k : Fin 4)
    (hw : ∀ i, st.weights i k = (laneMixture st.gaussian k i).weight) :
    (sseClassify ops self (colourLanes px).1 (colourLanes px).2.1 (colourLanes px).2.2
        st undef).fgMask k =
      decide (epsilonBg ops (px k)
        (laneMixture st.gaussian k (laneDominant (laneMixture st.gaussian k))) >
          self.params.foregroundThreshold) ∧
    (sseClassify ops self (colourLanes px).1 (colourLanes px).2.1 (colourLanes px).2.2
        st undef).bgB k =
      (laneMixture st.gaussian k (laneDominant (laneMixture st.gaussian k))).meanB ∧
    (sseClassify ops self (colourLanes px).1 (colourLanes px).2.1 (colourLanes px).2.2
        st undef).bgG k =
      (laneMixture st.gaussian k (laneDominant (laneMixture st.gaussian k))).meanG ∧
    (sseClassify ops self (colourLanes px).1 (colourLanes px).2.1 (colourLanes px).2.2
        st undef).bgR k =
      (laneMixture st.gaussian k (laneDominant (laneMixture st.gaussian k))).meanR ∧
    (sseClassify ops self (colourLanes px).1 (colourLanes px).2.1 (colourLanes px).2.2
        st undef).bgVariance k =
      (laneMixture st.gaussian k (laneDominant (laneMixture st.gaussian k))).variance := by
  have hmax : mm_max_ps (st.weights 0) (mm_max_ps (st.weights 1) (st.weights 2)) k =
      laneMaxWeight (laneMixture st.gaussian k) := by
    simp only [mm_max_ps, laneMaxWeight, hw]
  have hc := laneMaxWeight_cases (laneMixture st.gaussian k)
  simp only [sseClassify, finRange_three, List.foldl_cons, List.foldl_nil]
  refine ⟨?_, ?_, ?_, ?_, ?_⟩
  · simp only [(sseClassifyStep_lane ops self px _ _ _ _ _ k).1, hmax, hw, laneDominant]
    split_ifs with h2 h1 h0 <;> first | rfl | exact absurd (hc h2 h1) h0
  · simp only [(sseClassifyStep_lane ops self px _ _ _ _ _ k).2.1, hmax, hw, laneDominant]
    split_ifs with h2 h1 h0 <;> first | rfl | exact absurd (hc h2 h1) h0
  · simp only [(sseClassifyStep_lane ops self px _ _ _ _ _ k).2.2.1, hmax, hw, laneDominant]
    split_ifs with h2 h1 h0 <;> first | rfl | exact absurd (hc h2 h1) h0
  · simp only [(sseClassifyStep_lane ops self px _ _ _ _ _ k).2.2.2.1, hmax, hw, laneDominant]
    split_ifs with h2 h1 h0 <;> first | rfl | exact absurd (hc h2 h1) h0
  · simp only [(sseClassifyStep_lane ops self px _ _ _ _ _ k).2.2.2.2, hmax, hw, laneDominant]
    split_ifs with h2 h1 h0 <;> first | rfl | exact absurd (hc h2 h1) h0

theorem sseReplace_lane (self : Background F) (px : Fin 4 → Vec3b) (gaussian : FloatMem F)
    (matched : Mask) (k : Fin 4) (i : Fin 3) (st : PixelState F)
    (hm : laneMixture gaussian k = st.mixture) (hb : matched k = st.matchFound) :
    (sseReplace self (colourLanes px).1 (colourLanes px).2.1 (colourLanes px).2.2
        gaussian matched).weights i k = (laneReplace self (px k) st i).weight ∧
    laneMixture (sseReplace self (colourLanes px).1 (colourLanes px).2.1 (colourLanes px).2.2
        gaussian matched).gaussian k i =
      { laneReplace self (px k) st i with weight := (st.mixture i).weight } := by
  have his : laneIsMin ⟨laneMixture gaussian k, matched k, 0⟩ i = laneIsMin st i := by
    simp only [laneIsMin, hm, hb]
  rw [sseReplace_weights, laneMixture_sseReplace, his, hm]
  cases h : laneIsMin st i <;> simp [laneReplace, h, colourLanes]

/-- Lane `k` of the memory block after lines 84-222 of the vectorised kernel is `sseLane`
of that lane's pixel and mixture, and the register `weights[i]` holds its weight. -/
theorem laneMixture_sseUpdate (ops : FloatOps F) (self : Background F) (px : Fin 4 → Vec3b)
    (gaussian : FloatMem F) (undef : M128 F) (k : Fin 4) (i : Fin 3) :
    laneMixture (sseUpdate ops self (colourLanes px).1 (colourLanes px).2.1
        (colourLanes px).2.2 gaussian undef).1.gaussian k i =
      sseLane ops self (px k) (laneMixture gaussian k) i ∧
    (sseUpdate ops self (colourLanes px).1 (colourLanes px).2.1
        (colourLanes px).2.2 gaussian undef).1.weights i k =
      (sseLane ops self (px k) (laneMixture gaussian k) i).weight := by
  have hst := laneState_sseMatchLoop ops self px gaussian k
  have hmix : laneMixture (sseMatchLoop ops self (colourLanes px).1 (colourLanes px).2.1
      (colourLanes px).2.2 gaussian).gaussian k =
      (matchLoop ops self (px k) (laneMixture gaussian k)).mixture :=
    congrArg PixelState.mixture hst
  have hmatched : (sseMatchLoop ops self (colourLanes px).1 (colourLanes px).2.1
      (colourLanes px).2.2 gaussian).matched k =
      (matchLoop ops self (px k) (laneMixture gaussian k)).matchFound :=
    congrArg PixelState.matchFound hst
  have hrep := fun j => sseReplace_lane self px _ _ k j _ hmix hmatched
  simp only [sseUpdate, laneMixture_sseNormalize, sseNormalize_weights, (hrep _).1, (hrep _).2,
    sseLane, laneNormalize, and_self]

/-- Lane `k` of the registers left by the classification loop of the vectorised kernel:
they hold the values of component `laneDominant` of the lane's updated mixture. -/
theorem sseUpdate_dominant (ops : FloatOps F) (self : Background F) (px : Fin 4 → Vec3b)
    (gaussian : FloatMem F) (undef : M128 F) (k : Fin 4) :
    (sseUpdate ops self (colourLanes px).1 (colourLanes px).2.1 (colourLanes px).2.2
        gaussian undef).2.fgMask k =
      decide (epsilonBg ops (px k)
        (sseLane ops self (px k) (laneMixture gaussian k)
          (laneDominant (sseLane ops self (px k) (laneMixture gaussian k)))) >
          self.params.foregroundThreshold) ∧
    (sseUpdate ops self (colourLanes px).1 (colourLanes px).2.1 (colourLanes px).2.2
        gaussian undef).2.bgB k =
      (sseLane ops self (px k) (laneMixture gaussian k)
        (laneDominant (sseLane ops self (px k) (laneMixture gaussian k)))).meanB ∧
    (sseUpdate ops self (colourLanes px).1 (colourLanes px).2.1 (colourLanes px).2.2
        gaussian undef).2.bgG k =
      (sseLane ops self (px k) (laneMixture gaussian k)
        (laneDominant (sseLane ops self (px k) (laneMixture gaussian k)))).meanG ∧
    (sseUpdate ops self (colourLanes px).1 (colourLanes px).2.1 (colourLanes px).2.2
        gaussian undef).2.bgR k =
      (sseLane ops self (px k) (laneMixture gaussian k)
        (laneDominant (sseLane ops self (px k) (laneMixture gaussian k)))).meanR ∧
    (sseUpdate ops self (colourLanes px).1 (colourLanes px).2.1 (colourLanes px).2.2
        gaussian undef).2.bgVariance k =
      (sseLane ops self (px k) (laneMixture gaussian k)
        (laneDominant (sseLane ops self (px k) (laneMixture gaussian k)))).variance := by
  have hl : laneMixture (sseUpdate ops self (colourLanes px).1 (colourLanes px).2.1
      (colourLanes px).2.2 gaussian undef).1.gaussian k =
      sseLane ops self (px k) (laneMixture gaussian k) :=
    funext fun i => (laneMixture_sseUpdate ops self px gaussian undef k i).1
  have hw : ∀ i, (sseUpdate ops self (colourLanes px).1 (colourLanes px).2.1
      (colourLanes px).2.2 gaussian undef).1.weights i k =
      (laneMixture (sseUpdate ops self (colourLanes px).1 (colourLanes px).2.1
        (colourLanes px).2.2 gaussian undef).1.gaussian k i).weight := by
    intro i
    rw [hl]
    exact (laneMixture_sseUpdate ops self px gaussian undef k i).2
  have h := sseClassify_lane ops self px (sseUpdate ops self (colourLanes px).1
    (colourLanes px).2.1 (colourLanes px).2.2 gaussian undef).1 undef k hw
  rw [hl] at h
  exact h

/-- In a lane that matched, the vectorised update leaves the mixture `processPixel`
returns. -/
theorem sseLane_matched (ops : FloatOps F) (self : Background F) (bgr : Vec3b)
    (mixture : GaussianMixture F) (h : (firstMatch ops bgr mixture).isSome = true)
    (i : Fin 3) :
    sseLane ops self bgr mixture i = (processPixel ops self bgr mixture).1 i := by
  rw [processPixel_mixture, beforeNormalize_matched _ _ _ _ h, matchLoop_weightSum]
  have hr : ∀ j, laneReplace self bgr (matchLoop ops self bgr mixture) j =
      (matchLoop ops self bgr mixture).mixture j := by
    intro j
    simp [laneReplace, laneIsMin, matchLoop_matchFound, h]
  simp only [sseLane, laneNormalize, hr]
  ext
  · rfl
  · rfl
  · rfl
  · rfl
  · simp only [add_assoc, div_eq_mul_one_div ((matchLoop ops self bgr mixture).mixture i).weight]

theorem tiedMixture_processPixel (ops : FloatOps F) (self : Background F)
    (hfm : firstMatch ops ⟨200, 200, 200⟩ tiedMixture = some 2)
    (hlr : self.params.learningRate = 1 / 2) :
    (processPixel ops self ⟨200, 200, 200⟩ tiedMixture).1 0 = ⟨0, 0, 0, 1, 1 / 2⟩ ∧
    (processPixel ops self ⟨200, 200, 200⟩ tiedMixture).1 1 = ⟨100, 100, 100, 1, 1 / 2⟩ ∧
    ((processPixel ops self ⟨200, 200, 200⟩ tiedMixture).1 2).weight = 0 := by
  have hsome : (firstMatch ops ⟨200, 200, 200⟩ tiedMixture).isSome = true := by rw [hfm]; rfl
  simp only [processPixel_mixture, beforeNormalize_matched _ _ _ _ hsome, matchLoop_weightSum,
    matchLoop_mixture, hfm]
  refine ⟨?_, ?_, ?_⟩
  · ext <;> simp [decayWeight, matchUpdate, tiedMixture, hlr]; norm_num
  · ext <;> simp [decayWeight, matchUpdate, tiedMixture, hlr]; norm_num
  · simp [decayWeight, matchUpdate, tiedMixture, hlr]

theorem tiedMixture_dominant (ops : FloatOps F) (self : Background F)
    (hfm : firstMatch ops ⟨200, 200, 200⟩ tiedMixture = some 2)
    (hlr : self.params.learningRate = 1 / 2) :
    laneDominant (sseLane ops self ⟨200, 200, 200⟩ tiedMixture) = 1 ∧
    maxElement (processPixel ops self ⟨200, 200, 200⟩ tiedMixture).1 = 0 := by
  have hsome : (firstMatch ops ⟨200, 200, 200⟩ tiedMixture).isSome = true := by rw [hfm]; rfl
  have hl : sseLane ops self ⟨200, 200, 200⟩ tiedMixture =
      (processPixel ops self ⟨200, 200, 200⟩ tiedMixture).1 :=
    funext (sseLane_matched ops self _ _ hsome)
  obtain ⟨h0, h1, h2⟩ := tiedMixture_processPixel ops self hfm hlr
  rw [hl]
  constructor
  · simp [laneDominant, laneMaxWeight, h0, h1, h2]
  · simp [maxElement, finRange_three, h0, h1, h2]

/-- The mask byte the vectorised path stores for lane `k`: `2^k` for a foreground lane,
0 for a background lane. -/
theorem maskByte_sseOutMask (fgMask : Mask) (k : Fin 4) :
    maskByte (sseOutMask fgMask) k = if fgMask k then 2 ^ k.val else 0 := by
  cases h0 : fgMask 0 <;> cases h1 : fgMask 1 <;> cases h2 : fgMask 2 <;>
    cases h3 : fgMask 3 <;> fin_cases k <;>
    simp [sseOutMask, maskByte, mm_movemask_ps, h0, h1, h2, h3] <;> decide

end VectorizedLemmas

section ScalarClaims

variable {F : Type} [LinearOrderedField F]

/-- C1. Weight-sum invariant of `processPixel`: whenever the three weights just before
the renormalisation do not sum to zero, the three weights of the returned mixture
sum to exactly 1, whether a component matched or the replacement branch ran. -/
theorem processPixel_weights_sum_one (ops : FloatOps F) (self : Background F) (bgr : Vec3b)
    (mixture : GaussianMixture F)
    (h : ((beforeNormalize ops self bgr mixture).mixture 0).weight +
        ((beforeNormalize ops self bgr mixture).mixture 1).weight +
        ((beforeNormalize ops self bgr mixture).mixture 2).weight ≠ 0) :
    ((processPixel ops self bgr mixture).1 0).weight +
      ((processPixel ops self bgr mixture).1 1).weight +
      ((processPixel ops self bgr mixture).1 2).weight = 1 := by
  simp only [processPixel_mixture, beforeNormalize_weightSum, sumWeights_eq]
  field_simp

/-- Witness for C1: a zero-initialised mixture observing the colour (10, 20, 30), with
the exact real math functions. -/
theorem processPixel_weights_sum_one_witness :
    ((beforeNormalize (⟨Real.sqrt, Real.exp, Real.log, Real.rpow, Real.pi⟩ : FloatOps ℝ)
        ⟨1, ⟨30, 1 / 20, 1 / 100, 8⟩⟩ ⟨10, 20, 30⟩ (fun _ => ⟨0, 0, 0, 0, 0⟩)).mixture 0).weight +
      ((beforeNormalize (⟨Real.sqrt, Real.exp, Real.log, Real.rpow, Real.pi⟩ : FloatOps ℝ)
        ⟨1, ⟨30, 1 / 20, 1 / 100, 8⟩⟩ ⟨10, 20, 30⟩ (fun _ => ⟨0, 0, 0, 0, 0⟩)).mixture 1).weight +
      ((beforeNormalize (⟨Real.sqrt, Real.exp, Real.log, Real.rpow, Real.pi⟩ : FloatOps ℝ)
        ⟨1, ⟨30, 1 / 20, 1 / 100, 8⟩⟩ ⟨10, 20, 30⟩ (fun _ => ⟨0, 0, 0, 0, 0⟩)).mixture 2).weight ≠ 0 ∧
    ((processPixel (⟨Real.sqrt, Real.exp, Real.log, Real.rpow, Real.pi⟩ : FloatOps ℝ)
        ⟨1, ⟨30, 1 / 20, 1 / 100, 8⟩⟩ ⟨10, 20, 30⟩ (fun _ => ⟨0, 0, 0, 0, 0⟩)).1 0).weight +
      ((processPixel (⟨Real.sqrt, Real.exp, Real.log, Real.rpow, Real.pi⟩ : FloatOps ℝ)
        ⟨1, ⟨30, 1 / 20, 1 / 100, 8⟩⟩ ⟨10, 20, 30⟩ (fun _ => ⟨0, 0, 0, 0, 0⟩)).1 1).weight +
      ((processPixel (⟨Real.sqrt, Real.exp, Real.log, Real.rpow, Real.pi⟩ : FloatOps ℝ)
        ⟨1, ⟨30, 1 / 20, 1 / 100, 8⟩⟩ ⟨10, 20, 30⟩ (fun _ => ⟨0, 0, 0, 0, 0⟩)).1 2).weight = 1 := by
  have h : ((beforeNormalize (⟨Real.sqrt, Real.exp, Real.log, Real.rpow, Real.pi⟩ : FloatOps ℝ)
        ⟨1, ⟨30, 1 / 20, 1 / 100, 8⟩⟩ ⟨10, 20, 30⟩ (fun _ => ⟨0, 0, 0, 0, 0⟩)).mixture 0).weight +
      ((beforeNormalize (⟨Real.sqrt, Real.exp, Real.log, Real.rpow, Real.pi⟩ : FloatOps ℝ)
        ⟨1, ⟨30, 1 / 20, 1 / 100, 8⟩⟩ ⟨10, 20, 30⟩ (fun _ => ⟨0, 0, 0, 0, 0⟩)).mixture 1).weight +
      ((beforeNormalize (⟨Real.sqrt, Real.exp, Real.log, Real.rpow, Real.pi⟩ : FloatOps ℝ)
        ⟨1, ⟨30, 1 / 20, 1 / 100, 8⟩⟩ ⟨10, 20, 30⟩ (fun _ => ⟨0, 0, 0, 0, 0⟩)).mixture 2).weight ≠ 0 := by
    have hn := firstMatch_eq_none _ ⟨10, 20, 30⟩ _ (zero_mixture_unmatched ⟨10, 20, 30⟩)
    simp [beforeNormalize_unmatched _ _ _ _ hn, minElement, finRange_three, matchLoop_mixture, hn,
      decayWeight]
  exact ⟨h, processPixel_weights_sum_one _ _ _ _ h⟩

/-- C2. First match wins in the match loop of `processPixel`: if `i` is the lowest index
whose component satisfies `sqrt(d_i) < 2.5*sqrt(variance_i)` on the values stored
before the call, the loop reports a match and leaves the means and the variance of every
other component unchanged; if no component satisfies the test, no match is reported and
the means and variances of all components are unchanged. -/
theorem matchLoop_first_match_wins (ops : FloatOps F) (self : Background F) (bgr : Vec3b)
    (mixture : GaussianMixture F) :
    (∀ i : Fin 3,
      ops.sqrt (sqDistance bgr (mixture i)) < 2.5 * ops.sqrt (mixture i).variance →
      (∀ j : Fin 3, j < i →
        ¬ ops.sqrt (sqDistance bgr (mixture j)) < 2.5 * ops.sqrt (mixture j).variance) →
      (matchLoop ops self bgr mixture).matchFound = true ∧
      (matchLoop ops self bgr mixture).mixture i = matchUpdate ops self bgr (mixture i) ∧
      ∀ j : Fin 3, j ≠ i →
        ((matchLoop ops self bgr mixture).mixture j).meanB = (mixture j).meanB ∧
        ((matchLoop ops self bgr mixture).mixture j).meanG = (mixture j).meanG ∧
        ((matchLoop ops self bgr mixture).mixture j).meanR = (mixture j).meanR ∧
        ((matchLoop ops self bgr mixture).mixture j).variance = (mixture j).variance) ∧
    ((∀ i : Fin 3,
        ¬ ops.sqrt (sqDistance bgr (mixture i)) < 2.5 * ops.sqrt (mixture i).variance) →
      (matchLoop ops self bgr mixture).matchFound = false ∧
      ∀ j : Fin 3,
        ((matchLoop ops self bgr mixture).mixture j).meanB = (mixture j).meanB ∧
        ((matchLoop ops self bgr mixture).mixture j).meanG = (mixture j).meanG ∧
        ((matchLoop ops self bgr mixture).mixture j).meanR = (mixture j).meanR ∧
        ((matchLoop ops self bgr mixture).mixture j).variance = (mixture j).variance) := by
  constructor
  · intro i hi hfirst
    have hm : firstMatch ops bgr mixture = some i :=
      firstMatch_eq_some ops bgr mixture i ((withinRange_iff ops bgr _).2 hi)
        (fun j hj => (withinRange_false_iff ops bgr _).2 (hfirst j hj))
    refine ⟨by simp [matchLoop_matchFound, hm], by simp [matchLoop_mixture, hm], ?_⟩
    intro j hj
    have hne : ¬ i = j := fun h => hj h.symm
    simp [matchLoop_mixture, hm, hne, decayWeight]
  · intro hnone
    have hm : firstMatch ops bgr mixture = none :=
      firstMatch_eq_none ops bgr mixture
        (fun j => (withinRange_false_iff ops bgr _).2 (hnone j))
    refine ⟨by simp [matchLoop_matchFound, hm], ?_⟩
    intro j
    simp [matchLoop_mixture, hm, decayWeight]

/-- C3. Update rule of the matched component: when `m` is the first component passing
the range test, with `d` the squared colour distance, `stdDev = sqrt(variance_m)`,
`eta = exp(-0.5*d/variance_m) / ((2*pi)^1.5 * stdDev^3)` and `rho = learningRate*eta`,
the mixture returned by `processPixel` has, for component `m`, every mean channel equal
to `(1-rho)*oldMean + rho*observed` and variance `(1-rho)*oldVariance + rho*d`. -/
theorem processPixel_matched_update (ops : FloatOps F) (params : BackgroundParameters F)
    (bgr : Vec3b) (mixture : GaussianMixture F) (m : Fin 3) (d stdDev eta rho : F)
    (hm : ops.sqrt (sqDistance bgr (mixture m)) < 2.5 * ops.sqrt (mixture m).variance)
    (hfirst : ∀ j : Fin 3, j < m →
      ¬ ops.sqrt (sqDistance bgr (mixture j)) < 2.5 * ops.sqrt (mixture j).variance)
    (hd : d = ((mixture m).meanB - (bgr.c0 : F)) ^ 2 + ((mixture m).meanG - (bgr.c1 : F)) ^ 2 +
      ((mixture m).meanR - (bgr.c2 : F)) ^ 2)
    (hs : stdDev = ops.sqrt (mixture m).variance)
    (heta : eta = ops.exp (-0.5 * d / (mixture m).variance) /
      (ops.pow (2 * ops.pi) 1.5 * stdDev ^ 3))
    (hrho : rho = params.learningRate * eta) :
    ((processPixel ops (Background.init ops params) bgr mixture).1 m).meanB =
        (1 - rho) * (mixture m).meanB + rho * (bgr.c0 : F) ∧
    ((processPixel ops (Background.init ops params) bgr mixture).1 m).meanG =
        (1 - rho) * (mixture m).meanG + rho * (bgr.c1 : F) ∧
    ((processPixel ops (Background.init ops params) bgr mixture).1 m).meanR =
        (1 - rho) * (mixture m).meanR + rho * (bgr.c2 : F) ∧
    ((processPixel ops (Background.init ops params) bgr mixture).1 m).variance =
        (1 - rho) * (mixture m).variance + rho * d := by
  have hfm : firstMatch ops bgr mixture = some m :=
    firstMatch_eq_some ops bgr mixture m ((withinRange_iff ops bgr _).2 hm)
      (fun j hj => (withinRange_false_iff ops bgr _).2 (hfirst j hj))
  have hsome : (firstMatch ops bgr mixture).isSome = true := by simp [hfm]
  have hdist : sqDistance bgr (mixture m) = d := by
    rw [hd]; simp only [sqDistance]; ring
  have hr : matchRho ops (Background.init ops params) bgr (mixture m) = rho := by
    have h15 : (1.5 : F) = 3 / 2 := by norm_num
    rw [hrho, heta, hs, h15]
    simp only [matchRho, Background.init, hdist]
    congr 2
    ring
  simp only [processPixel_mixture, beforeNormalize_matched ops _ bgr mixture hsome,
    matchLoop_mixture, hfm, if_true, matchUpdate, hr, hdist, and_self]

/-- Witness for C3: a component of mean (0,0,0) and variance 1 observing the colour
(1,0,0), with the exact real math functions. -/
theorem processPixel_matched_update_witness :
    Real.sqrt (sqDistance ⟨1, 0, 0⟩ ((fun _ => ⟨0, 0, 0, 1, 1 / 3⟩ : GaussianMixture ℝ) 0)) <
        2.5 * Real.sqrt ((fun _ => ⟨0, 0, 0, 1, 1 / 3⟩ : GaussianMixture ℝ) 0).variance ∧
    ((processPixel (⟨Real.sqrt, Real.exp, Real.log, Real.rpow, Real.pi⟩ : FloatOps ℝ)
        (Background.init ⟨Real.sqrt, Real.exp, Real.log, Real.rpow, Real.pi⟩
          ⟨30, 1 / 20, 1 / 100, 8⟩)
        ⟨1, 0, 0⟩ (fun _ => ⟨0, 0, 0, 1, 1 / 3⟩)).1 0).variance =
      (1 - 1 / 100 * (Real.exp (-0.5 * 1 / 1) /
          (Real.rpow (2 * Real.pi) 1.5 * Real.sqrt 1 ^ 3))) * 1 +
        1 / 100 * (Real.exp (-0.5 * 1 / 1) /
          (Real.rpow (2 * Real.pi) 1.5 * Real.sqrt 1 ^ 3)) * 1 := by
  have hm : Real.sqrt (sqDistance ⟨1, 0, 0⟩
        ((fun _ => ⟨0, 0, 0, 1, 1 / 3⟩ : GaussianMixture ℝ) 0)) <
      2.5 * Real.sqrt ((fun _ => ⟨0, 0, 0, 1, 1 / 3⟩ : GaussianMixture ℝ) 0).variance := by
    simp [sqDistance]; norm_num
  exact ⟨hm, (processPixel_matched_update
    (⟨Real.sqrt, Real.exp, Real.log, Real.rpow, Real.pi⟩ : FloatOps ℝ) ⟨30, 1 / 20, 1 / 100, 8⟩
    ⟨1, 0, 0⟩ (fun _ => ⟨0, 0, 0, 1, 1 / 3⟩) 0 1 (Real.sqrt 1) _ _ hm
    (fun j hj => absurd hj (by simp)) (by simp) rfl rfl rfl).2.2.2⟩

/-- C4. Replacement when nothing matches: if no component passes the range test,
`processPixel` overwrites exactly the component `k` of minimum decayed weight (lowest
index on ties): before renormalisation it holds the observed colour, `initialVariance`
and `initialWeight`, while every other component keeps its means and variance and
carries its decayed weight. -/
theorem processPixel_replaces_least_probable (ops : FloatOps F) (self : Background F)
    (bgr : Vec3b) (mixture : GaussianMixture F)
    (hnone : ∀ i : Fin 3,
      ¬ ops.sqrt (sqDistance bgr (mixture i)) < 2.5 * ops.sqrt (mixture i).variance) :
    ∃ k : Fin 3,
      (∀ j : Fin 3, (1 - self.params.learningRate) * (mixture k).weight ≤
        (1 - self.params.learningRate) * (mixture j).weight) ∧
      (∀ j : Fin 3, j < k → (1 - self.params.learningRate) * (mixture k).weight <
        (1 - self.params.learningRate) * (mixture j).weight) ∧
      (beforeNormalize ops self bgr mixture).mixture k =
        { meanB := (bgr.c0 : F), meanG := (bgr.c1 : F), meanR := (bgr.c2 : F),
          variance := self.params.initialVariance, weight := self.params.initialWeight } ∧
      ((processPixel ops self bgr mixture).1 k).meanB = (bgr.c0 : F) ∧
      ((processPixel ops self bgr mixture).1 k).meanG = (bgr.c1 : F) ∧
      ((processPixel ops self bgr mixture).1 k).meanR = (bgr.c2 : F) ∧
      ((processPixel ops self bgr mixture).1 k).variance = self.params.initialVariance ∧
      ∀ j : Fin 3, j ≠ k →
        ((processPixel ops self bgr mixture).1 j).meanB = (mixture j).meanB ∧
        ((processPixel ops self bgr mixture).1 j).meanG = (mixture j).meanG ∧
        ((processPixel ops self bgr mixture).1 j).meanR = (mixture j).meanR ∧
        ((processPixel ops self bgr mixture).1 j).variance = (mixture j).variance ∧
        ((beforeNormalize ops self bgr mixture).mixture j).weight =
          (1 - self.params.learningRate) * (mixture j).weight := by
  have hfm : firstMatch ops bgr mixture = none :=
    firstMatch_eq_none ops bgr mixture
      (fun j => (withinRange_false_iff ops bgr _).2 (hnone j))
  have hw : ∀ j : Fin 3, ((matchLoop ops self bgr mixture).mixture j).weight =
      (1 - self.params.learningRate) * (mixture j).weight := by
    intro j; simp [matchLoop_mixture, hfm, decayWeight]
  refine ⟨minElement (matchLoop ops self bgr mixture).mixture, ?_, ?_, ?_, ?_, ?_, ?_, ?_, ?_⟩
  · intro j
    rw [← hw, ← hw]
    exact minElement_le _ j
  · intro j hj
    rw [← hw, ← hw]
    exact minElement_first _ j hj
  · simp [beforeNormalize_unmatched ops self bgr mixture hfm]
  · simp [processPixel_mixture, beforeNormalize_unmatched ops self bgr mixture hfm]
  · simp [processPixel_mixture, beforeNormalize_unmatched ops self bgr mixture hfm]
  · simp [processPixel_mixture, beforeNormalize_unmatched ops self bgr mixture hfm]
  · simp [processPixel_mixture, beforeNormalize_unmatched ops self bgr mixture hfm]
  · intro j hj
    simp [processPixel_mixture, beforeNormalize_unmatched ops self bgr mixture hfm, hj,
      decayWeight]

/-- Witness for C4: a zero-initialised mixture observing the colour (10, 20, 30), with
the exact real math functions. -/
theorem processPixel_replaces_least_probable_witness :
    (∀ i : Fin 3, ¬ Real.sqrt (sqDistance ⟨10, 20, 30⟩
        ((fun _ => ⟨0, 0, 0, 0, 0⟩ : GaussianMixture ℝ) i)) <
      2.5 * Real.sqrt ((fun _ => ⟨0, 0, 0, 0, 0⟩ : GaussianMixture ℝ) i).variance) ∧
    ∃ k : Fin 3,
      (beforeNormalize (⟨Real.sqrt, Real.exp, Real.log, Real.rpow, Real.pi⟩ : FloatOps ℝ)
        ⟨1, ⟨30, 1 / 20, 1 / 100, 8⟩⟩ ⟨10, 20, 30⟩ (fun _ => ⟨0, 0, 0, 0, 0⟩)).mixture k =
      { meanB := 10, meanG := 20, meanR := 30, variance := 30, weight := 1 / 20 } := by
  have hnone : ∀ i : Fin 3, ¬ Real.sqrt (sqDistance ⟨10, 20, 30⟩
        ((fun _ => ⟨0, 0, 0, 0, 0⟩ : GaussianMixture ℝ) i)) <
      2.5 * Real.sqrt ((fun _ => ⟨0, 0, 0, 0, 0⟩ : GaussianMixture ℝ) i).variance := by
    intro i; simp [Real.sqrt_nonneg]
  obtain ⟨k, -, -, hk, -⟩ := processPixel_replaces_least_probable
    (⟨Real.sqrt, Real.exp, Real.log, Real.rpow, Real.pi⟩ : FloatOps ℝ)
    ⟨1, ⟨30, 1 / 20, 1 / 100, 8⟩⟩ ⟨10, 20, 30⟩ (fun _ => ⟨0, 0, 0, 0, 0⟩) hnone
  exact ⟨hnone, k, by simpa using hk⟩

/-- C5. Classification rule: `processPixel` returns true exactly when
`2*log(2*pi) + 3*log(sqrt(variance)) + 0.5*((B-meanB)^2+(G-meanG)^2+(R-meanR)^2)/variance`
exceeds `foregroundThreshold`, the means and the variance being those of a component `k`
of maximum weight (the first such) in the mixture as updated and renormalised by this
same call. -/
theorem processPixel_classification (ops : FloatOps F) (self : Background F) (bgr : Vec3b)
    (mixture : GaussianMixture F) :
    ∃ k : Fin 3,
      (∀ j : Fin 3, ((processPixel ops self bgr mixture).1 j).weight ≤
        ((processPixel ops self bgr mixture).1 k).weight) ∧
      (∀ j : Fin 3, j < k → ((processPixel ops self bgr mixture).1 j).weight <
        ((processPixel ops self bgr mixture).1 k).weight) ∧
      ((processPixel ops self bgr mixture).2 = true ↔
        2 * ops.log (2 * ops.pi) +
          3 * ops.log (ops.sqrt ((processPixel ops self bgr mixture).1 k).variance) +
          0.5 * (((bgr.c0 : F) - ((processPixel ops self bgr mixture).1 k).meanB) ^ 2 +
            ((bgr.c1 : F) - ((processPixel ops self bgr mixture).1 k).meanG) ^ 2 +
            ((bgr.c2 : F) - ((processPixel ops self bgr mixture).1 k).meanR) ^ 2) /
            ((processPixel ops self bgr mixture).1 k).variance
          > self.params.foregroundThreshold) := by
  refine ⟨maxElement (processPixel ops self bgr mixture).1, maxElement_ge _, maxElement_first _, ?_⟩
  have he : ∀ g : Gaussian F, epsilonBg ops bgr g =
      2 * ops.log (2 * ops.pi) + 3 * ops.log (ops.sqrt g.variance) +
        0.5 * (((bgr.c0 : F) - g.meanB) ^ 2 + ((bgr.c1 : F) - g.meanG) ^ 2 +
          ((bgr.c2 : F) - g.meanR) ^ 2) / g.variance := by
    intro g
    simp only [epsilonBg]
    ring
  rw [← he]
  simp [processPixel]

/-- C6 as stated fails: with learningRate = 1/2 and a matched component of variance
1/100 (all variances positive), observing exactly the component's mean gives
`rho > 1` and `processPixel` leaves that component with a negative variance. -/
theorem processPixel_variance_negative :
    (0 : ℝ) < 1 / 2 ∧ (1 / 2 : ℝ) < 1 ∧ (0 : ℝ) < 30 ∧
    (∀ i : Fin 3, 0 < ((fun _ => ⟨0, 0, 0, 1 / 100, 1 / 3⟩ : GaussianMixture ℝ) i).variance) ∧
    ((processPixel (⟨Real.sqrt, Real.exp, Real.log, Real.rpow, Real.pi⟩ : FloatOps ℝ)
        (Background.init ⟨Real.sqrt, Real.exp, Real.log, Real.rpow, Real.pi⟩
          ⟨30, 1 / 20, 1 / 2, 8⟩)
        ⟨0, 0, 0⟩ (fun _ => ⟨0, 0, 0, 1 / 100, 1 / 3⟩)).1 0).variance < 0 := by
  refine ⟨by norm_num, by norm_num, by norm_num, fun i => by norm_num, ?_⟩
  have hs : Real.sqrt (1 / 100) = 1 / 10 := by
    rw [show (1 / 100 : ℝ) = (1 / 10) ^ 2 by norm_num]
    exact Real.sqrt_sq (by norm_num)
  have hs2 : Real.sqrt 100 = 10 := by
    rw [show (100 : ℝ) = 10 ^ 2 by norm_num]
    exact Real.sqrt_sq (by norm_num)
  have hfm : firstMatch (⟨Real.sqrt, Real.exp, Real.log, Real.rpow, Real.pi⟩ : FloatOps ℝ)
      ⟨0, 0, 0⟩ (fun _ => ⟨0, 0, 0, 1 / 100, 1 / 3⟩) = some 0 := by
    apply firstMatch_eq_some
    · simp [withinRange, sqDistance, hs2]; norm_num
    · intro j hj; exact absurd hj (by simp)
  have hsome : (firstMatch (⟨Real.sqrt, Real.exp, Real.log, Real.rpow, Real.pi⟩ : FloatOps ℝ)
      ⟨0, 0, 0⟩ (fun _ => ⟨0, 0, 0, 1 / 100, 1 / 3⟩)).isSome = true := by rw [hfm]; rfl
  have hc0 := real_etaConst_ge_one
  have hc1 := real_etaConst_lt
  simp only [processPixel_mixture, beforeNormalize_matched _ _ _ _ hsome, matchLoop_mixture, hfm,
    if_true, matchUpdate, matchRho, Background.init, sqDistance, hs]
  have hpos : 0 < Real.rpow (2 * Real.pi) (3 / 2) := by linarith
  have hrho : 1 < 1 / 2 * (Real.exp 0 / (Real.rpow (2 * Real.pi) (3 / 2) * (1 / 10) * (1 / 10) *
      (1 / 10))) := by
    rw [Real.exp_zero, show Real.rpow (2 * Real.pi) (3 / 2) * (1 / 10) * (1 / 10) * (1 / 10) =
      Real.rpow (2 * Real.pi) (3 / 2) / 1000 by ring]
    rw [one_div_div, ← mul_div_assoc, lt_div_iff₀ hpos]
    linarith
  norm_num at hrho ⊢
  nlinarith

/-- C6, amended. With the exact real math functions, learningRate in (0,1),
initialVariance > 0, all three variances > 0 and a matched component (the first one
passing the range test, if any) of variance at least 1, every component of the mixture
returned by `processPixel` has variance > 0. -/
theorem processPixel_variance_pos (params : BackgroundParameters ℝ) (bgr : Vec3b)
    (mixture : GaussianMixture ℝ)
    (hlr0 : 0 < params.learningRate) (hlr1 : params.learningRate < 1)
    (hiv : 0 < params.initialVariance)
    (hvar : ∀ i : Fin 3, 0 < (mixture i).variance)
    (hfloor : ∀ m : Fin 3,
      Real.sqrt (sqDistance bgr (mixture m)) < 2.5 * Real.sqrt (mixture m).variance →
      (∀ j : Fin 3, j < m →
        ¬ Real.sqrt (sqDistance bgr (mixture j)) < 2.5 * Real.sqrt (mixture j).variance) →
      1 ≤ (mixture m).variance)
    (i : Fin 3) :
    0 < ((processPixel (⟨Real.sqrt, Real.exp, Real.log, Real.rpow, Real.pi⟩ : FloatOps ℝ)
        (Background.init ⟨Real.sqrt, Real.exp, Real.log, Real.rpow, Real.pi⟩ params)
        bgr mixture).1 i).variance := by
  rw [processPixel_mixture]
  show 0 < ((beforeNormalize _ _ bgr mixture).mixture i).variance
  cases hfm : firstMatch (⟨Real.sqrt, Real.exp, Real.log, Real.rpow, Real.pi⟩ : FloatOps ℝ)
      bgr mixture with
  | none =>
    rw [beforeNormalize_unmatched _ _ _ _ hfm]
    split_ifs
    · exact hiv
    · exact hvar i
  | some m =>
    have hsome : (firstMatch (⟨Real.sqrt, Real.exp, Real.log, Real.rpow, Real.pi⟩ : FloatOps ℝ)
        bgr mixture).isSome = true := by simp [hfm]
    rw [beforeNormalize_matched _ _ _ _ hsome, matchLoop_mixture, hfm]
    by_cases him : m = i
    · subst him
      simp only [if_true, matchUpdate]
      have hspec := firstMatch_some_spec _ bgr mixture m hfm
      have hv1 : 1 ≤ (mixture m).variance :=
        hfloor m ((withinRange_iff _ bgr _).1 hspec.1)
          (fun j hj => (withinRange_false_iff _ bgr _).1 (hspec.2 j hj))
      obtain ⟨hr0, hr1⟩ := real_matchRho_bounds params bgr (mixture m) hlr0 hlr1 hv1
      have hd := sqDistance_nonneg bgr (mixture m)
      have h1 : 0 < (1 - matchRho (⟨Real.sqrt, Real.exp, Real.log, Real.rpow, Real.pi⟩ :
          FloatOps ℝ) (Background.init ⟨Real.sqrt, Real.exp, Real.log, Real.rpow, Real.pi⟩
          params) bgr (mixture m)) * (mixture m).variance :=
        mul_pos (by linarith) (by linarith)
      have h2 := mul_nonneg hr0.le hd
      linarith
    · have hne : ¬ (some m = some i) := fun h => him (Option.some.inj h)
      simp only [hne, if_false, decayWeight]
      exact hvar i

/-- Witness for the amended C6: three components of variance 1 observing the colour
(1,0,0) with learningRate = 1/2. -/
theorem processPixel_variance_pos_witness :
    (∀ i : Fin 3, 0 < ((fun _ => ⟨0, 0, 0, 1, 1 / 3⟩ : GaussianMixture ℝ) i).variance) ∧
    0 < ((processPixel (⟨Real.sqrt, Real.exp, Real.log, Real.rpow, Real.pi⟩ : FloatOps ℝ)
        (Background.init ⟨Real.sqrt, Real.exp, Real.log, Real.rpow, Real.pi⟩
          ⟨30, 1 / 20, 1 / 2, 8⟩)
        ⟨1, 0, 0⟩ (fun _ => ⟨0, 0, 0, 1, 1 / 3⟩)).1 0).variance :=
  ⟨fun _ => one_pos,
    processPixel_variance_pos ⟨30, 1 / 20, 1 / 2, 8⟩ ⟨1, 0, 0⟩ (fun _ => ⟨0, 0, 0, 1, 1 / 3⟩)
      (by norm_num) (by norm_num) (by norm_num) (fun _ => one_pos)
      (fun _ _ _ => le_refl 1) 0⟩

end ScalarClaims

section VectorizedClaims

variable {F : Type} [LinearOrderedField F]

/-- C7. Match loop of the vectorised kernel, lane by lane: for four pixels `px` whose
converted bytes fill the registers `B`, `G`, `R`, after the first loop of
`processPixelSSE2` the means, variances and weights stored for lane `k`, the lane of
`matched` and the lane of `weightSum` are exactly what the match loop of `processPixel`
produces for pixel `px k` on that lane's mixture; so only the first component passing
the range test is updated and exactly the other components' weights are multiplied by
`1 - learningRate`. -/
theorem sseMatchLoop_lane_eq_scalar (ops : FloatOps F) (self : Background F)
    (px : Fin 4 → Vec3b) (gaussian : FloatMem F) (k : Fin 4) :
    laneMixture (sseMatchLoop ops self (fun l => ((px l).c0 : F)) (fun l => ((px l).c1 : F))
        (fun l => ((px l).c2 : F)) gaussian).gaussian k =
      (matchLoop ops self (px k) (laneMixture gaussian k)).mixture ∧
    (sseMatchLoop ops self (fun l => ((px l).c0 : F)) (fun l => ((px l).c1 : F))
        (fun l => ((px l).c2 : F)) gaussian).matched k =
      (matchLoop ops self (px k) (laneMixture gaussian k)).matchFound ∧
    (sseMatchLoop ops self (fun l => ((px l).c0 : F)) (fun l => ((px l).c1 : F))
        (fun l => ((px l).c2 : F)) gaussian).weightSum k =
      (matchLoop ops self (px k) (laneMixture gaussian k)).weightSum ∧
    ∀ i : Fin 3,
      laneMixture (sseMatchLoop ops self (fun l => ((px l).c0 : F))
          (fun l => ((px l).c1 : F)) (fun l => ((px l).c2 : F)) gaussian).gaussian k i =
        if firstMatch ops (px k) (laneMixture gaussian k) = some i then
          matchUpdate ops self (px k) (laneMixture gaussian k i)
        else
          { laneMixture gaussian k i with
            weight := (1 - self.params.learningRate) * (laneMixture gaussian k i).weight } := by
  have hst := laneState_sseMatchLoop ops self px gaussian k
  have hmix : laneMixture (sseMatchLoop ops self (fun l => ((px l).c0 : F))
      (fun l => ((px l).c1 : F)) (fun l => ((px l).c2 : F)) gaussian).gaussian k =
      (matchLoop ops self (px k) (laneMixture gaussian k)).mixture :=
    congrArg PixelState.mixture hst
  refine ⟨hmix, congrArg PixelState.matchFound hst, congrArg PixelState.weightSum hst, ?_⟩
  intro i
  rw [hmix, matchLoop_mixture]
  rfl

/-- C8 fails on ties. A block of zero-initialised mixtures observing the colour
(10, 20, 30) matches nothing and all three weights of a lane are equal; the vectorised
kernel then overwrites all three components of lane 0 (components 1 and 2 hold the
observed colour and `initialVariance` as well), whereas `processPixel` on the same pixel
and mixture overwrites component 0 only. -/
theorem sse_replacement_overwrites_every_tied_component :
    (∀ i : Fin 3,
      (laneMixture (sseUpdate (⟨Real.sqrt, Real.exp, Real.log, Real.rpow, Real.pi⟩ : FloatOps ℝ)
          (Background.init ⟨Real.sqrt, Real.exp, Real.log, Real.rpow, Real.pi⟩
            ⟨30, 1 / 20, 1 / 100, 8⟩)
          (fun _ => ((10 : ℕ) : ℝ)) (fun _ => ((20 : ℕ) : ℝ)) (fun _ => ((30 : ℕ) : ℝ))
          (blockOf (fun _ => ⟨0, 0, 0, 0, 0⟩)) (fun _ => 0)).1.gaussian 0 i).meanB = 10 ∧
      (laneMixture (sseUpdate (⟨Real.sqrt, Real.exp, Real.log, Real.rpow, Real.pi⟩ : FloatOps ℝ)
          (Background.init ⟨Real.sqrt, Real.exp, Real.log, Real.rpow, Real.pi⟩
            ⟨30, 1 / 20, 1 / 100, 8⟩)
          (fun _ => ((10 : ℕ) : ℝ)) (fun _ => ((20 : ℕ) : ℝ)) (fun _ => ((30 : ℕ) : ℝ))
          (blockOf (fun _ => ⟨0, 0, 0, 0, 0⟩)) (fun _ => 0)).1.gaussian 0 i).variance = 30) ∧
    ((processPixel (⟨Real.sqrt, Real.exp, Real.log, Real.rpow, Real.pi⟩ : FloatOps ℝ)
        (Background.init ⟨Real.sqrt, Real.exp, Real.log, Real.rpow, Real.pi⟩
          ⟨30, 1 / 20, 1 / 100, 8⟩)
        ⟨10, 20, 30⟩ (fun _ => ⟨0, 0, 0, 0, 0⟩)).1 0).meanB = 10 ∧
    ((processPixel (⟨Real.sqrt, Real.exp, Real.log, Real.rpow, Real.pi⟩ : FloatOps ℝ)
        (Background.init ⟨Real.sqrt, Real.exp, Real.log, Real.rpow, Real.pi⟩
          ⟨30, 1 / 20, 1 / 100, 8⟩)
        ⟨10, 20, 30⟩ (fun _ => ⟨0, 0, 0, 0, 0⟩)).1 1).meanB = 0 ∧
    ((processPixel (⟨Real.sqrt, Real.exp, Real.log, Real.rpow, Real.pi⟩ : FloatOps ℝ)
        (Background.init ⟨Real.sqrt, Real.exp, Real.log, Real.rpow, Real.pi⟩
          ⟨30, 1 / 20, 1 / 100, 8⟩)
        ⟨10, 20, 30⟩ (fun _ => ⟨0, 0, 0, 0, 0⟩)).1 2).meanB = 0 := by
  have hn := firstMatch_eq_none _ ⟨10, 20, 30⟩ _ (zero_mixture_unmatched ⟨10, 20, 30⟩)
  refine ⟨?_, ?_, ?_, ?_⟩
  · intro i
    have h := (laneMixture_sseUpdate (⟨Real.sqrt, Real.exp, Real.log, Real.rpow, Real.pi⟩ :
      FloatOps ℝ) (Background.init ⟨Real.sqrt, Real.exp, Real.log, Real.rpow, Real.pi⟩
        ⟨30, 1 / 20, 1 / 100, 8⟩) (fun _ => ⟨10, 20, 30⟩) (blockOf (fun _ => ⟨0, 0, 0, 0, 0⟩))
      (fun _ => 0) 0 i).1
    simp only [colourLanes] at h
    rw [h, laneMixture_blockOf]
    simp [sseLane, laneNormalize, laneReplace, laneIsMin, laneMinWeight, matchLoop_mixture,
      matchLoop_matchFound, hn, decayWeight, Background.init]
  · simp [processPixel_mixture, beforeNormalize_unmatched _ _ _ _ hn, minElement, finRange_three,
      matchLoop_mixture, hn, decayWeight]
  · simp [processPixel_mixture, beforeNormalize_unmatched _ _ _ _ hn, minElement, finRange_three,
      matchLoop_mixture, hn, decayWeight]
  · simp [processPixel_mixture, beforeNormalize_unmatched _ _ _ _ hn, minElement, finRange_three,
      matchLoop_mixture, hn, decayWeight]

/-- C9 fails on ties. A block whose lanes hold `tiedMixture` observes the colour
(200, 200, 200): component 2 matches, components 0 and 1 end with the same, maximal
weight. The vectorised kernel takes the background colour and the foreground bit of
lane 0 from component 1 (blue 100, background), whereas the scalar path's
`std::max_element` selects component 0 (blue 0, foreground). -/
theorem sse_dominant_differs_on_ties :
    (sseUpdate (⟨Real.sqrt, Real.exp, Real.log, Real.rpow, Real.pi⟩ : FloatOps ℝ)
        (Background.init ⟨Real.sqrt, Real.exp, Real.log, Real.rpow, Real.pi⟩
          ⟨30, 1 / 20, 1 / 2, 30000⟩)
        (fun _ => ((200 : ℕ) : ℝ)) (fun _ => ((200 : ℕ) : ℝ)) (fun _ => ((200 : ℕ) : ℝ))
        (blockOf tiedMixture) (fun _ => 0)).2.bgB 0 = 100 ∧
    (sseUpdate (⟨Real.sqrt, Real.exp, Real.log, Real.rpow, Real.pi⟩ : FloatOps ℝ)
        (Background.init ⟨Real.sqrt, Real.exp, Real.log, Real.rpow, Real.pi⟩
          ⟨30, 1 / 20, 1 / 2, 30000⟩)
        (fun _ => ((200 : ℕ) : ℝ)) (fun _ => ((200 : ℕ) : ℝ)) (fun _ => ((200 : ℕ) : ℝ))
        (blockOf tiedMixture) (fun _ => 0)).2.fgMask 0 = false ∧
    maxElement (processPixel (⟨Real.sqrt, Real.exp, Real.log, Real.rpow, Real.pi⟩ : FloatOps ℝ)
        (Background.init ⟨Real.sqrt, Real.exp, Real.log, Real.rpow, Real.pi⟩
          ⟨30, 1 / 20, 1 / 2, 30000⟩) ⟨200, 200, 200⟩ tiedMixture).1 = 0 ∧
    ((processPixel (⟨Real.sqrt, Real.exp, Real.log, Real.rpow, Real.pi⟩ : FloatOps ℝ)
        (Background.init ⟨Real.sqrt, Real.exp, Real.log, Real.rpow, Real.pi⟩
          ⟨30, 1 / 20, 1 / 2, 30000⟩) ⟨200, 200, 200⟩ tiedMixture).1 0).meanB = 0 ∧
    (processPixel (⟨Real.sqrt, Real.exp, Real.log, Real.rpow, Real.pi⟩ : FloatOps ℝ)
        (Background.init ⟨Real.sqrt, Real.exp, Real.log, Real.rpow, Real.pi⟩
          ⟨30, 1 / 20, 1 / 2, 30000⟩) ⟨200, 200, 200⟩ tiedMixture).2 = true := by
  have hfm := tiedMixture_firstMatch
  have hsome : (firstMatch (⟨Real.sqrt, Real.exp, Real.log, Real.rpow, Real.pi⟩ : FloatOps ℝ)
      ⟨200, 200, 200⟩ tiedMixture).isSome = true := by rw [hfm]; rfl
  have hlog0 : 0 ≤ Real.log (2 * Real.pi) :=
    Real.log_nonneg (by nlinarith [Real.pi_gt_three])
  have hlog1 : Real.log (2 * Real.pi) ≤ 7 := by
    have := Real.log_le_sub_one_of_pos (show (0 : ℝ) < 2 * Real.pi by
      nlinarith [Real.pi_gt_three])
    nlinarith [Real.pi_lt_four]
  have hd := sseUpdate_dominant (⟨Real.sqrt, Real.exp, Real.log, Real.rpow, Real.pi⟩ :
    FloatOps ℝ) (Background.init ⟨Real.sqrt, Real.exp, Real.log, Real.rpow, Real.pi⟩
      ⟨30, 1 / 20, 1 / 2, 30000⟩) (fun _ => ⟨200, 200, 200⟩) (blockOf tiedMixture)
    (fun _ => 0) 0
  obtain ⟨h0, h1, -⟩ := tiedMixture_processPixel _ (Background.init
    (⟨Real.sqrt, Real.exp, Real.log, Real.rpow, Real.pi⟩ : FloatOps ℝ)
    ⟨30, 1 / 20, 1 / 2, 30000⟩) hfm rfl
  obtain ⟨hdom, hmax⟩ := tiedMixture_dominant _ (Background.init
    (⟨Real.sqrt, Real.exp, Real.log, Real.rpow, Real.pi⟩ : FloatOps ℝ)
    ⟨30, 1 / 20, 1 / 2, 30000⟩) hfm rfl
  simp only [colourLanes, laneMixture_blockOf, hdom, sseLane_matched _ _ _ _ hsome, h1] at hd
  refine ⟨hd.2.1, ?_, hmax, ?_, ?_⟩
  · rw [hd.1]
    simp [epsilonBg, Background.init]
    norm_num
    linarith
  · rw [h0]
  · simp only [processPixel] at hmax h0 ⊢
    rw [hmax, h0]
    simp [epsilonBg, Background.init]
    norm_num
    linarith

/-- C10 fails for lanes 1 to 3. With all four lanes foreground the word returned by
`processPixelSSE2` is 0x08040201: the four mask bytes are 1, 2, 4, 8, not 1, 1, 1, 1;
with only lane 1 foreground the byte of lane 1 is 2. Background lanes give byte 0. -/
theorem sseOutMask_bytes_not_one :
    sseOutMask (fun _ => true) = 0x08040201 ∧
    maskByte (sseOutMask (fun _ => true)) 0 = 1 ∧
    maskByte (sseOutMask (fun _ => true)) 1 = 2 ∧
    maskByte (sseOutMask (fun _ => true)) 2 = 4 ∧
    maskByte (sseOutMask (fun _ => true)) 3 = 8 ∧
    maskByte (sseOutMask (fun k => decide (k = 1))) 1 = 2 ∧
    maskByte (sseOutMask (fun k => decide (k = 1))) 0 = 0 := by
  decide

end VectorizedClaims

section PackedLemmas
variable {F : Type} [LinearOrderedField F]

/-- Lane `k` of the registers `B`, `G`, `R` left by the head of the vectorised kernel. -/
theorem sseLoadColours_lane (frame : ByteMem) (k : Fin 4) :
    (sseLoadColours frame : M128 F × M128 F × M128 F).1 k = ((frame (3 * k.val) % 256 : ℕ) : F) ∧
    (sseLoadColours frame : M128 F × M128 F × M128 F).2.1 k =
      ((frame (3 * k.val + 1) % 256 : ℕ) : F) ∧
    (sseLoadColours frame : M128 F × M128 F × M128 F).2.2 k =
      ((frame (3 * k.val + 2) % 256 : ℕ) : F) := by
  have hb : ∀ n : Nat, n % 256 < 2147483648 := fun n =>
    lt_of_lt_of_le (Nat.mod_lt n (by decide)) (by decide)
  fin_cases k <;>
    simp [sseLoadColours, mm_shuffle_ps, MM_SHUFFLE, mm_move_ss, mm_cvtepi32_ps,
      mm_unpacklo_epi8, mm_unpackhi_epi8, mm_unpacklo_epi16, mm_unpackhi_epi16,
      mm_slli_si128, mm_loadu_si128, mm_set1_epi8, mm_set1_epi16, hb]

end PackedLemmas

section PackLemmas
variable {F : Type} [LinearOrderedField F] [FloorRing F]

/-- Every byte produced by `_mm_packs_epi16` is below 256. -/
theorem mm_packs_epi16_lt (a b : Epi16) (i : Fin 16) : mm_packs_epi16 a b i < 256 := by
  simp only [mm_packs_epi16]
  omega

/-- Masking a byte with `0xFF` leaves it unchanged. -/
theorem and_255_of_lt (x : Nat) (h : x < 256) : x &&& 255 = x ∧ 255 &&& x = x := by
  have h1 : x &&& 255 = x := by
    rw [show (255 : Nat) = 2 ^ 8 - 1 by decide, Nat.and_pow_two_sub_one_eq_mod]
    exact Nat.mod_eq_of_lt h
  exact ⟨h1, by rw [Nat.and_comm]; exact h1⟩

/-- Bytes of `_mm_packs_epi16` are unchanged by a `0xFF` mask. -/
theorem mm_packs_epi16_and (a b : Epi16) (i : Fin 16) :
    mm_packs_epi16 a b i &&& 255 = mm_packs_epi16 a b i ∧
    255 &&& mm_packs_epi16 a b i = mm_packs_epi16 a b i :=
  and_255_of_lt _ (mm_packs_epi16_lt a b i)

/-- Zero rounds to zero. -/
theorem roundNearestEven_zero : roundNearestEven (0 : F) = 0 := by
  simp [roundNearestEven]

set_option maxRecDepth 100000 in
/-- For a byte `x`, `(~x) & x = 0`. -/
theorem byte_andnot_self (x : Nat) (h : x < 256) : (x ^^^ 255) &&& x = 0 := by
  have : ∀ y : Fin 256, (y.val ^^^ 255) &&& y.val = 0 := by decide
  exact this ⟨x, h⟩

/-- The and-not of a packed byte with itself is 0. -/
theorem mm_packs_epi16_andnot (a b : Epi16) (i : Fin 16) :
    (mm_packs_epi16 a b i ^^^ 255) &&& mm_packs_epi16 a b i = 0 :=
  byte_andnot_self _ (mm_packs_epi16_lt a b i)

/-- Bytes 3k, 3k+1, 3k+2 stored by the background write are the converted, saturated
values of lane `k` of `bgB`, `bgG`, `bgR`. -/
theorem ssePackBackground_byte (bgB bgG bgR : M128 F) (cur : ByteMem) (k : Fin 4) :
    ssePackBackground bgB bgG bgR cur ⟨3 * k.val, by omega⟩ = sseChannelByte (bgB k) ∧
    ssePackBackground bgB bgG bgR cur ⟨3 * k.val + 1, by omega⟩ = sseChannelByte (bgG k) ∧
    ssePackBackground bgB bgG bgR cur ⟨3 * k.val + 2, by omega⟩ = sseChannelByte (bgR k) := by
  have hz : ∀ i : Fin 16, i.val % 4 = 3 →
      mm_packs_epi16
        (mm_packs_epi32 (mm_cvtps_epi32 (MM_TRANSPOSE4_PS bgB bgG bgR (mm_set1_ps 0)).1)
          (mm_cvtps_epi32 (MM_TRANSPOSE4_PS bgB bgG bgR (mm_set1_ps 0)).2.1))
        (mm_packs_epi32 (mm_cvtps_epi32 (MM_TRANSPOSE4_PS bgB bgG bgR (mm_set1_ps 0)).2.2.1)
          (mm_cvtps_epi32 (MM_TRANSPOSE4_PS bgB bgG bgR (mm_set1_ps 0)).2.2.2)) i = 0 := by
    intro i hi
    fin_cases i <;> simp at hi <;>
      simp [mm_packs_epi16, mm_packs_epi32, mm_cvtps_epi32, MM_TRANSPOSE4_PS, mm_set1_ps,
        cvtps_epi32_lane, roundNearestEven_zero]
  have h3 := hz 3 (by decide)
  have h7 := hz 7 (by decide)
  have h11 := hz 11 (by decide)
  fin_cases k <;>
    simp [ssePackBackground, mm_or_si128, mm_and_si128, mm_andnot_si128, mm_setr_epi8,
      mm_setr_epi32, mm_srli_si128, mm_loadu_si128, mm_packs_epi16_and, mm_packs_epi16_andnot,
      Fin.coe_ofNat_eq_mod, h3, h7, h11] <;>
    exact ⟨rfl, rfl, rfl⟩

/-- Bytes 12 to 15 stored by the background write are the bytes already in memory. -/
theorem ssePackBackground_tail (bgB bgG bgR : M128 F) (cur : ByteMem) (i : Fin 16)
    (hi : 12 ≤ i.val) :
    ssePackBackground bgB bgG bgR cur i = cur i.val % 256 := by
  have hmod : ∀ n : Nat, (n % 256 ^^^ 0 ^^^ 255 ^^^ 255) = n % 256 := by
    intro n; simp [Nat.xor_assoc]
  fin_cases i <;> simp at hi <;>
    simp [ssePackBackground, mm_or_si128, mm_and_si128, mm_andnot_si128, mm_setr_epi8,
      mm_setr_epi32, mm_srli_si128, mm_loadu_si128, Fin.coe_ofNat_eq_mod] <;>
    exact (and_255_of_lt _ (Nat.mod_lt _ (by decide))).2

/-- A channel value rounding to `n` in 0..255 is stored as `n` up to 127 and as 127 above. -/
theorem sseChannelByte_eval (x : F) (n : Int) (hn : roundNearestEven x = n)
    (h0 : 0 ≤ n) (h1 : n ≤ 255) :
    sseChannelByte x = if n ≤ 127 then n.toNat else 127 := by
  simp only [sseChannelByte, cvtps_epi32_lane, hn]
  split_ifs <;> omega

/-- A natural number rounds to itself. -/
theorem roundNearestEven_natCast (n : Nat) : roundNearestEven ((n : ℕ) : F) = n := by
  simp [roundNearestEven]

/-- The scalar conversion of a natural number below 256 is that number. -/
theorem floatToUint8_natCast (n : Nat) (h : n < 256) : floatToUint8 ((n : ℕ) : F) = n := by
  simp [floatToUint8, Nat.mod_eq_of_lt h]

end PackLemmas

section PartitionLemmas

end PartitionLemmas

section IterLemmas
variable {F : Type} [LinearOrderedField F]

/-- Before the renormalisation the weights are non-negative and their sum is positive,
for a valid configuration and non-negative incoming weights summing to 1. -/
theorem beforeNormalize_weights (ops : FloatOps F) (self : Background F) (bgr : Vec3b)
    (m : GaussianMixture F) (hlr0 : 0 < self.params.learningRate)
    (hlr1 : self.params.learningRate < 1) (hiw : 0 < self.params.initialWeight)
    (hw : ∀ i, 0 ≤ (m i).weight)
    (hsum : (m 0).weight + (m 1).weight + (m 2).weight = 1) :
    (∀ i, 0 ≤ ((beforeNormalize ops self bgr m).mixture i).weight) ∧
    0 < (beforeNormalize ops self bgr m).weightSum := by
  have h0 := hw 0
  have h1 := hw 1
  have h2 := hw 2
  have hd : ∀ i, 0 ≤ (1 - self.params.learningRate) * (m i).weight :=
    fun i => mul_nonneg (by linarith) (hw i)
  have hd0 := hd 0
  have hd1 := hd 1
  have hd2 := hd 2
  rw [beforeNormalize_weightSum, sumWeights_eq]
  cases hfm : firstMatch ops bgr m with
  | none =>
    have hb := beforeNormalize_unmatched ops self bgr m hfm
    have hnn : ∀ i, 0 ≤ ((beforeNormalize ops self bgr m).mixture i).weight := by
      intro i
      rw [hb]
      split_ifs
      · exact hiw.le
      · exact hd i
    refine ⟨hnn, ?_⟩
    have hk : ((beforeNormalize ops self bgr m).mixture
        (minElement (matchLoop ops self bgr m).mixture)).weight = self.params.initialWeight := by
      rw [hb]; simp
    have n0 := hnn 0
    have n1 := hnn 1
    have n2 := hnn 2
    generalize minElement (matchLoop ops self bgr m).mixture = k at hk
    fin_cases k <;> simp at hk <;> linarith
  | some k =>
    have hsome : (firstMatch ops bgr m).isSome = true := by simp [hfm]
    rw [beforeNormalize_matched ops self bgr m hsome]
    have hmix := matchLoop_mixture ops self bgr m
    have hnn : ∀ i, 0 ≤ ((matchLoop ops self bgr m).mixture i).weight := by
      intro i
      rw [hmix, hfm]
      split_ifs
      · exact hw i
      · exact hd i
    refine ⟨hnn, ?_⟩
    have hge : ∀ i, (1 - self.params.learningRate) * (m i).weight ≤
        ((matchLoop ops self bgr m).mixture i).weight := by
      intro i
      rw [hmix, hfm]
      split_ifs
      · show _ ≤ (m i).weight
        nlinarith [hw i]
      · exact le_refl _
    have g0 := hge 0
    have g1 := hge 1
    have g2 := hge 2
    have : (1 - self.params.learningRate) * ((m 0).weight + (m 1).weight + (m 2).weight) =
        1 - self.params.learningRate := by rw [hsum, mul_one]
    nlinarith

/-- A component of variance 0 never passes the range test. -/
theorem not_withinRange_of_variance_zero (ops : FloatOps F) (bgr : Vec3b) (g : Gaussian F)
    (hs0 : ops.sqrt 0 = 0) (hsn : ∀ x, 0 ≤ ops.sqrt x) (hv : g.variance = 0) :
    withinRange ops bgr g = false := by
  rw [withinRange_false_iff, hv, hs0, mul_zero]
  exact not_lt.2 (hsn _)

/-- The matched update leaves a mean that already equals the observed colour unchanged. -/
theorem matchUpdate_mean_fixed (ops : FloatOps F) (self : Background F) (bgr : Vec3b)
    (g : Gaussian F)
    (hm : g.meanB = (bgr.c0 : F) ∧ g.meanG = (bgr.c1 : F) ∧ g.meanR = (bgr.c2 : F)) :
    (matchUpdate ops self bgr g).meanB = (bgr.c0 : F) ∧
    (matchUpdate ops self bgr g).meanG = (bgr.c1 : F) ∧
    (matchUpdate ops self bgr g).meanR = (bgr.c2 : F) := by
  obtain ⟨hB, hG, hR⟩ := hm
  simp only [matchUpdate, hB, hG, hR]
  refine ⟨by ring, by ring, by ring⟩

/-- The components of the state before renormalisation keep the invariant on means. -/
theorem beforeNormalize_means (ops : FloatOps F) (self : Background F) (bgr : Vec3b)
    (m : GaussianMixture F) (hs0 : ops.sqrt 0 = 0) (hsn : ∀ x, 0 ≤ ops.sqrt x)
    (hmean : ∀ i, ((m i).meanB = (bgr.c0 : F) ∧ (m i).meanG = (bgr.c1 : F) ∧
        (m i).meanR = (bgr.c2 : F)) ∨ ((m i).weight = 0 ∧ (m i).variance = 0))
    (i : Fin 3) :
    (((beforeNormalize ops self bgr m).mixture i).meanB = (bgr.c0 : F) ∧
      ((beforeNormalize ops self bgr m).mixture i).meanG = (bgr.c1 : F) ∧
      ((beforeNormalize ops self bgr m).mixture i).meanR = (bgr.c2 : F)) ∨
    (((beforeNormalize ops self bgr m).mixture i).weight = 0 ∧
      ((beforeNormalize ops self bgr m).mixture i).variance = 0) := by
  have hdecay : (((decayWeight self (m i)).meanB = (bgr.c0 : F) ∧
      (decayWeight self (m i)).meanG = (bgr.c1 : F) ∧
      (decayWeight self (m i)).meanR = (bgr.c2 : F)) ∨
      ((decayWeight self (m i)).weight = 0 ∧ (decayWeight self (m i)).variance = 0)) := by
    rcases hmean i with h | ⟨hw, hv⟩
    · exact Or.inl h
    · exact Or.inr ⟨by simp [decayWeight, hw], hv⟩
  cases hfm : firstMatch ops bgr m with
  | none =>
    rw [beforeNormalize_unmatched ops self bgr m hfm]
    split_ifs
    · exact Or.inl ⟨rfl, rfl, rfl⟩
    · exact hdecay
  | some k =>
    have hsome : (firstMatch ops bgr m).isSome = true := by simp [hfm]
    rw [beforeNormalize_matched ops self bgr m hsome, matchLoop_mixture, hfm]
    split_ifs with hki
    · have hki2 : k = i := Option.some.inj hki
      subst hki2
      have hspec := (firstMatch_some_spec ops bgr m k hfm).1
      rcases hmean k with h | ⟨-, hv⟩
      · exact Or.inl (matchUpdate_mean_fixed ops self bgr _ h)
      · rw [not_withinRange_of_variance_zero ops bgr _ hs0 hsn hv] at hspec
        exact absurd hspec (by simp)
    · exact hdecay

/-- One call of `processPixel` with the colour `bgr` preserves `ConstantFed bgr`. -/
theorem constantFed_step (ops : FloatOps F) (self : Background F) (bgr : Vec3b)
    (m : GaussianMixture F) (hlr0 : 0 < self.params.learningRate)
    (hlr1 : self.params.learningRate < 1) (hiw : 0 < self.params.initialWeight)
    (hs0 : ops.sqrt 0 = 0) (hsn : ∀ x, 0 ≤ ops.sqrt x) (h : ConstantFed bgr m) :
    ConstantFed bgr (processPixel ops self bgr m).1 := by
  obtain ⟨hw, hsum, hmean⟩ := h
  obtain ⟨hnn, hS⟩ := beforeNormalize_weights ops self bgr m hlr0 hlr1 hiw hw hsum
  have hinv : 0 ≤ 1 / (beforeNormalize ops self bgr m).weightSum := by positivity
  refine ⟨?_, ?_, ?_⟩
  · intro i
    rw [processPixel_mixture]
    exact mul_nonneg (hnn i) hinv
  · simp only [processPixel_mixture]
    have hSe := beforeNormalize_weightSum ops self bgr m
    rw [sumWeights_eq] at hSe
    rw [← add_mul, ← add_mul, ← hSe]
    field_simp
  · intro i
    rw [processPixel_mixture]
    rcases beforeNormalize_means ops self bgr m hs0 hsn hmean i with h | ⟨hw0, hv0⟩
    · exact Or.inl h
    · exact Or.inr ⟨by simp [hw0], hv0⟩

/-- The first call of `processPixel` on a zero-initialised mixture establishes
`ConstantFed bgr`. -/
theorem constantFed_init (ops : FloatOps F) (self : Background F) (bgr : Vec3b)
    (hiw : 0 < self.params.initialWeight)
    (hs0 : ops.sqrt 0 = 0) (hsn : ∀ x, 0 ≤ ops.sqrt x) :
    ConstantFed bgr (processPixel ops self bgr zeroMixture).1 := by
  have hfm : firstMatch ops bgr (zeroMixture : GaussianMixture F) = none :=
    firstMatch_eq_none ops bgr _
      (fun j => not_withinRange_of_variance_zero ops bgr _ hs0 hsn rfl)
  have hb := beforeNormalize_unmatched ops self bgr zeroMixture hfm
  have hSe := beforeNormalize_weightSum ops self bgr (zeroMixture : GaussianMixture F)
  rw [sumWeights_eq] at hSe
  have hne : self.params.initialWeight ≠ 0 := ne_of_gt hiw
  generalize minElement (matchLoop ops self bgr (zeroMixture : GaussianMixture F)).mixture = k
    at hb
  refine ⟨?_, ?_, ?_⟩
  · intro i
    rw [processPixel_mixture, hSe]
    simp only [hb]
    fin_cases k <;> fin_cases i <;> simp [decayWeight, zeroMixture, hne]
  · simp only [processPixel_mixture, hSe, hb]
    fin_cases k <;> simp [decayWeight, zeroMixture, hne]
  · intro i
    rw [processPixel_mixture]
    simp only [hb]
    fin_cases k <;> fin_cases i <;> simp [decayWeight, zeroMixture]

/-- Every state of a constant-colour run from the zero-initialised mixture satisfies
`ConstantFed`. -/
theorem constantFed_feed (ops : FloatOps F) (self : Background F) (bgr : Vec3b)
    (hlr0 : 0 < self.params.learningRate)
    (hlr1 : self.params.learningRate < 1) (hiw : 0 < self.params.initialWeight)
    (hs0 : ops.sqrt 0 = 0) (hsn : ∀ x, 0 ≤ ops.sqrt x) (n : Nat) :
    ConstantFed bgr (feedConstant ops self bgr zeroMixture (n + 1)).1 := by
  induction n with
  | zero => exact constantFed_init ops self bgr hiw hs0 hsn
  | succ n ih => exact constantFed_step ops self bgr _ hlr0 hlr1 hiw hs0 hsn ih

/-- Under `ConstantFed bgr`, every component of maximum weight has its mean at `bgr`. -/
theorem constantFed_dominant (bgr : Vec3b) (m : GaussianMixture F) (h : ConstantFed bgr m)
    (k : Fin 3) (hk : ∀ j, (m j).weight ≤ (m k).weight) :
    (m k).meanB = (bgr.c0 : F) ∧ (m k).meanG = (bgr.c1 : F) ∧ (m k).meanR = (bgr.c2 : F) := by
  obtain ⟨-, hsum, hmean⟩ := h
  rcases hmean k with h | ⟨hw0, -⟩
  · exact h
  · have h0 := hk 0
    have h1 := hk 1
    have h2 := hk 2
    rw [hw0] at h0 h1 h2
    linarith

end IterLemmas

section RealRun

/-- With the exact real functions and a variance of at least 1, one matched update lowers
the variance by at most `learningRate`: `rho * variance ≤ learningRate`. -/
theorem real_matchRho_mul_le (params : BackgroundParameters ℝ) (bgr : Vec3b)
    (gauss : Gaussian ℝ) (hlr0 : 0 < params.learningRate) (hv : 1 ≤ gauss.variance) :
    matchRho (⟨Real.sqrt, Real.exp, Real.log, Real.rpow, Real.pi⟩ : FloatOps ℝ)
        (Background.init ⟨Real.sqrt, Real.exp, Real.log, Real.rpow, Real.pi⟩ params) bgr gauss *
      gauss.variance ≤ params.learningRate := by
  simp only [matchRho, Background.init]
  have hv0 : 0 ≤ gauss.variance := by linarith
  have hsd : 1 ≤ Real.sqrt gauss.variance := Real.one_le_sqrt.2 hv
  have hsq : Real.sqrt gauss.variance * Real.sqrt gauss.variance = gauss.variance :=
    Real.mul_self_sqrt hv0
  have hc := real_etaConst_ge_one
  have hexp0 : 0 < Real.exp (-0.5 * sqDistance bgr gauss / gauss.variance) := Real.exp_pos _
  have hexp1 : Real.exp (-0.5 * sqDistance bgr gauss / gauss.variance) ≤ 1 := by
    apply Real.exp_le_one_iff.2
    apply div_nonpos_of_nonpos_of_nonneg
    · have := sqDistance_nonneg bgr gauss
      linarith
    · linarith
  have hden : gauss.variance ≤ Real.rpow (2 * Real.pi) (3 / 2) * Real.sqrt gauss.variance *
      Real.sqrt gauss.variance * Real.sqrt gauss.variance := by
    have h1 : 1 ≤ Real.rpow (2 * Real.pi) (3 / 2) * Real.sqrt gauss.variance :=
      one_le_mul_of_one_le_of_one_le hc hsd
    calc gauss.variance = 1 * gauss.variance := (one_mul _).symm
      _ ≤ (Real.rpow (2 * Real.pi) (3 / 2) * Real.sqrt gauss.variance) * gauss.variance :=
        mul_le_mul_of_nonneg_right h1 hv0
      _ = _ := by
        have e : ∀ a b : ℝ, a * b * b * b = (a * b) * (b * b) := fun a b => by ring
        rw [e, hsq]
  have hden0 : 0 < Real.rpow (2 * Real.pi) (3 / 2) * Real.sqrt gauss.variance *
      Real.sqrt gauss.variance * Real.sqrt gauss.variance := by linarith
  have hq : Real.exp (-0.5 * sqDistance bgr gauss / gauss.variance) /
      (Real.rpow (2 * Real.pi) (3 / 2) * Real.sqrt gauss.variance *
        Real.sqrt gauss.variance * Real.sqrt gauss.variance) * gauss.variance ≤ 1 := by
    rw [div_mul_eq_mul_div, div_le_one hden0]
    calc Real.exp (-0.5 * sqDistance bgr gauss / gauss.variance) * gauss.variance
        ≤ 1 * gauss.variance := mul_le_mul_of_nonneg_right hexp1 hv0
      _ = gauss.variance := one_mul _
      _ ≤ _ := hden
  calc params.learningRate * (Real.exp (-0.5 * sqDistance bgr gauss / gauss.variance) /
        (Real.rpow (2 * Real.pi) (3 / 2) * Real.sqrt gauss.variance *
          Real.sqrt gauss.variance * Real.sqrt gauss.variance)) * gauss.variance
      = params.learningRate * (Real.exp (-0.5 * sqDistance bgr gauss / gauss.variance) /
        (Real.rpow (2 * Real.pi) (3 / 2) * Real.sqrt gauss.variance *
          Real.sqrt gauss.variance * Real.sqrt gauss.variance) * gauss.variance) := by ring
    _ ≤ params.learningRate * 1 := mul_le_mul_of_nonneg_left hq hlr0.le
    _ = params.learningRate := mul_one _

/-- One further constant frame on a mixture whose only weighted component sits at the
colour with variance `v ≥ 1`: the component keeps mean and weight, and its variance
drops by at most `learningRate`. -/
theorem real_single_component_step (params : BackgroundParameters ℝ) (bgr : Vec3b) (v : ℝ)
    (hlr0 : 0 < params.learningRate) (hlr1 : params.learningRate < 1) (hv : 1 ≤ v) :
    ∃ v1 : ℝ, v - params.learningRate ≤ v1 ∧ v1 ≤ v ∧
      (processPixel (⟨Real.sqrt, Real.exp, Real.log, Real.rpow, Real.pi⟩ : FloatOps ℝ)
        (Background.init ⟨Real.sqrt, Real.exp, Real.log, Real.rpow, Real.pi⟩ params) bgr
        (fun i => if i = 0 then ⟨bgr.c0, bgr.c1, bgr.c2, v, 1⟩ else ⟨0, 0, 0, 0, 0⟩)).1 =
      (fun i => if i = 0 then ⟨bgr.c0, bgr.c1, bgr.c2, v1, 1⟩ else ⟨0, 0, 0, 0, 0⟩) := by
  have hsd : 1 ≤ Real.sqrt v := Real.one_le_sqrt.2 hv
  have hfm : firstMatch (⟨Real.sqrt, Real.exp, Real.log, Real.rpow, Real.pi⟩ : FloatOps ℝ) bgr
      (fun i => if i = 0 then ⟨bgr.c0, bgr.c1, bgr.c2, v, 1⟩ else ⟨0, 0, 0, 0, 0⟩) = some 0 := by
    apply firstMatch_eq_some
    · simp [withinRange, sqDistance]
      linarith
    · intro j hj; exact absurd hj (by simp)
  have hsome : (firstMatch (⟨Real.sqrt, Real.exp, Real.log, Real.rpow, Real.pi⟩ : FloatOps ℝ) bgr
      (fun i => if i = 0 then ⟨bgr.c0, bgr.c1, bgr.c2, v, 1⟩ else ⟨0, 0, 0, 0, 0⟩)).isSome = true := by
    rw [hfm]; rfl
  obtain ⟨hr0, hr1⟩ := real_matchRho_bounds params bgr ⟨bgr.c0, bgr.c1, bgr.c2, v, 1⟩ hlr0 hlr1 hv
  have hmul := real_matchRho_mul_le params bgr ⟨bgr.c0, bgr.c1, bgr.c2, v, 1⟩ hlr0 hv
  refine ⟨(1 - matchRho (⟨Real.sqrt, Real.exp, Real.log, Real.rpow, Real.pi⟩ : FloatOps ℝ)
        (Background.init ⟨Real.sqrt, Real.exp, Real.log, Real.rpow, Real.pi⟩ params) bgr
        ⟨bgr.c0, bgr.c1, bgr.c2, v, 1⟩) * v, ?_, ?_, ?_⟩
  · simp only at hmul
    linarith
  · have : 0 ≤ v := by linarith
    nlinarith
  · funext i
    rw [processPixel_mixture, beforeNormalize_matched _ _ _ _ hsome, matchLoop_weightSum]
    simp only [matchLoop_mixture, hfm]
    fin_cases i
    · ext <;> simp [matchUpdate, decayWeight, sqDistance] <;> ring
    · ext <;> simp [matchUpdate, decayWeight]
    · ext <;> simp [matchUpdate, decayWeight]

/-- The constant-colour run from a zero-initialised mixture, while the variance stays
at least 1: after `n + 1` frames component 0 sits at the colour with weight 1 and a
variance between `initialVariance - n * learningRate` and `initialVariance`, the other
two components are still zero. -/
theorem real_constant_run (params : BackgroundParameters ℝ) (bgr : Vec3b)
    (hlr0 : 0 < params.learningRate) (hlr1 : params.learningRate < 1)
    (hiw : 0 < params.initialWeight) (n : Nat)
    (hn : (n : ℝ) * params.learningRate + 1 ≤ params.initialVariance) :
    ∃ v : ℝ, params.initialVariance - (n : ℝ) * params.learningRate ≤ v ∧
      v ≤ params.initialVariance ∧
      (feedConstant (⟨Real.sqrt, Real.exp, Real.log, Real.rpow, Real.pi⟩ : FloatOps ℝ)
        (Background.init ⟨Real.sqrt, Real.exp, Real.log, Real.rpow, Real.pi⟩ params) bgr
        zeroMixture (n + 1)).1 =
      (fun i => if i = 0 then ⟨bgr.c0, bgr.c1, bgr.c2, v, 1⟩ else ⟨0, 0, 0, 0, 0⟩) := by
  induction n with
  | zero =>
    refine ⟨params.initialVariance, by simp, le_refl _, ?_⟩
    have hfm : firstMatch (⟨Real.sqrt, Real.exp, Real.log, Real.rpow, Real.pi⟩ : FloatOps ℝ) bgr
        (zeroMixture : GaussianMixture ℝ) = none :=
      firstMatch_eq_none _ bgr _
        (fun j => not_withinRange_of_variance_zero _ bgr _ Real.sqrt_zero Real.sqrt_nonneg rfl)
    have hne : params.initialWeight ≠ 0 := ne_of_gt hiw
    funext i
    simp only [feedConstant]
    rw [processPixel_mixture, beforeNormalize_weightSum, sumWeights_eq]
    simp only [beforeNormalize_unmatched _ _ _ _ hfm]
    have hmin : minElement (matchLoop (⟨Real.sqrt, Real.exp, Real.log, Real.rpow, Real.pi⟩ :
        FloatOps ℝ) (Background.init ⟨Real.sqrt, Real.exp, Real.log, Real.rpow, Real.pi⟩ params)
        bgr (zeroMixture : GaussianMixture ℝ)).mixture = 0 := by
      simp [minElement, finRange_three, matchLoop_mixture, hfm, decayWeight, zeroMixture]
    rw [hmin]
    fin_cases i <;> ext <;> simp [decayWeight, zeroMixture, Background.init, hne]
  | succ k ih =>
    have hk : (k : ℝ) * params.learningRate + 1 ≤ params.initialVariance := by
      push_cast at hn
      nlinarith
    obtain ⟨v, hv0, hv1, hst⟩ := ih hk
    have hv : 1 ≤ v := by
      push_cast at hn
      nlinarith
    obtain ⟨v1, h1, h2, hstep⟩ := real_single_component_step params bgr v hlr0 hlr1 hv
    refine ⟨v1, ?_, by linarith, ?_⟩
    · push_cast
      nlinarith
    · show (processPixel _ _ bgr (feedConstant _ _ bgr zeroMixture (k + 1)).1).1 = _
      rw [hst, hstep]

/-- The constant term of `epsilon_bg` exceeds 1. -/
theorem real_two_log_two_pi : 1 < 2 * Real.log (2 * Real.pi) := by
  have hpos : (0 : ℝ) < 2 * Real.pi := by nlinarith [Real.pi_gt_three]
  have h := Real.one_sub_inv_le_log_of_pos hpos
  have hinv : (2 * Real.pi)⁻¹ ≤ 1 / 6 := by
    rw [inv_eq_one_div, div_le_div_iff₀ hpos (by norm_num)]
    nlinarith [Real.pi_gt_three]
  linarith

/-- The dominant component of a single-component state is component 0. -/
theorem maxElement_single (b g r v : ℝ) :
    maxElement (fun i : Fin 3 => if i = 0 then (⟨b, g, r, v, 1⟩ : Gaussian ℝ)
      else ⟨0, 0, 0, 0, 0⟩) = 0 := by
  simp [maxElement, finRange_three]
  norm_num

end RealRun

section PackClaims

/-- C11 fails on the code: for a dominant component with means
(meanB, meanG, meanR) = (200, 100.7, 50), all within [0,255], the vectorised path stores
the bytes (127, 101, 50) at offsets 3k, 3k+1, 3k+2 of every lane `k`, while the scalar
`processFrame` writes (200, 100, 50): `_mm_packs_epi16` saturates as signed 8-bit, and
`_mm_cvtps_epi32` rounds to nearest where the scalar conversion truncates. -/
theorem ssePackBackground_differs_from_scalar (cur : ByteMem) (k : Fin 4) :
    (ssePackBackground (fun _ => (200 : ℚ)) (fun _ => 1007 / 10) (fun _ => 50) cur
        ⟨3 * k.val, by omega⟩ = 127 ∧
      ssePackBackground (fun _ => (200 : ℚ)) (fun _ => 1007 / 10) (fun _ => 50) cur
        ⟨3 * k.val + 1, by omega⟩ = 101 ∧
      ssePackBackground (fun _ => (200 : ℚ)) (fun _ => 1007 / 10) (fun _ => 50) cur
        ⟨3 * k.val + 2, by omega⟩ = 50) ∧
    processFrameBackground (⟨200, 1007 / 10, 50, 1, 1⟩ : Gaussian ℚ) = (200, 100, 50) := by
  have hfl : Int.floor (1007 / 10 : ℚ) = 100 := by
    rw [Int.floor_eq_iff]; norm_num
  have r200 : roundNearestEven (200 : ℚ) = 200 := by
    have := roundNearestEven_natCast (F := ℚ) 200
    simpa using this
  have r50 : roundNearestEven (50 : ℚ) = 50 := by
    have := roundNearestEven_natCast (F := ℚ) 50
    simpa using this
  have r101 : roundNearestEven (1007 / 10 : ℚ) = 101 := by
    simp only [roundNearestEven, hfl]
    norm_num
  obtain ⟨hB, hG, hR⟩ := ssePackBackground_byte (fun _ => (200 : ℚ)) (fun _ => 1007 / 10)
    (fun _ => 50) cur k
  refine ⟨⟨?_, ?_, ?_⟩, ?_⟩
  · rw [hB, sseChannelByte_eval _ 200 r200 (by norm_num) (by norm_num)]; rfl
  · rw [hG, sseChannelByte_eval _ 101 r101 (by norm_num) (by norm_num)]; rfl
  · rw [hR, sseChannelByte_eval _ 50 r50 (by norm_num) (by norm_num)]; rfl
  · have f200 : floatToUint8 (200 : ℚ) = 200 := by
      have := floatToUint8_natCast (F := ℚ) 200 (by norm_num)
      simpa using this
    have f50 : floatToUint8 (50 : ℚ) = 50 := by
      have := floatToUint8_natCast (F := ℚ) 50 (by norm_num)
      simpa using this
    have f100 : floatToUint8 (1007 / 10 : ℚ) = 100 := by
      have hpos : (0 : ℚ) ≤ 1007 / 10 := by norm_num
      simp only [floatToUint8, if_pos hpos, hfl]
      rfl
    simp only [processFrameBackground, f200, f50, f100]

end PackClaims

section PackedClaims
variable {F : Type} [LinearOrderedField F]

/-- C12. Colour deinterleaving is a pure layout transform: for 16 input bytes
`frame 0 .. frame 15` (each in 0..255), the registers `B`, `G`, `R` produced by the
shift/unpack/shuffle sequence at the head of `processPixelSSE2` satisfy
`B[k] = frame[3k]`, `G[k] = frame[3k+1]`, `R[k] = frame[3k+2]` in every lane `k`, and any
other input agreeing on bytes 0..11 yields the same registers (bytes 12..15 are not
used). -/
theorem sseLoadColours_deinterleaves (frame : ByteMem) (hf : ∀ i, i < 16 → frame i < 256) :
    (∀ k : Fin 4,
      (sseLoadColours frame : M128 F × M128 F × M128 F).1 k = ((frame (3 * k.val) : ℕ) : F) ∧
      (sseLoadColours frame : M128 F × M128 F × M128 F).2.1 k =
        ((frame (3 * k.val + 1) : ℕ) : F) ∧
      (sseLoadColours frame : M128 F × M128 F × M128 F).2.2 k =
        ((frame (3 * k.val + 2) : ℕ) : F)) ∧
    ∀ other : ByteMem, (∀ i, i < 12 → other i = frame i) →
      (sseLoadColours other : M128 F × M128 F × M128 F) = sseLoadColours frame := by
  constructor
  · intro k
    obtain ⟨hB, hG, hR⟩ := sseLoadColours_lane (F := F) frame k
    have hk := k.isLt
    rw [hB, hG, hR, Nat.mod_eq_of_lt (hf _ (by omega)), Nat.mod_eq_of_lt (hf _ (by omega)),
      Nat.mod_eq_of_lt (hf _ (by omega))]
    exact ⟨rfl, rfl, rfl⟩
  · intro other ho
    refine Prod.ext (funext fun k => ?_) (Prod.ext (funext fun k => ?_) (funext fun k => ?_))
    · have hk := k.isLt
      rw [(sseLoadColours_lane other k).1, (sseLoadColours_lane frame k).1, ho _ (by omega)]
    · have hk := k.isLt
      rw [(sseLoadColours_lane other k).2.1, (sseLoadColours_lane frame k).2.1,
        ho _ (by omega)]
    · have hk := k.isLt
      rw [(sseLoadColours_lane other k).2.2, (sseLoadColours_lane frame k).2.2,
        ho _ (by omega)]

/-- Witness for C12: the 16 bytes 10, 11, ..., 25 split into B = (10, 13, 16, 19),
G = (11, 14, 17, 20), R = (12, 15, 18, 21). -/
theorem sseLoadColours_deinterleaves_witness :
    (∀ i, i < 16 → (fun j => 10 + j : ByteMem) i < 256) ∧
    (∀ k : Fin 4,
      (sseLoadColours (fun j => 10 + j) : M128 ℚ × M128 ℚ × M128 ℚ).1 k =
        ((10 + 3 * k.val : ℕ) : ℚ) ∧
      (sseLoadColours (fun j => 10 + j) : M128 ℚ × M128 ℚ × M128 ℚ).2.1 k =
        ((10 + (3 * k.val + 1) : ℕ) : ℚ) ∧
      (sseLoadColours (fun j => 10 + j) : M128 ℚ × M128 ℚ × M128 ℚ).2.2 k =
        ((10 + (3 * k.val + 2) : ℕ) : ℚ)) :=
  ⟨fun i hi => by show 10 + i < 256; omega,
    (sseLoadColours_deinterleaves (F := ℚ) (fun j => 10 + j)
      (fun i hi => by show 10 + i < 256; omega)).1⟩

end PackedClaims

section PartitionClaims

/-- C13 fails on the code: with nPixels = 12 and nThreads = 2 (pixelsPerThread = 6, not a
multiple of 4) worker 0 addresses pixels 0..7 and worker 1 addresses pixels 6..13, so
pixel 6 (and 7) is addressed by two distinct workers. -/
theorem workers_overlap :
    workerPixels 12 2 0 = [0, 1, 2, 3, 4, 5, 6, 7] ∧
    workerPixels 12 2 1 = [6, 7, 8, 9, 10, 11, 12, 13] ∧
    6 ∈ workerPixels 12 2 0 ∧ 6 ∈ workerPixels 12 2 1 := by
  decide

/-- C14 fails on the code: with nPixels = 9 and nThreads = 2 pixel 8 is processed by no
kernel invocation of the dispatch, and with nPixels = 12 and nThreads = 2 pixel 6 is
processed by two. -/
theorem dispatch_skips_and_repeats :
    dispatchPixels 9 2 = [0, 1, 2, 3, 4, 5, 6, 7] ∧ (dispatchPixels 9 2).count 8 = 0 ∧
    dispatchGroups 12 2 = [0, 4, 6, 10] ∧ (dispatchPixels 12 2).count 6 = 2 := by
  decide

/-- C15 fails on the code: for a frame of 100 pixels one worker invokes the kernel at
0, 4, ..., 96 (25 groups) while eight workers (pixelsPerThread = 12) invoke it at
0, 4, ..., 92 only; for a frame of 12 pixels one worker invokes it at 0, 4, 8 and eight
workers at 0, 1, ..., 7. -/
theorem dispatch_one_vs_eight :
    dispatchGroups 100 1 = [0, 4, 8, 12, 16, 20, 24, 28, 32, 36, 40, 44, 48, 52, 56, 60, 64, 68,
      72, 76, 80, 84, 88, 92, 96] ∧
    dispatchGroups 100 8 = [0, 4, 8, 12, 16, 20, 24, 28, 32, 36, 40, 44, 48, 52, 56, 60, 64, 68,
      72, 76, 80, 84, 88, 92] ∧
    dispatchGroups 12 1 = [0, 4, 8] ∧ dispatchGroups 12 8 = [0, 1, 2, 3, 4, 5, 6, 7] := by
  decide

end PartitionClaims

section ConvergenceClaims
variable {F : Type} [LinearOrderedField F]

/-- C16. Convergence of the mean: starting from a zero-initialised mixture, for every
colour, learningRate in (0,1), initialVariance > 0 and initialWeight in (0,1), after
`n ≥ 100` calls of `processPixel` with that colour every component of maximum weight
has its mean equal to the colour in all three channels (for any `sqrt` that is
non-negative with `sqrt 0 = 0`, in particular the exact real one). -/
theorem feedConstant_mean_converged (ops : FloatOps F) (self : Background F) (bgr : Vec3b)
    (n : Nat) (k : Fin 3)
    (hlr0 : 0 < self.params.learningRate) (hlr1 : self.params.learningRate < 1)
    (_hiv : 0 < self.params.initialVariance)
    (hiw0 : 0 < self.params.initialWeight) (_hiw1 : self.params.initialWeight < 1)
    (hs0 : ops.sqrt 0 = 0) (hsn : ∀ x, 0 ≤ ops.sqrt x) (hn : 100 ≤ n)
    (hk : ∀ j : Fin 3, ((feedConstant ops self bgr zeroMixture n).1 j).weight ≤
      ((feedConstant ops self bgr zeroMixture n).1 k).weight) :
    ((feedConstant ops self bgr zeroMixture n).1 k).meanB = (bgr.c0 : F) ∧
    ((feedConstant ops self bgr zeroMixture n).1 k).meanG = (bgr.c1 : F) ∧
    ((feedConstant ops self bgr zeroMixture n).1 k).meanR = (bgr.c2 : F) := by
  obtain ⟨m, rfl⟩ : ∃ m, n = m + 1 := ⟨n - 1, by omega⟩
  exact constantFed_dominant bgr _
    (constantFed_feed ops self bgr hlr0 hlr1 hiw0 hs0 hsn m) k hk

/-- Witness for C16: the colour (10, 20, 30), 100 frames, the exact real functions and the
first component of maximum weight. -/
theorem feedConstant_mean_converged_witness :
    ((feedConstant (⟨Real.sqrt, Real.exp, Real.log, Real.rpow, Real.pi⟩ : FloatOps ℝ)
        (Background.init ⟨Real.sqrt, Real.exp, Real.log, Real.rpow, Real.pi⟩
          ⟨30, 1 / 20, 1 / 100, 8⟩) ⟨10, 20, 30⟩ zeroMixture 100).1
      (maxElement (feedConstant (⟨Real.sqrt, Real.exp, Real.log, Real.rpow, Real.pi⟩ : FloatOps ℝ)
        (Background.init ⟨Real.sqrt, Real.exp, Real.log, Real.rpow, Real.pi⟩
          ⟨30, 1 / 20, 1 / 100, 8⟩) ⟨10, 20, 30⟩ zeroMixture 100).1)).meanB = 10 := by
  have h := (feedConstant_mean_converged
    (⟨Real.sqrt, Real.exp, Real.log, Real.rpow, Real.pi⟩ : FloatOps ℝ)
    (Background.init ⟨Real.sqrt, Real.exp, Real.log, Real.rpow, Real.pi⟩
      ⟨30, 1 / 20, 1 / 100, 8⟩) ⟨10, 20, 30⟩ 100 _
    (by norm_num [Background.init]) (by norm_num [Background.init])
    (by norm_num [Background.init]) (by norm_num [Background.init])
    (by norm_num [Background.init]) Real.sqrt_zero Real.sqrt_nonneg (le_refl _)
    (maxElement_ge _)).1
  simpa using h

end ConvergenceClaims

section ZeroSumClaims
variable {F : Type} [LinearOrderedField F]

/-- C17 as stated fails: `processPixel` has no guard. For three zero-weight components
of variance 1 at the observed colour, component 0 matches, the three weights before the
renormalisation sum to 0 and the division `1.0 / weightSum` is by zero. -/
theorem processPixel_divides_by_zero :
    (beforeNormalize (⟨Real.sqrt, Real.exp, Real.log, Real.rpow, Real.pi⟩ : FloatOps ℝ)
        (Background.init ⟨Real.sqrt, Real.exp, Real.log, Real.rpow, Real.pi⟩
          ⟨30, 1 / 20, 1 / 100, 8⟩) ⟨0, 0, 0⟩ (fun _ => ⟨0, 0, 0, 1, 0⟩)).weightSum = 0 ∧
    processPixelChecked (⟨Real.sqrt, Real.exp, Real.log, Real.rpow, Real.pi⟩ : FloatOps ℝ)
        (Background.init ⟨Real.sqrt, Real.exp, Real.log, Real.rpow, Real.pi⟩
          ⟨30, 1 / 20, 1 / 100, 8⟩) ⟨0, 0, 0⟩ (fun _ => ⟨0, 0, 0, 1, 0⟩) = none := by
  have hfm : firstMatch (⟨Real.sqrt, Real.exp, Real.log, Real.rpow, Real.pi⟩ : FloatOps ℝ)
      ⟨0, 0, 0⟩ (fun _ => ⟨0, 0, 0, 1, 0⟩) = some 0 := by
    apply firstMatch_eq_some
    · simp [withinRange, sqDistance]
      norm_num
    · intro j hj; exact absurd hj (by simp)
  have hsome : (firstMatch (⟨Real.sqrt, Real.exp, Real.log, Real.rpow, Real.pi⟩ : FloatOps ℝ)
      ⟨0, 0, 0⟩ (fun _ => ⟨0, 0, 0, 1, 0⟩)).isSome = true := by rw [hfm]; rfl
  have hz : (beforeNormalize (⟨Real.sqrt, Real.exp, Real.log, Real.rpow, Real.pi⟩ : FloatOps ℝ)
        (Background.init ⟨Real.sqrt, Real.exp, Real.log, Real.rpow, Real.pi⟩
          ⟨30, 1 / 20, 1 / 100, 8⟩) ⟨0, 0, 0⟩ (fun _ => ⟨0, 0, 0, 1, 0⟩)).weightSum = 0 := by
    rw [beforeNormalize_matched _ _ _ _ hsome, matchLoop_weightSum]
    simp only [matchLoop_mixture, hfm]
    simp [matchUpdate, decayWeight]
  exact ⟨hz, by rw [processPixelChecked, if_pos hz]⟩

/-- C17, amended. `processPixel` divides by the weight sum without a guard, but for
learningRate in (0,1), initialWeight > 0 and an incoming mixture whose weights are
non-negative and sum to 1, the sum of the weights before the renormalisation is
positive, so the division is never by zero. -/
theorem processPixel_weightSum_pos (ops : FloatOps F) (self : Background F) (bgr : Vec3b)
    (mixture : GaussianMixture F)
    (hlr0 : 0 < self.params.learningRate) (hlr1 : self.params.learningRate < 1)
    (hiw : 0 < self.params.initialWeight)
    (hw : ∀ i : Fin 3, 0 ≤ (mixture i).weight)
    (hsum : (mixture 0).weight + (mixture 1).weight + (mixture 2).weight = 1) :
    0 < (beforeNormalize ops self bgr mixture).weightSum ∧
    (beforeNormalize ops self bgr mixture).weightSum =
      ((beforeNormalize ops self bgr mixture).mixture 0).weight +
      ((beforeNormalize ops self bgr mixture).mixture 1).weight +
      ((beforeNormalize ops self bgr mixture).mixture 2).weight ∧
    processPixelChecked ops self bgr mixture = some (processPixel ops self bgr mixture) := by
  have hpos := (beforeNormalize_weights ops self bgr mixture hlr0 hlr1 hiw hw hsum).2
  refine ⟨hpos, ?_, ?_⟩
  · rw [beforeNormalize_weightSum, sumWeights_eq]
  · simp [processPixelChecked, ne_of_gt hpos]

/-- Witness for the amended C17: three components of weight 1/3. -/
theorem processPixel_weightSum_pos_witness :
    0 < (beforeNormalize (⟨Real.sqrt, Real.exp, Real.log, Real.rpow, Real.pi⟩ : FloatOps ℝ)
        ⟨1, ⟨30, 1 / 20, 1 / 100, 8⟩⟩ ⟨1, 0, 0⟩ (fun _ => ⟨0, 0, 0, 1, 1 / 3⟩)).weightSum :=
  (processPixel_weightSum_pos (⟨Real.sqrt, Real.exp, Real.log, Real.rpow, Real.pi⟩ : FloatOps ℝ)
    ⟨1, ⟨30, 1 / 20, 1 / 100, 8⟩⟩ ⟨1, 0, 0⟩ (fun _ => ⟨0, 0, 0, 1, 1 / 3⟩)
    (by norm_num) (by norm_num) (by norm_num) (fun _ => by norm_num) (by norm_num)).1

end ZeroSumClaims

section RemainderClaims

end RemainderClaims

section MatchedWeightClaims
variable {F : Type} [LinearOrderedField F]

/-- C19. Weights after a match: when `m` is the first component passing the range test
and `S = w_m + (1 - learningRate) * (sum of the other two old weights)` is non-zero,
`processPixel` returns weight `w_m / S` for component `m` (its weight is not decayed)
and `(1 - learningRate) * w_j / S` for every other component `j`, whether `j` comes
before or after `m` in storage order. -/
theorem processPixel_matched_weights (ops : FloatOps F) (self : Background F) (bgr : Vec3b)
    (mixture : GaussianMixture F) (m : Fin 3) (S : F)
    (hm : ops.sqrt (sqDistance bgr (mixture m)) < 2.5 * ops.sqrt (mixture m).variance)
    (hfirst : ∀ j : Fin 3, j < m →
      ¬ ops.sqrt (sqDistance bgr (mixture j)) < 2.5 * ops.sqrt (mixture j).variance)
    (hS : S = (mixture m).weight + (1 - self.params.learningRate) *
      ((mixture 0).weight + (mixture 1).weight + (mixture 2).weight - (mixture m).weight))
    (_hS0 : S ≠ 0) :
    ((processPixel ops self bgr mixture).1 m).weight = (mixture m).weight / S ∧
    ∀ j : Fin 3, j ≠ m →
      ((processPixel ops self bgr mixture).1 j).weight =
        (1 - self.params.learningRate) * (mixture j).weight / S := by
  have hfm : firstMatch ops bgr mixture = some m :=
    firstMatch_eq_some ops bgr mixture m ((withinRange_iff ops bgr _).2 hm)
      (fun j hj => (withinRange_false_iff ops bgr _).2 (hfirst j hj))
  have hsome : (firstMatch ops bgr mixture).isSome = true := by simp [hfm]
  have hsum : (matchLoop ops self bgr mixture).weightSum = S := by
    rw [matchLoop_weightSum, hS]
    simp only [matchLoop_mixture, hfm]
    fin_cases m <;> simp [matchUpdate, decayWeight] <;> ring
  simp only [processPixel_mixture, beforeNormalize_matched ops self bgr mixture hsome, hsum,
    matchLoop_mixture, hfm]
  constructor
  · simp only [if_true, matchUpdate]
    ring
  · intro j hj
    have hne : ¬ (some m = some j) := fun h => hj (Option.some.inj h).symm
    simp only [hne, if_false, decayWeight]
    ring

/-- Witness for C19: components of variance 1 and weight 1/3 at the observed colour. -/
theorem processPixel_matched_weights_witness :
    ((1 / 3 : ℝ) + (1 - 1 / 2) * (1 / 3 + 1 / 3 + 1 / 3 - 1 / 3) ≠ 0) ∧
    ((processPixel (⟨Real.sqrt, Real.exp, Real.log, Real.rpow, Real.pi⟩ : FloatOps ℝ)
        ⟨1, ⟨30, 1 / 20, 1 / 2, 8⟩⟩ ⟨1, 0, 0⟩ (fun _ => ⟨0, 0, 0, 1, 1 / 3⟩)).1 0).weight =
      (1 / 3) / ((1 / 3 : ℝ) + (1 - 1 / 2) * (1 / 3 + 1 / 3 + 1 / 3 - 1 / 3)) := by
  have hS0 : (1 / 3 : ℝ) + (1 - 1 / 2) * (1 / 3 + 1 / 3 + 1 / 3 - 1 / 3) ≠ 0 := by norm_num
  exact ⟨hS0, (processPixel_matched_weights
    (⟨Real.sqrt, Real.exp, Real.log, Real.rpow, Real.pi⟩ : FloatOps ℝ)
    ⟨1, ⟨30, 1 / 20, 1 / 2, 8⟩⟩ ⟨1, 0, 0⟩ (fun _ => ⟨0, 0, 0, 1, 1 / 3⟩) 0 _
    (by simp [sqDistance]; norm_num) (fun j hj => absurd hj (by simp)) rfl hS0).1⟩

end MatchedWeightClaims

section MaskConvergenceClaims
variable {F : Type} [LinearOrderedField F]

/-- C20 as stated fails: with initialVariance = 200, learningRate = 1/2,
initialWeight = 1/2 and foregroundThreshold = 1, the 100th consecutive call of
`processPixel` with the colour (10, 20, 30) on a zero-initialised mixture still returns
true (foreground): the dominant variance is still at least 1, so
`epsilon_bg ≥ 2*log(2*pi) > 1`. -/
theorem feedConstant_still_foreground :
    (feedConstant (⟨Real.sqrt, Real.exp, Real.log, Real.rpow, Real.pi⟩ : FloatOps ℝ)
      (Background.init ⟨Real.sqrt, Real.exp, Real.log, Real.rpow, Real.pi⟩
        ⟨200, 1 / 2, 1 / 2, 1⟩) ⟨10, 20, 30⟩ zeroMixture 100).2 = true := by
  obtain ⟨v, hv0, -, hst⟩ := real_constant_run ⟨200, 1 / 2, 1 / 2, 1⟩ ⟨10, 20, 30⟩
    (by norm_num) (by norm_num) (by norm_num) 99 (by norm_num)
  have hv : 1 ≤ v := by norm_num at hv0; linarith
  have hsd : 1 ≤ Real.sqrt v := Real.one_le_sqrt.2 hv
  have hlog : 0 ≤ Real.log (Real.sqrt v) := Real.log_nonneg hsd
  have h2 := real_two_log_two_pi
  have hP : (processPixel (⟨Real.sqrt, Real.exp, Real.log, Real.rpow, Real.pi⟩ : FloatOps ℝ)
      (Background.init ⟨Real.sqrt, Real.exp, Real.log, Real.rpow, Real.pi⟩
        ⟨200, 1 / 2, 1 / 2, 1⟩) ⟨10, 20, 30⟩
      (feedConstant (⟨Real.sqrt, Real.exp, Real.log, Real.rpow, Real.pi⟩ : FloatOps ℝ)
        (Background.init ⟨Real.sqrt, Real.exp, Real.log, Real.rpow, Real.pi⟩
          ⟨200, 1 / 2, 1 / 2, 1⟩) ⟨10, 20, 30⟩ zeroMixture 99).1).1 = _ := hst
  show (processPixel _ _ _ _).2 = true
  simp only [processPixel] at hP ⊢
  rw [hP, maxElement_single]
  simp [epsilonBg, Background.init]
  linarith

/-- C20, amended. Starting from a zero-initialised mixture fed `n ≥ 100` times with one
colour (learningRate in (0,1), initialVariance > 0, initialWeight in (0,1),
foregroundThreshold > 0), the `n`-th call of `processPixel` returns true exactly when
`2*log(2*pi) + 3*log(sqrt(v)) > foregroundThreshold`, `v > 0` being the variance of the
maximum-weight component after that call: the colour-distance terms of `epsilon_bg`
vanish, and the mask is background iff that quantity is at most the threshold. -/
theorem feedConstant_mask_iff (ops : FloatOps F) (self : Background F) (bgr : Vec3b) (n : Nat)
    (hlr0 : 0 < self.params.learningRate) (hlr1 : self.params.learningRate < 1)
    (_hiv : 0 < self.params.initialVariance)
    (hiw0 : 0 < self.params.initialWeight) (_hiw1 : self.params.initialWeight < 1)
    (_hT : 0 < self.params.foregroundThreshold)
    (hs0 : ops.sqrt 0 = 0) (hsn : ∀ x, 0 ≤ ops.sqrt x) (hn : 100 ≤ n)
    (_hv : 0 < ((feedConstant ops self bgr zeroMixture n).1
      (maxElement (feedConstant ops self bgr zeroMixture n).1)).variance) :
    ((feedConstant ops self bgr zeroMixture n).2 = true ↔
      2 * ops.log (2 * ops.pi) + 3 * ops.log (ops.sqrt
        ((feedConstant ops self bgr zeroMixture n).1
          (maxElement (feedConstant ops self bgr zeroMixture n).1)).variance) >
        self.params.foregroundThreshold) := by
  obtain ⟨m, rfl⟩ : ∃ m, n = m + 1 := ⟨n - 1, by omega⟩
  obtain ⟨hB, hG, hR⟩ := constantFed_dominant bgr _
    (constantFed_feed ops self bgr hlr0 hlr1 hiw0 hs0 hsn m) _ (maxElement_ge _)
  have hflag : (feedConstant ops self bgr zeroMixture (m + 1)).2 =
      decide (epsilonBg ops bgr ((feedConstant ops self bgr zeroMixture (m + 1)).1
        (maxElement (feedConstant ops self bgr zeroMixture (m + 1)).1)) >
        self.params.foregroundThreshold) := rfl
  rw [hflag]
  simp only [epsilonBg, hB, hG, hR, sub_self, mul_zero, zero_mul, zero_div, add_zero,
    decide_eq_true_eq]

/-- Witness for the amended C20: initialVariance = 200, learningRate = 1/2, the colour
(10, 20, 30) and n = 100. -/
theorem feedConstant_mask_iff_witness :
    (0 < ((feedConstant (⟨Real.sqrt, Real.exp, Real.log, Real.rpow, Real.pi⟩ : FloatOps ℝ)
        (Background.init ⟨Real.sqrt, Real.exp, Real.log, Real.rpow, Real.pi⟩
          ⟨200, 1 / 2, 1 / 2, 1⟩) ⟨10, 20, 30⟩ zeroMixture 100).1
      (maxElement (feedConstant (⟨Real.sqrt, Real.exp, Real.log, Real.rpow, Real.pi⟩ : FloatOps ℝ)
        (Background.init ⟨Real.sqrt, Real.exp, Real.log, Real.rpow, Real.pi⟩
          ⟨200, 1 / 2, 1 / 2, 1⟩) ⟨10, 20, 30⟩ zeroMixture 100).1)).variance) ∧
    ((feedConstant (⟨Real.sqrt, Real.exp, Real.log, Real.rpow, Real.pi⟩ : FloatOps ℝ)
        (Background.init ⟨Real.sqrt, Real.exp, Real.log, Real.rpow, Real.pi⟩
          ⟨200, 1 / 2, 1 / 2, 1⟩) ⟨10, 20, 30⟩ zeroMixture 100).2 = true ↔
      2 * Real.log (2 * Real.pi) + 3 * Real.log (Real.sqrt
        ((feedConstant (⟨Real.sqrt, Real.exp, Real.log, Real.rpow, Real.pi⟩ : FloatOps ℝ)
          (Background.init ⟨Real.sqrt, Real.exp, Real.log, Real.rpow, Real.pi⟩
            ⟨200, 1 / 2, 1 / 2, 1⟩) ⟨10, 20, 30⟩ zeroMixture 100).1
        (maxElement (feedConstant (⟨Real.sqrt, Real.exp, Real.log, Real.rpow, Real.pi⟩ :
          FloatOps ℝ) (Background.init ⟨Real.sqrt, Real.exp, Real.log, Real.rpow, Real.pi⟩
            ⟨200, 1 / 2, 1 / 2, 1⟩) ⟨10, 20, 30⟩ zeroMixture 100).1)).variance) > 1) := by
  have hv : 0 < ((feedConstant (⟨Real.sqrt, Real.exp, Real.log, Real.rpow, Real.pi⟩ : FloatOps ℝ)
        (Background.init ⟨Real.sqrt, Real.exp, Real.log, Real.rpow, Real.pi⟩
          ⟨200, 1 / 2, 1 / 2, 1⟩) ⟨10, 20, 30⟩ zeroMixture 100).1
      (maxElement (feedConstant (⟨Real.sqrt, Real.exp, Real.log, Real.rpow, Real.pi⟩ : FloatOps ℝ)
        (Background.init ⟨Real.sqrt, Real.exp, Real.log, Real.rpow, Real.pi⟩
          ⟨200, 1 / 2, 1 / 2, 1⟩) ⟨10, 20, 30⟩ zeroMixture 100).1)).variance := by
    obtain ⟨v, hv0, -, hst⟩ := real_constant_run ⟨200, 1 / 2, 1 / 2, 1⟩ ⟨10, 20, 30⟩
      (by norm_num) (by norm_num) (by norm_num) 99 (by norm_num)
    rw [hst, maxElement_single]
    norm_num at hv0
    simp only [if_true]
    linarith
  exact ⟨hv, feedConstant_mask_iff _ _ _ 100 (by norm_num [Background.init])
    (by norm_num [Background.init]) (by norm_num [Background.init])
    (by norm_num [Background.init]) (by norm_num [Background.init])
    (by norm_num [Background.init]) Real.sqrt_zero Real.sqrt_nonneg (le_refl _) hv⟩

end MaskConvergenceClaims

section WeightLemmas
variable {F : Type} [LinearOrderedField F]

/-- The weights `processPixel` returns when `m` is the first component passing the range
test, in terms of the pre-normalisation sum `S`. -/
theorem processPixel_matched_weight_eq (ops : FloatOps F) (self : Background F) (bgr : Vec3b)
    (mixture : GaussianMixture F) (m : Fin 3)
    (hfm : firstMatch ops bgr mixture = some m) :
    ((processPixel ops self bgr mixture).1 m).weight =
      (mixture m).weight / ((mixture m).weight + (1 - self.params.learningRate) *
        ((mixture 0).weight + (mixture 1).weight + (mixture 2).weight - (mixture m).weight)) ∧
    ∀ j : Fin 3, j ≠ m →
      ((processPixel ops self bgr mixture).1 j).weight =
        (1 - self.params.learningRate) * (mixture j).weight /
          ((mixture m).weight + (1 - self.params.learningRate) *
            ((mixture 0).weight + (mixture 1).weight + (mixture 2).weight -
              (mixture m).weight)) := by
  have hsome : (firstMatch ops bgr mixture).isSome = true := by simp [hfm]
  have hsum : (matchLoop ops self bgr mixture).weightSum =
      (mixture m).weight + (1 - self.params.learningRate) *
        ((mixture 0).weight + (mixture 1).weight + (mixture 2).weight - (mixture m).weight) := by
    rw [matchLoop_weightSum]
    simp only [matchLoop_mixture, hfm]
    fin_cases m <;> simp [matchUpdate, decayWeight] <;> ring
  simp only [processPixel_mixture, beforeNormalize_matched ops self bgr mixture hsome, hsum,
    matchLoop_mixture, hfm]
  constructor
  · simp only [if_true, matchUpdate]
    ring
  · intro j hj
    have hne : ¬ (some m = some j) := fun h => hj (Option.some.inj h).symm
    simp only [hne, if_false, decayWeight]
    ring

/-- A convex combination with coefficient in (0,1) lies between its two end points. -/
theorem convex_between (rho a b : F) (h0 : 0 < rho) (h1 : rho < 1) :
    min a b ≤ (1 - rho) * a + rho * b ∧ (1 - rho) * a + rho * b ≤ max a b := by
  rcases le_total a b with h | h
  · rw [min_eq_left h, max_eq_right h]
    constructor <;> nlinarith
  · rw [min_eq_right h, max_eq_left h]
    constructor <;> nlinarith

end WeightLemmas

section SequentialLemmas

end SequentialLemmas

section BlockLayoutLemmas
variable {F : Type}

end BlockLayoutLemmas

section BlockLemmas
variable {F : Type} [LinearOrderedField F]

end BlockLemmas

section CounterLemmas
variable {C D : Type}

/-- The loop of `updateCounters` from an intermediate state: every remaining object that
is to be counted is marked, and each counter is incremented once per such object crossing
in its direction. -/
theorem updateCounters_foldl (ops : CounterOps C D) (objs : List (MovingObject C))
    (st : Classifier C D) :
    (objs.foldl (updateCountersStep ops) st).classifiedObjects =
      st.classifiedObjects ++ objs.map (fun o =>
        if toBeCounted ops o then { o with alreadyCounted := true } else o) ∧
    (objs.foldl (updateCountersStep ops) st).naturalDirection =
      Nat.iterate ops.incr
        (objs.countP (fun o => toBeCounted ops o && crossedNaturally ops o))
        st.naturalDirection ∧
    (objs.foldl (updateCountersStep ops) st).oppositeDirection =
      Nat.iterate ops.incr
        (objs.countP (fun o => toBeCounted ops o && !crossedNaturally ops o))
        st.oppositeDirection := by
  induction objs generalizing st with
  | nil => simp
  | cons o rest ih =>
    obtain ⟨h1, h2, h3⟩ := ih (updateCountersStep ops st o)
    rw [List.foldl_cons, h1, h2, h3]
    cases ht : toBeCounted ops o <;> cases hc : crossedNaturally ops o <;>
      simp [updateCountersStep, ht, hc, List.countP_cons, Function.iterate_succ_apply]

/-- After the marking, no object is to be counted. -/
theorem toBeCounted_marked (ops : CounterOps C D) (o : MovingObject C) :
    toBeCounted ops (if toBeCounted ops o then { o with alreadyCounted := true } else o) =
      false := by
  cases ht : toBeCounted ops o
  · simpa using ht
  · simp [toBeCounted]

end CounterLemmas

section WeightClaims
variable {F : Type} [LinearOrderedField F]

/-- C21. Weights stay in [0,1]: for learningRate in (0,1), initialWeight in (0,1) and a
mixture whose weights are all in [0,1] and sum to 1, every weight of the mixture returned
by `processPixel` is again in [0,1]. -/
theorem processPixel_weights_in_unit_interval (ops : FloatOps F) (self : Background F)
    (bgr : Vec3b) (mixture : GaussianMixture F)
    (hlr0 : 0 < self.params.learningRate) (hlr1 : self.params.learningRate < 1)
    (hiw0 : 0 < self.params.initialWeight) (_hiw1 : self.params.initialWeight < 1)
    (hw : ∀ i, 0 ≤ (mixture i).weight ∧ (mixture i).weight ≤ 1)
    (hsum : (mixture 0).weight + (mixture 1).weight + (mixture 2).weight = 1) :
    ∀ i, 0 ≤ ((processPixel ops self bgr mixture).1 i).weight ∧
      ((processPixel ops self bgr mixture).1 i).weight ≤ 1 := by
  obtain ⟨hnn, hpos⟩ := beforeNormalize_weights ops self bgr mixture hlr0 hlr1 hiw0
    (fun i => (hw i).1) hsum
  intro i
  have hle : ((beforeNormalize ops self bgr mixture).mixture i).weight ≤
      (beforeNormalize ops self bgr mixture).weightSum := by
    rw [beforeNormalize_weightSum, sumWeights_eq]
    have h0 := hnn 0
    have h1 := hnn 1
    have h2 := hnn 2
    fin_cases i <;> simp <;> linarith
  rw [processPixel_mixture]
  simp only [mul_one_div]
  exact ⟨div_nonneg (hnn i) hpos.le, (div_le_one hpos).2 hle⟩

/-- Witness for C21: three components of weight 1/3 and variance 1 at the observed
colour; the weight returned for component 0 is in [0,1]. -/
theorem processPixel_weights_in_unit_interval_witness :
    0 ≤ ((processPixel (⟨Real.sqrt, Real.exp, Real.log, Real.rpow, Real.pi⟩ : FloatOps ℝ)
        ⟨1, ⟨30, 1 / 20, 1 / 2, 8⟩⟩ ⟨1, 0, 0⟩ (fun _ => ⟨0, 0, 0, 1, 1 / 3⟩)).1 0).weight ∧
      ((processPixel (⟨Real.sqrt, Real.exp, Real.log, Real.rpow, Real.pi⟩ : FloatOps ℝ)
        ⟨1, ⟨30, 1 / 20, 1 / 2, 8⟩⟩ ⟨1, 0, 0⟩ (fun _ => ⟨0, 0, 0, 1, 1 / 3⟩)).1 0).weight ≤ 1 :=
  processPixel_weights_in_unit_interval _ _ _ _ (by norm_num) (by norm_num) (by norm_num)
    (by norm_num) (fun _ => by norm_num) (by norm_num) 0

/-- C22. Threshold monotonicity: for two thresholds `T1 ≤ T2` and otherwise equal
configuration, `processPixel` returns the same updated mixture, and a pixel classified as
foreground with `foregroundThreshold = T2` is classified as foreground with
`foregroundThreshold = T1`. -/
theorem processPixel_threshold_monotone (ops : FloatOps F) (self : Background F) (bgr : Vec3b)
    (mixture : GaussianMixture F) (T1 T2 : F) (hT : T1 ≤ T2) :
    (processPixel ops { self with params := { self.params with foregroundThreshold := T1 } }
        bgr mixture).1 =
      (processPixel ops { self with params := { self.params with foregroundThreshold := T2 } }
        bgr mixture).1 ∧
    ((processPixel ops { self with params := { self.params with foregroundThreshold := T2 } }
        bgr mixture).2 = true →
      (processPixel ops { self with params := { self.params with foregroundThreshold := T1 } }
        bgr mixture).2 = true) := by
  have hmix : (processPixel ops
      { self with params := { self.params with foregroundThreshold := T1 } } bgr mixture).1 =
      (processPixel ops
        { self with params := { self.params with foregroundThreshold := T2 } } bgr mixture).1 :=
    rfl
  refine ⟨hmix, ?_⟩
  intro h2
  have e1 : (processPixel ops
      { self with params := { self.params with foregroundThreshold := T1 } } bgr mixture).2 =
      decide (epsilonBg ops bgr ((processPixel ops
        { self with params := { self.params with foregroundThreshold := T1 } } bgr mixture).1
        (maxElement (processPixel ops
        { self with params := { self.params with foregroundThreshold := T1 } } bgr mixture).1))
        > T1) := rfl
  have e2 : (processPixel ops
      { self with params := { self.params with foregroundThreshold := T2 } } bgr mixture).2 =
      decide (epsilonBg ops bgr ((processPixel ops
        { self with params := { self.params with foregroundThreshold := T2 } } bgr mixture).1
        (maxElement (processPixel ops
        { self with params := { self.params with foregroundThreshold := T2 } } bgr mixture).1))
        > T2) := rfl
  rw [e2, decide_eq_true_eq] at h2
  rw [e1, decide_eq_true_eq, hmix]
  exact lt_of_le_of_lt hT h2

/-- Witness for C22: thresholds 1 and 8 on a mixture of three components of weight 1/3. -/
theorem processPixel_threshold_monotone_witness :
    (1 : ℝ) ≤ 8 ∧
    (processPixel (⟨Real.sqrt, Real.exp, Real.log, Real.rpow, Real.pi⟩ : FloatOps ℝ)
        { (⟨1, ⟨30, 1 / 20, 1 / 2, 8⟩⟩ : Background ℝ) with
          params := { (⟨30, 1 / 20, 1 / 2, 8⟩ : BackgroundParameters ℝ) with
            foregroundThreshold := 1 } }
        ⟨1, 0, 0⟩ (fun _ => ⟨0, 0, 0, 1, 1 / 3⟩)).1 =
      (processPixel (⟨Real.sqrt, Real.exp, Real.log, Real.rpow, Real.pi⟩ : FloatOps ℝ)
        { (⟨1, ⟨30, 1 / 20, 1 / 2, 8⟩⟩ : Background ℝ) with
          params := { (⟨30, 1 / 20, 1 / 2, 8⟩ : BackgroundParameters ℝ) with
            foregroundThreshold := 8 } }
        ⟨1, 0, 0⟩ (fun _ => ⟨0, 0, 0, 1, 1 / 3⟩)).1 :=
  ⟨by norm_num, (processPixel_threshold_monotone
    (⟨Real.sqrt, Real.exp, Real.log, Real.rpow, Real.pi⟩ : FloatOps ℝ)
    ⟨1, ⟨30, 1 / 20, 1 / 2, 8⟩⟩ ⟨1, 0, 0⟩ (fun _ => ⟨0, 0, 0, 1, 1 / 3⟩) 1 8
    (by norm_num)).1⟩

end WeightClaims

section BlockClaims
variable {F : Type} [LinearOrderedField F]

end BlockClaims

section MatchedGainClaims
variable {F : Type} [LinearOrderedField F]

/-- C24. A confirmed component gains relative weight: for learningRate in (0,1) and a
mixture whose weights are non-negative and sum to 1, if `m` is the component that matches
(the first one passing the range test) then its weight after `processPixel` is at least
its weight before (strictly greater when `0 < w_m < 1`), and the weight of every other
component after the call is at most its weight before. -/
theorem processPixel_matched_weight_gains (ops : FloatOps F) (self : Background F)
    (bgr : Vec3b) (mixture : GaussianMixture F) (m : Fin 3)
    (hlr0 : 0 < self.params.learningRate) (hlr1 : self.params.learningRate < 1)
    (hw : ∀ i, 0 ≤ (mixture i).weight)
    (hsum : (mixture 0).weight + (mixture 1).weight + (mixture 2).weight = 1)
    (hm : ops.sqrt (sqDistance bgr (mixture m)) < 2.5 * ops.sqrt (mixture m).variance)
    (hfirst : ∀ j : Fin 3, j < m →
      ¬ ops.sqrt (sqDistance bgr (mixture j)) < 2.5 * ops.sqrt (mixture j).variance) :
    (mixture m).weight ≤ ((processPixel ops self bgr mixture).1 m).weight ∧
    (0 < (mixture m).weight → (mixture m).weight < 1 →
      (mixture m).weight < ((processPixel ops self bgr mixture).1 m).weight) ∧
    ∀ j : Fin 3, j ≠ m →
      ((processPixel ops self bgr mixture).1 j).weight ≤ (mixture j).weight := by
  have hfm : firstMatch ops bgr mixture = some m :=
    firstMatch_eq_some ops bgr mixture m ((withinRange_iff ops bgr _).2 hm)
      (fun j hj => (withinRange_false_iff ops bgr _).2 (hfirst j hj))
  obtain ⟨hwm, hwj⟩ := processPixel_matched_weight_eq ops self bgr mixture m hfm
  have hm0 := hw m
  have hm1 : (mixture m).weight ≤ 1 := by
    have h0 := hw 0
    have h1 := hw 1
    have h2 := hw 2
    fin_cases m <;> simp <;> linarith
  have hS : (mixture m).weight + (1 - self.params.learningRate) *
      ((mixture 0).weight + (mixture 1).weight + (mixture 2).weight - (mixture m).weight) =
      (1 - self.params.learningRate) + self.params.learningRate * (mixture m).weight := by
    rw [hsum]; ring
  rw [hS] at hwm hwj
  have hSpos : 0 < (1 - self.params.learningRate) +
      self.params.learningRate * (mixture m).weight := by
    have := mul_nonneg hlr0.le hm0
    linarith
  have hSle : (1 - self.params.learningRate) +
      self.params.learningRate * (mixture m).weight ≤ 1 := by nlinarith
  refine ⟨?_, ?_, ?_⟩
  · rw [hwm, le_div_iff₀ hSpos]
    nlinarith
  · intro h0 h1
    have hS1 : (1 - self.params.learningRate) +
        self.params.learningRate * (mixture m).weight < 1 := by
      nlinarith [mul_pos hlr0 (sub_pos.2 h1)]
    rw [hwm, lt_div_iff₀ hSpos]
    nlinarith [mul_pos h0 (sub_pos.2 hS1)]
  · intro j hj
    rw [hwj j hj, div_le_iff₀ hSpos]
    have := hw j
    have h3 := mul_nonneg hlr0.le hm0
    nlinarith

/-- Witness for C24: three components of weight 1/3 and variance 1 at distance 1 from
the observed colour; component 0 matches. -/
theorem processPixel_matched_weight_gains_witness :
    (1 / 3 : ℝ) ≤ ((processPixel (⟨Real.sqrt, Real.exp, Real.log, Real.rpow, Real.pi⟩ :
        FloatOps ℝ) ⟨1, ⟨30, 1 / 20, 1 / 2, 8⟩⟩ ⟨1, 0, 0⟩
        (fun _ => ⟨0, 0, 0, 1, 1 / 3⟩)).1 0).weight :=
  (processPixel_matched_weight_gains
    (⟨Real.sqrt, Real.exp, Real.log, Real.rpow, Real.pi⟩ : FloatOps ℝ)
    ⟨1, ⟨30, 1 / 20, 1 / 2, 8⟩⟩ ⟨1, 0, 0⟩ (fun _ => ⟨0, 0, 0, 1, 1 / 3⟩) 0
    (by norm_num) (by norm_num) (fun _ => by norm_num) (by norm_num)
    (by simp [sqDistance]; norm_num) (fun j hj => absurd hj (by simp))).1

end MatchedGainClaims

section StepClaims

/-- C25. Bounded learning step under a variance floor (exact real functions, `etaConst`
as set by the constructor): for learningRate in (0,1), if `m` is the component that
matches and its variance is at least 1, the step
`rho = learningRate * exp(-0.5*d/variance) / ((2*pi)^1.5 * sqrt(variance)^3)` satisfies
`0 < rho < 1`, every mean channel returned by `processPixel` for `m` is
`(1-rho)*old + rho*observed` and lies between the old mean and the observed value (so a
mean in [0,255] stays in [0,255] for an observed byte), and the new variance is > 0. -/
theorem processPixel_bounded_step (params : BackgroundParameters ℝ) (bgr : Vec3b)
    (mixture : GaussianMixture ℝ) (m : Fin 3)
    (hlr0 : 0 < params.learningRate) (hlr1 : params.learningRate < 1)
    (hm : Real.sqrt (sqDistance bgr (mixture m)) < 2.5 * Real.sqrt (mixture m).variance)
    (hfirst : ∀ j : Fin 3, j < m →
      ¬ Real.sqrt (sqDistance bgr (mixture j)) < 2.5 * Real.sqrt (mixture j).variance)
    (hv : 1 ≤ (mixture m).variance) :
    ∃ rho : ℝ,
      rho = params.learningRate *
        Real.exp (-0.5 * sqDistance bgr (mixture m) / (mixture m).variance) /
          (Real.rpow (2 * Real.pi) (3 / 2) * Real.sqrt (mixture m).variance ^ 3) ∧
      0 < rho ∧ rho < 1 ∧
      (∀ g : Gaussian ℝ, g = (processPixel
          (⟨Real.sqrt, Real.exp, Real.log, Real.rpow, Real.pi⟩ : FloatOps ℝ)
          (Background.init ⟨Real.sqrt, Real.exp, Real.log, Real.rpow, Real.pi⟩ params)
          bgr mixture).1 m →
        (g.meanB = (1 - rho) * (mixture m).meanB + rho * (bgr.c0 : ℝ) ∧
          g.meanG = (1 - rho) * (mixture m).meanG + rho * (bgr.c1 : ℝ) ∧
          g.meanR = (1 - rho) * (mixture m).meanR + rho * (bgr.c2 : ℝ)) ∧
        (min (mixture m).meanB (bgr.c0 : ℝ) ≤ g.meanB ∧
          g.meanB ≤ max (mixture m).meanB (bgr.c0 : ℝ)) ∧
        (min (mixture m).meanG (bgr.c1 : ℝ) ≤ g.meanG ∧
          g.meanG ≤ max (mixture m).meanG (bgr.c1 : ℝ)) ∧
        (min (mixture m).meanR (bgr.c2 : ℝ) ≤ g.meanR ∧
          g.meanR ≤ max (mixture m).meanR (bgr.c2 : ℝ)) ∧
        (bgr.c0 ≤ 255 → 0 ≤ (mixture m).meanB → (mixture m).meanB ≤ 255 →
          0 ≤ g.meanB ∧ g.meanB ≤ 255) ∧
        (bgr.c1 ≤ 255 → 0 ≤ (mixture m).meanG → (mixture m).meanG ≤ 255 →
          0 ≤ g.meanG ∧ g.meanG ≤ 255) ∧
        (bgr.c2 ≤ 255 → 0 ≤ (mixture m).meanR → (mixture m).meanR ≤ 255 →
          0 ≤ g.meanR ∧ g.meanR ≤ 255) ∧
        0 < g.variance) := by
  have hfm : firstMatch (⟨Real.sqrt, Real.exp, Real.log, Real.rpow, Real.pi⟩ : FloatOps ℝ)
      bgr mixture = some m :=
    firstMatch_eq_some _ bgr mixture m ((withinRange_iff _ bgr _).2 hm)
      (fun j hj => (withinRange_false_iff _ bgr _).2 (hfirst j hj))
  have hsome : (firstMatch (⟨Real.sqrt, Real.exp, Real.log, Real.rpow, Real.pi⟩ : FloatOps ℝ)
      bgr mixture).isSome = true := by rw [hfm]; rfl
  obtain ⟨hr0, hr1⟩ := real_matchRho_bounds params bgr (mixture m) hlr0 hlr1 hv
  refine ⟨matchRho (⟨Real.sqrt, Real.exp, Real.log, Real.rpow, Real.pi⟩ : FloatOps ℝ)
    (Background.init ⟨Real.sqrt, Real.exp, Real.log, Real.rpow, Real.pi⟩ params) bgr
    (mixture m), ?_, hr0, hr1, ?_⟩
  · simp only [matchRho, Background.init]
    rw [← mul_div_assoc]
    congr 1
    ring
  · intro g hg
    have hB : g.meanB = (1 - matchRho (⟨Real.sqrt, Real.exp, Real.log, Real.rpow, Real.pi⟩ :
        FloatOps ℝ) (Background.init ⟨Real.sqrt, Real.exp, Real.log, Real.rpow, Real.pi⟩ params)
        bgr (mixture m)) * (mixture m).meanB + matchRho
        (⟨Real.sqrt, Real.exp, Real.log, Real.rpow, Real.pi⟩ : FloatOps ℝ)
        (Background.init ⟨Real.sqrt, Real.exp, Real.log, Real.rpow, Real.pi⟩ params)
        bgr (mixture m) * (bgr.c0 : ℝ) := by
      rw [hg, processPixel_mixture, beforeNormalize_matched _ _ _ _ hsome, matchLoop_mixture,
        hfm]
      simp only [if_true, matchUpdate]
    have hG : g.meanG = (1 - matchRho (⟨Real.sqrt, Real.exp, Real.log, Real.rpow, Real.pi⟩ :
        FloatOps ℝ) (Background.init ⟨Real.sqrt, Real.exp, Real.log, Real.rpow, Real.pi⟩ params)
        bgr (mixture m)) * (mixture m).meanG + matchRho
        (⟨Real.sqrt, Real.exp, Real.log, Real.rpow, Real.pi⟩ : FloatOps ℝ)
        (Background.init ⟨Real.sqrt, Real.exp, Real.log, Real.rpow, Real.pi⟩ params)
        bgr (mixture m) * (bgr.c1 : ℝ) := by
      rw [hg, processPixel_mixture, beforeNormalize_matched _ _ _ _ hsome, matchLoop_mixture,
        hfm]
      simp only [if_true, matchUpdate]
    have hR : g.meanR = (1 - matchRho (⟨Real.sqrt, Real.exp, Real.log, Real.rpow, Real.pi⟩ :
        FloatOps ℝ) (Background.init ⟨Real.sqrt, Real.exp, Real.log, Real.rpow, Real.pi⟩ params)
        bgr (mixture m)) * (mixture m).meanR + matchRho
        (⟨Real.sqrt, Real.exp, Real.log, Real.rpow, Real.pi⟩ : FloatOps ℝ)
        (Background.init ⟨Real.sqrt, Real.exp, Real.log, Real.rpow, Real.pi⟩ params)
        bgr (mixture m) * (bgr.c2 : ℝ) := by
      rw [hg, processPixel_mixture, beforeNormalize_matched _ _ _ _ hsome, matchLoop_mixture,
        hfm]
      simp only [if_true, matchUpdate]
    have hV : g.variance = (1 - matchRho (⟨Real.sqrt, Real.exp, Real.log, Real.rpow, Real.pi⟩ :
        FloatOps ℝ) (Background.init ⟨Real.sqrt, Real.exp, Real.log, Real.rpow, Real.pi⟩ params)
        bgr (mixture m)) * (mixture m).variance + matchRho
        (⟨Real.sqrt, Real.exp, Real.log, Real.rpow, Real.pi⟩ : FloatOps ℝ)
        (Background.init ⟨Real.sqrt, Real.exp, Real.log, Real.rpow, Real.pi⟩ params)
        bgr (mixture m) * sqDistance bgr (mixture m) := by
      rw [hg, processPixel_mixture, beforeNormalize_matched _ _ _ _ hsome, matchLoop_mixture,
        hfm]
      simp only [if_true, matchUpdate]
    have cB := convex_between _ (mixture m).meanB (bgr.c0 : ℝ) hr0 hr1
    have cG := convex_between _ (mixture m).meanG (bgr.c1 : ℝ) hr0 hr1
    have cR := convex_between _ (mixture m).meanR (bgr.c2 : ℝ) hr0 hr1
    have hd := sqDistance_nonneg bgr (mixture m)
    have byteRange : ∀ (c : Nat) (x y : ℝ), min x (c : ℝ) ≤ y → y ≤ max x (c : ℝ) →
        c ≤ 255 → 0 ≤ x → x ≤ 255 → 0 ≤ y ∧ y ≤ 255 := by
      intro c x y h1 h2 hc hx0 hx1
      have hc0 : (0 : ℝ) ≤ (c : ℝ) := Nat.cast_nonneg c
      have hc1 : (c : ℝ) ≤ 255 := by exact_mod_cast hc
      exact ⟨le_trans (le_min hx0 hc0) h1, le_trans h2 (max_le hx1 hc1)⟩
    rw [← hB] at cB
    rw [← hG] at cG
    rw [← hR] at cR
    refine ⟨⟨hB, hG, hR⟩, cB, cG, cR, byteRange _ _ _ cB.1 cB.2, byteRange _ _ _ cG.1 cG.2,
      byteRange _ _ _ cR.1 cR.2, ?_⟩
    rw [hV]
    have h1 : 0 < (1 - matchRho (⟨Real.sqrt, Real.exp, Real.log, Real.rpow, Real.pi⟩ :
        FloatOps ℝ) (Background.init ⟨Real.sqrt, Real.exp, Real.log, Real.rpow, Real.pi⟩ params)
        bgr (mixture m)) * (mixture m).variance := mul_pos (by linarith) (by linarith)
    have h2 := mul_nonneg hr0.le hd
    linarith

/-- Witness for C25: three components of variance 1 at distance 1 from the observed
colour; component 0 matches. -/
theorem processPixel_bounded_step_witness :
    ∃ rho : ℝ, 0 < rho ∧ rho < 1 ∧
      0 < ((processPixel (⟨Real.sqrt, Real.exp, Real.log, Real.rpow, Real.pi⟩ : FloatOps ℝ)
        (Background.init ⟨Real.sqrt, Real.exp, Real.log, Real.rpow, Real.pi⟩
          ⟨30, 1 / 20, 1 / 2, 8⟩)
        ⟨1, 0, 0⟩ (fun _ => ⟨0, 0, 0, 1, 1 / 3⟩)).1 0).variance := by
  obtain ⟨rho, -, h0, h1, h⟩ := processPixel_bounded_step ⟨30, 1 / 20, 1 / 2, 8⟩ ⟨1, 0, 0⟩
    (fun _ => ⟨0, 0, 0, 1, 1 / 3⟩) 0 (by norm_num) (by norm_num)
    (by simp [sqDistance]; norm_num) (fun j hj => absurd hj (by simp)) (by norm_num)
  exact ⟨rho, h0, h1, (h _ rfl).2.2.2.2.2.2.2⟩

end StepClaims

section SequentialClaims

end SequentialClaims

section StoreClaims
variable {F : Type} [LinearOrderedField F] [FloorRing F]

/-- C27. The background write touches only its own 12 bytes: for every 16-byte content of
the destination and every computed `bgB`, `bgG`, `bgR`, the 16 bytes stored by
`processPixelSSE2` hold at offsets 3k, 3k+1, 3k+2 the packed B, G, R values of lane `k`
(bytes 0..11) and at offsets 12..15 the bytes the destination held before. -/
theorem ssePackBackground_frame (bgB bgG bgR : M128 F) (cur : ByteMem)
    (hcur : ∀ i, i < 16 → cur i < 256) :
    (∀ k : Fin 4,
      ssePackBackground bgB bgG bgR cur ⟨3 * k.val, by omega⟩ = sseChannelByte (bgB k) ∧
      ssePackBackground bgB bgG bgR cur ⟨3 * k.val + 1, by omega⟩ = sseChannelByte (bgG k) ∧
      ssePackBackground bgB bgG bgR cur ⟨3 * k.val + 2, by omega⟩ = sseChannelByte (bgR k)) ∧
    ∀ i : Fin 16, 12 ≤ i.val → ssePackBackground bgB bgG bgR cur i = cur i.val := by
  refine ⟨fun k => ssePackBackground_byte bgB bgG bgR cur k, ?_⟩
  intro i hi
  rw [ssePackBackground_tail bgB bgG bgR cur i hi, Nat.mod_eq_of_lt (hcur _ i.isLt)]

/-- Witness for C27: the destination bytes 100, 101, ..., 115 and a background of
(10, 20, 30) in every lane; byte 13 keeps its value 113. -/
theorem ssePackBackground_frame_witness :
    (∀ i, i < 16 → (fun j => 100 + j : ByteMem) i < 256) ∧
    ssePackBackground (fun _ => (10 : ℚ)) (fun _ => 20) (fun _ => 30) (fun j => 100 + j)
      (13 : Fin 16) = 113 :=
  ⟨fun i hi => by show 100 + i < 256; omega,
    (ssePackBackground_frame (fun _ => (10 : ℚ)) (fun _ => 20) (fun _ => 30)
      (fun j => 100 + j) (fun i hi => by show 100 + i < 256; omega)).2 13 (by decide)⟩

end StoreClaims

section CounterClaims
variable {C D : Type}

/-- C28. Each tracked object is counted at most once: `Classifier::updateCounters` marks
`alreadyCounted` exactly the objects with two recorded collisions that were not yet
counted and leaves the other objects unchanged; the natural-direction counter is
incremented once for each such object whose line-0 frame number is strictly less than its
line-1 frame number and the opposite-direction counter once for each other such object;
and a second call on the resulting state changes nothing. -/
theorem updateCounters_counts_once (ops : CounterOps C D) (self : Classifier C D) :
    (self.updateCounters ops).classifiedObjects =
      self.classifiedObjects.map (fun o =>
        if decide (ops.size o.collisions = 2) && !o.alreadyCounted then
          { o with alreadyCounted := true } else o) ∧
    (self.updateCounters ops).naturalDirection =
      Nat.iterate ops.incr
        (self.classifiedObjects.countP (fun o =>
          (decide (ops.size o.collisions = 2) && !o.alreadyCounted) &&
            decide (ops.lookup o.collisions 0 % 2 ^ 32 < ops.lookup o.collisions 1 % 2 ^ 32)))
        self.naturalDirection ∧
    (self.updateCounters ops).oppositeDirection =
      Nat.iterate ops.incr
        (self.classifiedObjects.countP (fun o =>
          (decide (ops.size o.collisions = 2) && !o.alreadyCounted) &&
            !decide (ops.lookup o.collisions 0 % 2 ^ 32 < ops.lookup o.collisions 1 % 2 ^ 32)))
        self.oppositeDirection ∧
    (self.updateCounters ops).updateCounters ops = self.updateCounters ops := by
  obtain ⟨h1, h2, h3⟩ := updateCounters_foldl ops self.classifiedObjects
    { self with classifiedObjects := [] }
  have h1a : (self.updateCounters ops).classifiedObjects =
      self.classifiedObjects.map (fun o =>
        if toBeCounted ops o then { o with alreadyCounted := true } else o) := by
    simpa [Classifier.updateCounters] using h1
  refine ⟨h1a, h2, h3, ?_⟩
  obtain ⟨k1, k2, k3⟩ := updateCounters_foldl ops (self.updateCounters ops).classifiedObjects
    { self.updateCounters ops with classifiedObjects := [] }
  have hnone : ∀ o ∈ (self.updateCounters ops).classifiedObjects, toBeCounted ops o = false := by
    intro o ho
    rw [h1a, List.mem_map] at ho
    obtain ⟨o1, -, rfl⟩ := ho
    exact toBeCounted_marked ops o1
  have hmap : (self.updateCounters ops).classifiedObjects.map (fun o =>
      if toBeCounted ops o then { o with alreadyCounted := true } else o) =
      (self.updateCounters ops).classifiedObjects := by
    conv_rhs => rw [← List.map_id (self.updateCounters ops).classifiedObjects]
    apply List.map_congr_left
    intro o ho
    simp [hnone o ho]
  have hc1 : (self.updateCounters ops).classifiedObjects.countP
      (fun o => toBeCounted ops o && crossedNaturally ops o) = 0 := by
    rw [List.countP_eq_zero]
    intro o ho
    simp [hnone o ho]
  have hc2 : (self.updateCounters ops).classifiedObjects.countP
      (fun o => toBeCounted ops o && !crossedNaturally ops o) = 0 := by
    rw [List.countP_eq_zero]
    intro o ho
    simp [hnone o ho]
  rw [hmap] at k1
  rw [hc1] at k2
  rw [hc2] at k3
  have e : ∀ a b : Classifier C D, a.classifiedObjects = b.classifiedObjects →
      a.naturalDirection = b.naturalDirection → a.oppositeDirection = b.oppositeDirection →
      a = b := by
    intro a b ha hb hc
    cases a; cases b; simp_all
  apply e
  · simpa [Classifier.updateCounters] using k1
  · simpa [Classifier.updateCounters] using k2
  · simpa [Classifier.updateCounters] using k3

end CounterClaims

end Tim
